import Mathlib

/-!
# ALB ingress controller: reconciliation and diffing engine

A shallow embedding of the controller's reconcile / garbage-collection code
(`internal/alb/tg`, `internal/nlb/ls`, `pkg/deploy/elbv2`) and of the admission
validator of target group bindings (`webhooks/elbv2`).

Conventions of the embedding:

* A Go `map[K]V` is a `GoMap K V`: a list of bindings in which the binding
  closest to the head wins. Assignment `m[k] = v` puts a binding at the head,
  so every list denotes a map and no well-formedness side condition is needed.
* A `sets.String` / `sets.Int64` is a `GoSet`: a duplicate-free list built only
  through the set operations.
* `for ... range` over a map or a set visits the entries in an order the
  language leaves unspecified: each such loop takes a `RangeOrder`, an arbitrary
  permutation of the entries.
* External collaborators (cloud API, listener manager, store, reconcilers behind
  an interface) are records of response functions over an abstract state `σ`;
  every function returns the calls it issued, in order, next to its result.
* A Go `error` is its message, a `String`.
-/

/-! ## Go maps, sets and iteration order -/

/-- A Go map: bindings, the one closest to the head wins. -/
structure GoMap (K V : Type) where
  bindings : List (K × V)
deriving DecidableEq, Repr

namespace GoMap
variable {K V : Type}

/-- The empty (or nil) map. -/
def empty : GoMap K V := ⟨[]⟩

/-- Assignment `m[k] = v`. -/
def set (m : GoMap K V) (k : K) (v : V) : GoMap K V := ⟨(k, v) :: m.bindings⟩

/-- First binding of `k` in a list of bindings. -/
def lookup [DecidableEq K] : List (K × V) → K → Option V
  | [], _ => none
  | (k', v) :: rest, k => if k' = k then some v else lookup rest k

/-- Index `m[k]` with the comma-ok form: `none` when the key is absent. -/
def get? [DecidableEq K] (m : GoMap K V) (k : K) : Option V := lookup m.bindings k

/-- The keys of the map, each once. -/
def keys [DecidableEq K] (m : GoMap K V) : List K := (m.bindings.map Prod.fst).dedup

/-- The entries of the map, one per key, with the value the map holds for it. -/
def entries [DecidableEq K] (m : GoMap K V) : List (K × V) :=
  m.keys.filterMap (fun k => (m.get? k).map (fun v => (k, v)))

end GoMap

/-- A `k8s.io/apimachinery/pkg/util/sets` set: a duplicate-free list. -/
structure GoSet (α : Type) where
  elems : List α
deriving DecidableEq, Repr

namespace GoSet
variable {α : Type} [DecidableEq α]

/-- The call `sets.NewString()` / `sets.NewInt64()` without items. -/
def empty : GoSet α := ⟨[]⟩

/-- The method `Insert(item)`. -/
def Insert (s : GoSet α) (x : α) : GoSet α := if x ∈ s.elems then s else ⟨s.elems ++ [x]⟩

/-- The call `sets.NewString(items...)`. -/
def New (items : List α) : GoSet α := items.foldl Insert empty

/-- The call `sets.Int64KeySet(m)`: the key set of a map. -/
def KeySet {V : Type} (m : GoMap α V) : GoSet α := ⟨m.keys⟩

/-- The method `Has(item)`. -/
def Has (s : GoSet α) (x : α) : Bool := decide (x ∈ s.elems)

/-- The method `s.Difference(t)`: the items of `s` that are not in `t`. -/
def Difference (s t : GoSet α) : GoSet α := ⟨s.elems.filter (fun x => !t.Has x)⟩

/-- The method `s.Intersection(t)`. -/
def Intersection (s t : GoSet α) : GoSet α := ⟨s.elems.filter (fun x => t.Has x)⟩

end GoSet

/-- The method `List()` of `sets.Int64`: the items in ascending order. -/
def GoSet.SortedList (s : GoSet Int) : List Int := s.elems.insertionSort (· ≤ ·)

/-- The order in which one `range` loop visits the entries of a map or set:
any permutation. -/
structure RangeOrder where
  apply : {α : Type} → List α → List α
  perm : ∀ {α : Type} (l : List α), List.Perm (apply l) l

/-- Visit in the stored order. -/
def RangeOrder.stored : RangeOrder := ⟨fun l => l, fun l => List.Perm.refl l⟩

/-- Visit in the reverse of the stored order. -/
def RangeOrder.reversed : RangeOrder := ⟨fun l => l.reverse, fun l => List.reverse_perm l⟩

/-! ## Runs: result, issued calls, final state -/

/-- What running an operation that returns only an `error` leaves behind: the
error (`none` is Go's `nil`), the calls it issued, and the collaborators' state. -/
structure Ran (C σ : Type) where
  err : Option String
  calls : List C
  state : σ

/-- Sequencing with Go's `if err != nil { return err }`: when the first step
fails the run ends with its error, otherwise the second step runs from the state
the first one left. -/
def Ran.andThen {C σ : Type} (r : Ran C σ) (k : σ → Ran C σ) : Ran C σ :=
  match r.err with
  | some e => ⟨some e, r.calls, r.state⟩
  | none => ⟨(k r.state).err, r.calls ++ (k r.state).calls, (k r.state).state⟩

/-- A Go loop `for _, x := range xs { if err := f(x); err != nil { return err } }`:
run `f` on each item in turn, stop at the first error. -/
def forEach {α C σ : Type} (f : α → σ → Ran C σ) : List α → σ → Ran C σ
  | [], s => ⟨none, [], s⟩
  | x :: xs, s => (f x s).andThen (forEach f xs)

/-- The helpers `aws.StringValue`: the pointee, or the empty string for nil. -/
def StringValue : Option String → String
  | some s => s
  | none => ""

/-- The helpers `aws.Int64Value`: the pointee, or 0 for nil. -/
def Int64Value : Option Int → Int
  | some n => n
  | none => 0

/-- The helpers `aws.BoolValue`: the pointee, or false for nil. -/
def BoolValue : Option Bool → Bool
  | some b => b
  | none => false

/-! ## Kubernetes API types -/

namespace k8s

/-- The type `intstr.IntOrString`. -/
inductive IntOrString where
  | int (v : Int)
  | str (s : String)
deriving DecidableEq, Repr

/-- The type `IngressBackend` (of `networking/v1beta1` and `extensions/v1beta1`). -/
structure IngressBackend where
  ServiceName : String
  ServicePort : IntOrString
deriving DecidableEq, Repr

/-- The type `corev1.ServicePort`, with the fields the listener code reads. -/
structure ServicePort where
  Name : String
  Port : Int
deriving DecidableEq, Repr

/-- The type `corev1.Service`, with the fields the listener code reads. -/
structure Service where
  Namespace : String
  Name : String
  Annotations : GoMap String String
  Ports : List ServicePort
deriving DecidableEq, Repr

/-- The helper `k8s.MetaNamespaceKey` (package `internal/k8s`): `namespace/name`. -/
def MetaNamespaceKey (service : Service) : String := service.Namespace ++ "/" ++ service.Name

end k8s

/-! ## `internal/alb/tg`: target group group controller -/

namespace tg

open k8s

/-- The type `TargetGroup`; the group controller reads only its `Arn`. -/
structure TargetGroup where
  Arn : String
deriving DecidableEq, Repr

/-- The type `TargetGroupGroup`: target groups by backend, and the ownership
tag selector. -/
structure TargetGroupGroup where
  TGByBackend : GoMap IngressBackend TargetGroup
  selector : GoMap String String
deriving DecidableEq, Repr

/-- The constant `aws.ResourceTypeEnumELBTargetGroup` (package `internal/aws`);
`GC` only hands it to the search. -/
def ResourceTypeEnumELBTargetGroup : String := "elasticloadbalancing:targetgroup"

/-- The calls the group controller issues on `aws.CloudAPI`. -/
inductive CloudCall where
  | GetResourcesByFilters (tagFilters : GoMap String (List String)) (resourceType : String)
  | DeleteTargetGroupByArn (arn : String)
deriving DecidableEq, Repr

/-- The part of `aws.CloudAPI` the group controller uses, over a cloud state `σ`. -/
structure CloudAPI (σ : Type) where
  GetResourcesByFilters : GoMap String (List String) → String → σ → Except String (List String) × σ
  DeleteTargetGroupByArn : String → σ → Option String × σ

/-- The interface `NameTagGenerator`, method `TagTGGroup(namespace, name)`. -/
structure NameTagGenerator where
  TagTGGroup : String → String → GoMap String String

/-- The type `types.NamespacedName`. -/
structure NamespacedName where
  Namespace : String
  Name : String
deriving DecidableEq, Repr

/-- Lines 83-86 of `GC`: one singleton value list per selector key. -/
def GC.tagFilters (o : RangeOrder) (tgGroup : TargetGroupGroup) : GoMap String (List String) :=
  (o.apply tgGroup.selector.entries).foldl (fun m kv => m.set kv.1 [kv.2]) GoMap.empty

/-- Lines 88-91 of `GC`: the ARNs of the target groups in `TGByBackend`. -/
def GC.usedTgArns (o : RangeOrder) (tgGroup : TargetGroupGroup) : GoSet String :=
  (o.apply tgGroup.TGByBackend.entries).foldl (fun s e => s.Insert e.2.Arn) GoSet.empty

/-- Lines 99-102 of `GC`: the body of the delete loop. -/
def GC.deleteOne {σ : Type} (cloud : CloudAPI σ) (arn : String) (s : σ) : Ran CloudCall σ :=
  match cloud.DeleteTargetGroupByArn arn s with
  | (some err, s') =>
    ⟨some ("failed to delete targetGroup due to " ++ err), [.DeleteTargetGroupByArn arn], s'⟩
  | (none, s') => ⟨none, [.DeleteTargetGroupByArn arn], s'⟩

/-- The method `defaultGroupController.GC`. The three orders are those of the
loops over the selector, over `TGByBackend` and over the unused ARNs. -/
def GC {σ : Type} (cloud : CloudAPI σ) (oSel oTG oDel : RangeOrder)
    (tgGroup : TargetGroupGroup) (s : σ) : Ran CloudCall σ :=
  let tagFilters := GC.tagFilters oSel tgGroup
  let usedTgArns := GC.usedTgArns oTG tgGroup
  match cloud.GetResourcesByFilters tagFilters ResourceTypeEnumELBTargetGroup s with
  | (.error err, s') =>
    ⟨some ("failed to get targetGroups due to " ++ err),
      [.GetResourcesByFilters tagFilters ResourceTypeEnumELBTargetGroup], s'⟩
  | (.ok arns, s') =>
    let currentTgArns := GoSet.New arns
    let unusedTgArns := currentTgArns.Difference usedTgArns
    let r := forEach (GC.deleteOne cloud) (oDel.apply unusedTgArns.elems) s'
    ⟨r.err, .GetResourcesByFilters tagFilters ResourceTypeEnumELBTargetGroup :: r.calls, r.state⟩

/-- The method `defaultGroupController.Delete`: `GC` of a group that has the
selector of the ingress and no target group. -/
def Delete {σ : Type} (nameTagGen : NameTagGenerator) (cloud : CloudAPI σ)
    (oSel oTG oDel : RangeOrder) (ingressKey : NamespacedName) (s : σ) : Ran CloudCall σ :=
  let selector := nameTagGen.TagTGGroup ingressKey.Namespace ingressKey.Name
  let tgGroup : TargetGroupGroup := { TGByBackend := GoMap.empty, selector := selector }
  GC cloud oSel oTG oDel tgGroup s

/-- The ARNs of the `DeleteTargetGroupByArn` calls of a run, in order. -/
def deletedArns : List CloudCall → List String
  | [] => []
  | .DeleteTargetGroupByArn arn :: rest => arn :: deletedArns rest
  | .GetResourcesByFilters _ _ :: rest => deletedArns rest

/-- The ARNs `group.TGByBackend` refers to. -/
def referencedArns (tgGroup : TargetGroupGroup) : List String :=
  tgGroup.TGByBackend.entries.map (fun e => e.2.Arn)

/-- A tag store: the tags of each target group of the cloud, by ARN. -/
abbrev TagStore := GoMap String (GoMap String String)

/-- Whether `tags` holds, for every key of the filter, one of the values listed
for it. -/
def tagsMatch (tagFilters : GoMap String (List String)) (tags : GoMap String String) : Bool :=
  tagFilters.entries.all (fun kv =>
    match tags.get? kv.1 with
    | some v => decide (v ∈ kv.2)
    | none => false)

/-- A tag search over a tag store: the ARNs whose tags match the filter. -/
def tagSearch (store : TagStore) (tagFilters : GoMap String (List String)) : List String :=
  store.keys.filter (fun arn =>
    match store.get? arn with
    | some tags => tagsMatch tagFilters tags
    | none => false)

/-- A cloud whose state is a tag store: the search is `tagSearch`, and
`DeleteTargetGroupByArn` fails on the ARNs in `failing`. -/
def storeCloud (failing : List String) : CloudAPI TagStore where
  GetResourcesByFilters := fun tagFilters _ store => (.ok (tagSearch store tagFilters), store)
  DeleteTargetGroupByArn := fun arn store =>
    if arn ∈ failing then (some "AccessDenied", store)
    else (none, ⟨store.bindings.filter (fun kv => kv.1 ≠ arn)⟩)

/-- Two tag maps hold the same tags: every key has the same value, or none, in both. -/
def sameTags (a b : GoMap String String) : Prop := ∀ k, a.get? k = b.get? k

/-- Example selectors: two ingresses of one namespace, and the namespace tag alone. -/
def exSelectorWeb : GoMap String String :=
  ⟨[("kubernetes.io/ingress-name", "web"), ("kubernetes.io/namespace", "prod")]⟩

def exSelectorApi : GoMap String String :=
  ⟨[("kubernetes.io/ingress-name", "api"), ("kubernetes.io/namespace", "prod")]⟩

def exSelectorProd : GoMap String String := ⟨[("kubernetes.io/namespace", "prod")]⟩

/-- Example cloud: two target groups tagged for `web`, one tagged for `api`. -/
def exStore : TagStore :=
  ⟨[("arn:tg/web-1", exSelectorWeb), ("arn:tg/web-2", exSelectorWeb),
    ("arn:tg/api-1", exSelectorApi)]⟩

/-- Example group of ingress `web`: its one backend uses `arn:tg/web-1`. -/
def exGroupWeb : TargetGroupGroup :=
  { TGByBackend := ⟨[(⟨"svc-a", .int 80⟩, ⟨"arn:tg/web-1"⟩)]⟩, selector := exSelectorWeb }

end tg

/-! ## The AWS SDK records the controllers read and write -/

namespace elbv2sdk

/-- The type `elbv2.Certificate`. -/
structure Certificate where
  CertificateArn : Option String
  IsDefault : Option Bool
deriving DecidableEq, Repr

/-- The type `elbv2.Action`, with the fields a forward action carries. -/
structure Action where
  Type_ : Option String
  TargetGroupArn : Option String
deriving DecidableEq, Repr

/-- The type `elbv2.Listener`. -/
structure Listener where
  ListenerArn : Option String
  Port : Option Int
  Protocol : Option String
  Certificates : List Certificate
  SslPolicy : Option String
  DefaultActions : List Action
deriving DecidableEq, Repr

/-- The type `elbv2.DescribeListenersInput`. -/
structure DescribeListenersInput where
  LoadBalancerArn : Option String
deriving DecidableEq, Repr

end elbv2sdk

namespace elbv2sdk

/-- The constant `elbv2.ProtocolEnumTcp`. -/
def ProtocolEnumTcp : String := "TCP"

/-- The constant `elbv2.ProtocolEnumTls`. -/
def ProtocolEnumTls : String := "TLS"

/-- The type `elbv2.CreateListenerInput`. -/
structure CreateListenerInput where
  LoadBalancerArn : Option String
  Port : Option Int
  Protocol : Option String
  Certificates : List Certificate
  SslPolicy : Option String
  DefaultActions : List Action
deriving DecidableEq, Repr

/-- The type `elbv2.ModifyListenerInput`. -/
structure ModifyListenerInput where
  ListenerArn : Option String
  Port : Option Int
  Protocol : Option String
  Certificates : List Certificate
  SslPolicy : Option String
  DefaultActions : List Action
deriving DecidableEq, Repr

/-- The types `elbv2.CreateListenerOutput` and `elbv2.ModifyListenerOutput`. -/
structure ListenersOutput where
  Listeners : List Listener
deriving DecidableEq, Repr

/-- The types `elbv2.AddListenerCertificatesInput` and
`elbv2.RemoveListenerCertificatesInput`. -/
structure ListenerCertificatesInput where
  ListenerArn : Option String
  Certificates : List Certificate
deriving DecidableEq, Repr

end elbv2sdk

/-! ## `pkg/deploy/elbv2`: listener synthesizer -/

namespace deploy

/-- The type `core.StringToken` (a reference to a load balancer ARN) by what its
`Resolve` returns. -/
inductive StringToken where
  | resolved (value : String)
  | unresolved (err : String)
deriving DecidableEq, Repr

/-- The method `StringToken.Resolve`. -/
def StringToken.Resolve : StringToken → Except String String
  | .resolved value => .ok value
  | .unresolved err => .error err

/-- The type `elbv2model.ListenerSpec`, with the fields the synthesizer reads. -/
structure ListenerSpec where
  LoadBalancerARN : StringToken
  Port : Int
  Protocol : String
deriving DecidableEq, Repr

/-- The type `elbv2model.ListenerStatus`. -/
structure ListenerStatus where
  ListenerARN : String
deriving DecidableEq, Repr

/-- The type `elbv2model.Listener`, a node of the resource stack: `id` stands for
the identity of the node, `SetStatus` on it is recorded as an event. -/
structure Listener where
  id : String
  Spec : ListenerSpec
deriving DecidableEq, Repr

/-- The type `resAndSDKListenerPair`. -/
structure resAndSDKListenerPair where
  resLS : Listener
  sdkLS : elbv2sdk.Listener
deriving DecidableEq, Repr

/-- The function `mapResListenerByPort`. -/
def mapResListenerByPort (resLSs : List Listener) : GoMap Int Listener :=
  resLSs.foldl (fun m ls => m.set ls.Spec.Port ls) GoMap.empty

/-- The function `mapSDKListenerByPort`. -/
def mapSDKListenerByPort (sdkLSs : List elbv2sdk.Listener) : GoMap Int elbv2sdk.Listener :=
  sdkLSs.foldl (fun m ls => m.set (Int64Value ls.Port) ls) GoMap.empty

/-- The function `matchResAndSDKListeners`: matched pairs, unmatched desired
listeners, unmatched actual listeners. Every port the loops index the maps with
is a key of the map, so the index never yields the nil of an absent key. -/
def matchResAndSDKListeners (resLSs : List Listener) (sdkLSs : List elbv2sdk.Listener) :
    List resAndSDKListenerPair × List Listener × List elbv2sdk.Listener :=
  let resLSByPort := mapResListenerByPort resLSs
  let sdkLSByPort := mapSDKListenerByPort sdkLSs
  let resLSPorts := GoSet.KeySet resLSByPort
  let sdkLSPorts := GoSet.KeySet sdkLSByPort
  let matchedResAndSDKLSs := (resLSPorts.Intersection sdkLSPorts).SortedList.filterMap
    (fun port =>
      match resLSByPort.get? port, sdkLSByPort.get? port with
      | some resLS, some sdkLS => some { resLS := resLS, sdkLS := sdkLS }
      | _, _ => none)
  let unmatchedResLSs := (resLSPorts.Difference sdkLSPorts).SortedList.filterMap
    (fun port => resLSByPort.get? port)
  let unmatchedSDKLSs := (sdkLSPorts.Difference resLSPorts).SortedList.filterMap
    (fun port => sdkLSByPort.get? port)
  (matchedResAndSDKLSs, unmatchedResLSs, unmatchedSDKLSs)

/-- What the synthesizer does to its collaborators: calls on the ELBv2 client and
on the listener manager, and `SetStatus` on a node of the stack. -/
inductive Event where
  | DescribeListenersAsList (req : elbv2sdk.DescribeListenersInput)
  | Delete (sdkLS : elbv2sdk.Listener)
  | Create (resLS : Listener)
  | Update (resLS : Listener) (sdkLS : elbv2sdk.Listener)
  | SetStatus (resLS : Listener) (lsStatus : ListenerStatus)
deriving DecidableEq, Repr

/-- The part of `services.ELBV2` the synthesizer uses. -/
structure ELBV2 (σ : Type) where
  DescribeListenersAsList :
    elbv2sdk.DescribeListenersInput → σ → Except String (List elbv2sdk.Listener) × σ

/-- The interface `ListenerManager`. -/
structure ListenerManager (σ : Type) where
  Create : Listener → σ → Except String ListenerStatus × σ
  Update : Listener → elbv2sdk.Listener → σ → Except String ListenerStatus × σ
  Delete : elbv2sdk.Listener → σ → Option String × σ

/-- Lines 59-61 of `synthesizeListenersOnLB`: the body of the delete loop. -/
def synthesizeListenersOnLB.deleteStep {σ : Type} (lsManager : ListenerManager σ)
    (sdkLS : elbv2sdk.Listener) (s : σ) : Ran Event σ :=
  match lsManager.Delete sdkLS s with
  | (some err, s') => ⟨some err, [.Delete sdkLS], s'⟩
  | (none, s') => ⟨none, [.Delete sdkLS], s'⟩

/-- Lines 64-68 of `synthesizeListenersOnLB`: the body of the create loop. -/
def synthesizeListenersOnLB.createStep {σ : Type} (lsManager : ListenerManager σ)
    (resLS : Listener) (s : σ) : Ran Event σ :=
  match lsManager.Create resLS s with
  | (.error err, s') => ⟨some err, [.Create resLS], s'⟩
  | (.ok lsStatus, s') => ⟨none, [.Create resLS, .SetStatus resLS lsStatus], s'⟩

/-- Lines 71-75 of `synthesizeListenersOnLB`: the body of the update loop. -/
def synthesizeListenersOnLB.updateStep {σ : Type} (lsManager : ListenerManager σ)
    (resAndSDKLS : resAndSDKListenerPair) (s : σ) : Ran Event σ :=
  match lsManager.Update resAndSDKLS.resLS resAndSDKLS.sdkLS s with
  | (.error err, s') => ⟨some err, [.Update resAndSDKLS.resLS resAndSDKLS.sdkLS], s'⟩
  | (.ok lsStatus, s') =>
    ⟨none, [.Update resAndSDKLS.resLS resAndSDKLS.sdkLS,
      .SetStatus resAndSDKLS.resLS lsStatus], s'⟩

/-- The method `listenerSynthesizer.findSDKListenersOnLB`. -/
def findSDKListenersOnLB {σ : Type} (elbv2Client : ELBV2 σ) (lbARN : String) (s : σ) :
    Except String (List elbv2sdk.Listener) × σ :=
  elbv2Client.DescribeListenersAsList { LoadBalancerArn := some lbARN } s

/-- The method `listenerSynthesizer.synthesizeListenersOnLB`. -/
def synthesizeListenersOnLB {σ : Type} (elbv2Client : ELBV2 σ) (lsManager : ListenerManager σ)
    (lbARN : String) (resLSs : List Listener) (s : σ) : Ran Event σ :=
  match findSDKListenersOnLB elbv2Client lbARN s with
  | (.error err, s') => ⟨some err, [.DescribeListenersAsList { LoadBalancerArn := some lbARN }], s'⟩
  | (.ok sdkLSs, s') =>
    let m := matchResAndSDKListeners resLSs sdkLSs
    let r := (forEach (synthesizeListenersOnLB.deleteStep lsManager) m.2.2 s').andThen
      (fun s1 => (forEach (synthesizeListenersOnLB.createStep lsManager) m.2.1 s1).andThen
        (fun s2 => forEach (synthesizeListenersOnLB.updateStep lsManager) m.1 s2))
    ⟨r.err, .DescribeListenersAsList { LoadBalancerArn := some lbARN } :: r.calls, r.state⟩

/-- Whether an event is a call on the listener manager. -/
def Event.isManagerCall : Event → Bool
  | .Delete _ => true
  | .Create _ => true
  | .Update _ _ => true
  | _ => false

/-- The calls on the listener manager among the events of a run, in order. -/
def managerCalls (events : List Event) : List Event := events.filter Event.isManagerCall

/-- Example: a desired listener of load balancer `arn:lb/1` at a port. -/
def exRes (port : Int) : Listener :=
  { id := "ls-" ++ toString port,
    Spec := { LoadBalancerARN := .resolved "arn:lb/1", Port := port, Protocol := "HTTP" } }

/-- Example: an actual listener at a port. -/
def exSDK (port : Int) : elbv2sdk.Listener :=
  { ListenerArn := some ("arn:ls/" ++ toString port), Port := some port, Protocol := some "HTTP",
    Certificates := [], SslPolicy := none, DefaultActions := [] }

/-- Example ELBv2 client whose state is the list of actual listeners. -/
def exELBV2 : ELBV2 (List elbv2sdk.Listener) where
  DescribeListenersAsList := fun _ s => (.ok s, s)

/-- Example listener manager in which every call succeeds. -/
def exManager : ListenerManager (List elbv2sdk.Listener) where
  Create := fun resLS s =>
    (.ok { ListenerARN := "arn:ls/" ++ toString resLS.Spec.Port }, s ++ [exSDK resLS.Spec.Port])
  Update := fun _ sdkLS s => (.ok { ListenerARN := StringValue sdkLS.ListenerArn }, s)
  Delete := fun sdkLS s => (none, s.filter (fun l => l ≠ sdkLS))

/-- The ports of a list of desired listeners. -/
def resPorts (resLSs : List Listener) : List Int := resLSs.map (fun ls => ls.Spec.Port)

/-- The ports of a list of actual listeners, as `mapSDKListenerByPort` reads them. -/
def sdkPorts (sdkLSs : List elbv2sdk.Listener) : List Int :=
  sdkLSs.map (fun ls => Int64Value ls.Port)

/-- The ports of a list of matched pairs, read off the desired listener. -/
def pairPorts (pairs : List resAndSDKListenerPair) : List Int :=
  pairs.map (fun pair => pair.resLS.Spec.Port)

end deploy

/-! ## `internal/nlb/ls`: listener controller and listener group controller -/

namespace ls

/-- The constant `AnnotationSSLPolicy`. -/
def AnnotationSSLPolicy : String := "ssl-policy"

/-- The constant `AnnotationCertificateARN`. -/
def AnnotationCertificateARN : String := "certificate-arn"

/-- The constant `DefaultSSLPolicy`. -/
def DefaultSSLPolicy : String := "ELBSecurityPolicy-2016-08"

/-- The type `loadbalancer.PortData`. -/
structure PortData where
  Port : Int
  Scheme : String
deriving DecidableEq, Repr

/-- The type `loadbalancer.Config`, with the field the listener code reads. -/
structure LoadBalancerConfig where
  Ports : List PortData
deriving DecidableEq, Repr

/-- The type `annotations.Service`, with the field the listener code reads. -/
structure ServiceAnnos where
  LoadBalancer : LoadBalancerConfig
deriving DecidableEq, Repr

/-- The type `tg.TargetGroupGroup` of `internal/nlb/tg`, which the listener code
only hands on; it has the shape of its `internal/alb/tg` namesake. -/
abbrev TargetGroupGroup := tg.TargetGroupGroup

/-- The type `ReconcileOptions`. `Instance` is `none` for Go's nil. -/
structure ReconcileOptions where
  LBArn : String
  Service : k8s.Service
  ServiceAnnos : ServiceAnnos
  Port : PortData
  TGGroup : TargetGroupGroup
  Instance : Option elbv2sdk.Listener
deriving DecidableEq, Repr

/-- The type `listenerConfig`. -/
structure listenerConfig where
  Port : Option Int
  Protocol : Option String
  DefaultActions : List elbv2sdk.Action
  SslPolicy : Option String
  DefaultCertificate : List elbv2sdk.Certificate
  ExtraCertificateARNs : List String
deriving DecidableEq, Repr

/-- The calls the two controllers issue: on `aws.CloudAPI`, on the listener
`Controller` (from the group controller) and on the `RulesController`. -/
inductive Call where
  | ListListenersByLoadBalancer (lbArn : String)
  | DeleteListenersByArn (lsArn : String)
  | CreateListenerWithContext (input : elbv2sdk.CreateListenerInput)
  | ModifyListenerWithContext (input : elbv2sdk.ModifyListenerInput)
  | DescribeListenerCertificates (lsArn : String)
  | AddListenerCertificates (input : elbv2sdk.ListenerCertificatesInput)
  | RemoveListenerCertificates (input : elbv2sdk.ListenerCertificatesInput)
  | ControllerReconcile (options : ReconcileOptions)
  | RulesReconcile (inst : elbv2sdk.Listener) (service : k8s.Service)
      (serviceAnnos : ServiceAnnos) (tgGroup : TargetGroupGroup)
deriving DecidableEq, Repr

/-- The part of `aws.CloudAPI` the listener code uses, over a cloud state `σ`. -/
structure CloudAPI (σ : Type) where
  ListListenersByLoadBalancer : String → σ → Except String (List elbv2sdk.Listener) × σ
  DeleteListenersByArn : String → σ → Option String × σ
  CreateListenerWithContext :
    elbv2sdk.CreateListenerInput → σ → Except String elbv2sdk.ListenersOutput × σ
  ModifyListenerWithContext :
    elbv2sdk.ModifyListenerInput → σ → Except String elbv2sdk.ListenersOutput × σ
  DescribeListenerCertificates : String → σ → Except String (List elbv2sdk.Certificate) × σ
  AddListenerCertificates : elbv2sdk.ListenerCertificatesInput → σ → Option String × σ
  RemoveListenerCertificates : elbv2sdk.ListenerCertificatesInput → σ → Option String × σ

/-- The interface `Controller`. -/
structure Controller (σ : Type) where
  Reconcile : ReconcileOptions → σ → Option String × σ

/-- The interface `RulesController`. -/
structure RulesController (σ : Type) where
  Reconcile : elbv2sdk.Listener → k8s.Service → ServiceAnnos → TargetGroupGroup → σ →
    Option String × σ

/-- The part of `store.Storer` the group controller uses. -/
structure Storer where
  GetServiceAnnotations : String → Except String ServiceAnnos

/-- Functions of the repository that the listener code calls and that are not
part of it: the annotation loaders (what they load, `none` when the annotation
is absent and the variable keeps its value), `parser.GetAnnotationWithPrefix`,
and `buildActions`. -/
structure Helpers where
  LoadStringAnnotation : String → GoMap String String → Option String
  LoadStringSliceAnnotation : String → GoMap String String → Option (List String)
  GetAnnotationWithPrefix : String → String
  buildActions : ServiceAnnos → k8s.IngressBackend → TargetGroupGroup →
    Except String (List elbv2sdk.Action)

/-- How a Go function that returns `(value, error)` fails: by returning an
error, or by a run-time panic. -/
inductive Fault where
  | error (msg : String)
  | panicked (msg : String)
deriving DecidableEq, Repr

/-- The result of a function that returns `(*elbv2.Listener, error)`. -/
structure Got (σ : Type) where
  val : Except Fault elbv2sdk.Listener
  calls : List Call
  state : σ

/-- Modelled from the spec: `util.DeepEqual` (package `pkg/util/types`) as deep
structural equality of the two values. -/
def DeepEqual {α : Type} [DecidableEq α] (a b : α) : Bool := decide (a = b)

/-- The expression `resp.Listeners[0]`: the first listener, or the index panic. -/
def firstListener : List elbv2sdk.Listener → Except Fault elbv2sdk.Listener
  | l :: _ => .ok l
  | [] => .error (.panicked "runtime error: index out of range [0] with length 0")

/-- The loop of `buildDefaultActions`. -/
def buildDefaultActions.loop (h : Helpers) (options : ReconcileOptions) :
    List k8s.ServicePort → List elbv2sdk.Action → Except String (List elbv2sdk.Action)
  | [], output => .ok output
  | port :: rest, output =>
    let backend : k8s.IngressBackend :=
      { ServiceName := options.Service.Name,
        ServicePort := if port.Name ≠ "" then .str port.Name else .int port.Port }
    match h.buildActions options.ServiceAnnos backend options.TGGroup with
    | .error err => .error err
    | .ok actions => buildDefaultActions.loop h options rest (output ++ actions)

/-- The method `defaultController.buildDefaultActions`. -/
def buildDefaultActions (h : Helpers) (options : ReconcileOptions) :
    Except String (List elbv2sdk.Action) :=
  buildDefaultActions.loop h options options.Service.Ports []

/-- Lines 232-238 of `buildListenerConfig`: the default actions. -/
def buildListenerConfig.withActions (h : Helpers) (options : ReconcileOptions)
    (config : listenerConfig) : listenerConfig × Option String :=
  match buildDefaultActions h options with
  | .error err => (config, some err)
  | .ok actions => ({ config with DefaultActions := actions }, none)

/-- The method `defaultController.buildListenerConfig`: the config and the error. -/
def buildListenerConfig (h : Helpers) (options : ReconcileOptions) :
    listenerConfig × Option String :=
  let config : listenerConfig :=
    { Port := some options.Port.Port, Protocol := some options.Port.Scheme,
      DefaultActions := [], SslPolicy := none, DefaultCertificate := [],
      ExtraCertificateARNs := [] }
  if options.Port.Scheme = elbv2sdk.ProtocolEnumTcp then
    let sslPolicy :=
      (h.LoadStringAnnotation AnnotationSSLPolicy options.Service.Annotations).getD
        DefaultSSLPolicy
    let config := { config with SslPolicy := some sslPolicy }
    let certificateARNs :=
      (h.LoadStringSliceAnnotation AnnotationCertificateARN options.Service.Annotations).getD []
    match certificateARNs with
    | [] =>
      (config, some ("annotation " ++ h.GetAnnotationWithPrefix AnnotationCertificateARN ++
        " must be specified for https listener"))
    | first :: rest =>
      buildListenerConfig.withActions h options
        { config with
          DefaultCertificate := [{ CertificateArn := some first, IsDefault := none }],
          ExtraCertificateARNs := rest }
  else
    buildListenerConfig.withActions h options config

/-- The method `defaultController.newLSInstance`. -/
def newLSInstance {σ : Type} (cloud : CloudAPI σ) (lbArn : String) (config : listenerConfig)
    (s : σ) : Got σ :=
  let input : elbv2sdk.CreateListenerInput :=
    { LoadBalancerArn := some lbArn, Port := config.Port, Protocol := config.Protocol,
      Certificates := config.DefaultCertificate, SslPolicy := config.SslPolicy,
      DefaultActions := config.DefaultActions }
  match cloud.CreateListenerWithContext input s with
  | (.error err, s') => ⟨.error (.error err), [.CreateListenerWithContext input], s'⟩
  | (.ok resp, s') => ⟨firstListener resp.Listeners, [.CreateListenerWithContext input], s'⟩

/-- The method `defaultController.LSInstanceNeedsModification`. -/
def LSInstanceNeedsModification (inst : elbv2sdk.Listener) (config : listenerConfig) :
    Bool :=
  let needModification := false
  let needModification :=
    if !DeepEqual inst.Port config.Port then true else needModification
  let needModification :=
    if !DeepEqual inst.Protocol config.Protocol then true else needModification
  let needModification :=
    if !DeepEqual inst.Certificates config.DefaultCertificate then true
    else needModification
  let needModification :=
    if !DeepEqual inst.SslPolicy config.SslPolicy then true else needModification
  let needModification :=
    if !DeepEqual inst.DefaultActions config.DefaultActions then true
    else needModification
  needModification

/-- The method `defaultController.reconcileLSInstance`. On a failed modify the Go
code returns the instance next to the error; the caller drops it. -/
def reconcileLSInstance {σ : Type} (cloud : CloudAPI σ) (inst : elbv2sdk.Listener)
    (config : listenerConfig) (s : σ) : Got σ :=
  if LSInstanceNeedsModification inst config then
    let input : elbv2sdk.ModifyListenerInput :=
      { ListenerArn := inst.ListenerArn, Port := config.Port, Protocol := config.Protocol,
        Certificates := config.DefaultCertificate, SslPolicy := config.SslPolicy,
        DefaultActions := config.DefaultActions }
    match cloud.ModifyListenerWithContext input s with
    | (.error err, s') => ⟨.error (.error err), [.ModifyListenerWithContext input], s'⟩
    | (.ok output, s') =>
      ⟨firstListener output.Listeners, [.ModifyListenerWithContext input], s'⟩
  else
    ⟨.ok inst, [], s⟩

/-- Lines 169-174 of `reconcileExtraCertificates`: the ARNs of the attached
certificates that are not the default one. -/
def reconcileExtraCertificates.actualExtra (certificates : List elbv2sdk.Certificate) :
    GoSet String :=
  certificates.foldl
    (fun set certificate =>
      if !BoolValue certificate.IsDefault then set.Insert (StringValue certificate.CertificateArn)
      else set)
    GoSet.empty

/-- The input of an attach or detach call: the listener and one certificate. -/
def reconcileExtraCertificates.input (lsArn certARN : String) :
    elbv2sdk.ListenerCertificatesInput :=
  { ListenerArn := some lsArn,
    Certificates := [{ CertificateArn := some certARN, IsDefault := none }] }

/-- Lines 180-190 of `reconcileExtraCertificates`: the body of the add loop. -/
def reconcileExtraCertificates.addStep {σ : Type} (cloud : CloudAPI σ) (lsArn : String)
    (certARN : String) (s : σ) : Ran Call σ :=
  match cloud.AddListenerCertificates (reconcileExtraCertificates.input lsArn certARN) s with
  | (some err, s') =>
    ⟨some err, [.AddListenerCertificates (reconcileExtraCertificates.input lsArn certARN)], s'⟩
  | (none, s') =>
    ⟨none, [.AddListenerCertificates (reconcileExtraCertificates.input lsArn certARN)], s'⟩

/-- Lines 193-203 of `reconcileExtraCertificates`: the body of the remove loop. -/
def reconcileExtraCertificates.removeStep {σ : Type} (cloud : CloudAPI σ) (lsArn : String)
    (certARN : String) (s : σ) : Ran Call σ :=
  match cloud.RemoveListenerCertificates (reconcileExtraCertificates.input lsArn certARN) s with
  | (some err, s') =>
    ⟨some err, [.RemoveListenerCertificates (reconcileExtraCertificates.input lsArn certARN)],
      s'⟩
  | (none, s') =>
    ⟨none, [.RemoveListenerCertificates (reconcileExtraCertificates.input lsArn certARN)], s'⟩

/-- The method `defaultController.reconcileExtraCertificates`. The two orders
are those of the loops over the certificates to add and to remove. -/
def reconcileExtraCertificates {σ : Type} (cloud : CloudAPI σ) (oAdd oRemove : RangeOrder)
    (lsArn : String) (extraCertificateARNs : List String) (s : σ) : Ran Call σ :=
  match cloud.DescribeListenerCertificates lsArn s with
  | (.error err, s') => ⟨some err, [.DescribeListenerCertificates lsArn], s'⟩
  | (.ok certificates, s') =>
    let actualExtraCertificateArns := reconcileExtraCertificates.actualExtra certificates
    let desiredExtraCertificateArns := GoSet.New extraCertificateARNs
    let certificatesToAdd := desiredExtraCertificateArns.Difference actualExtraCertificateArns
    let certificatesToRemove := actualExtraCertificateArns.Difference desiredExtraCertificateArns
    let r := (forEach (reconcileExtraCertificates.addStep cloud lsArn)
        (oAdd.apply certificatesToAdd.elems) s').andThen
      (fun s1 => forEach (reconcileExtraCertificates.removeStep cloud lsArn)
        (oRemove.apply certificatesToRemove.elems) s1)
    ⟨r.err, .DescribeListenerCertificates lsArn :: r.calls, r.state⟩

/-- Lines 90-96 of `Reconcile`: the extra certificates, for the scheme of the
`switch`. -/
def defaultController.Reconcile.certificates {σ : Type} (cloud : CloudAPI σ)
    (oAdd oRemove : RangeOrder) (options : ReconcileOptions) (config : listenerConfig)
    (inst : elbv2sdk.Listener) (s : σ) : Ran Call σ :=
  if options.Port.Scheme = elbv2sdk.ProtocolEnumTcp then
    let lsArn := StringValue inst.ListenerArn
    let r := reconcileExtraCertificates cloud oAdd oRemove lsArn config.ExtraCertificateARNs s
    match r.err with
    | some err =>
      ⟨some ("failed to reconcile extra certificates on listener " ++ lsArn ++ ": " ++ err),
        r.calls, r.state⟩
    | none => r
  else
    ⟨none, [], s⟩

/-- Lines 98-100 of `Reconcile`: the rules. -/
def defaultController.Reconcile.rules {σ : Type} (rulesController : RulesController σ)
    (options : ReconcileOptions) (inst : elbv2sdk.Listener) (s : σ) : Ran Call σ :=
  match rulesController.Reconcile inst options.Service options.ServiceAnnos
      options.TGGroup s with
  | (some err, s') =>
    ⟨some ("failed to reconcile rules due to " ++ err),
      [.RulesReconcile inst options.Service options.ServiceAnnos options.TGGroup], s'⟩
  | (none, s') =>
    ⟨none, [.RulesReconcile inst options.Service options.ServiceAnnos options.TGGroup], s'⟩

/-- Lines 79-88 of `Reconcile`: create the listener when no instance is given,
reconcile the given instance otherwise. -/
def defaultController.Reconcile.ensureInstance {σ : Type} (cloud : CloudAPI σ)
    (options : ReconcileOptions) (config : listenerConfig) (s : σ) : Got σ :=
  match options.Instance with
  | none =>
    let g := newLSInstance cloud options.LBArn config s
    match g.val with
    | .error (.error err) =>
      ⟨.error (.error ("failed to create listener due to " ++ err)), g.calls, g.state⟩
    | _ => g
  | some inst =>
    let g := reconcileLSInstance cloud inst config s
    match g.val with
    | .error (.error err) =>
      ⟨.error (.error ("failed to reconcile listener due to " ++ err)), g.calls, g.state⟩
    | _ => g

/-- The method `defaultController.Reconcile`. A run that ends in a panic reports
it as the error `panic: ...`. -/
def defaultController.Reconcile {σ : Type} (h : Helpers) (cloud : CloudAPI σ)
    (rulesController : RulesController σ) (oAdd oRemove : RangeOrder)
    (options : ReconcileOptions) (s : σ) : Ran Call σ :=
  match buildListenerConfig h options with
  | (_, some err) => ⟨some ("failed to build listener config due to " ++ err), [], s⟩
  | (config, none) =>
    let g := defaultController.Reconcile.ensureInstance cloud options config s
    match g.val with
    | .error (.error err) => ⟨some err, g.calls, g.state⟩
    | .error (.panicked msg) => ⟨some ("panic: " ++ msg), g.calls, g.state⟩
    | .ok inst =>
      let r := (defaultController.Reconcile.certificates cloud oAdd oRemove options config
          inst g.state).andThen
        (fun s1 => defaultController.Reconcile.rules rulesController options inst s1)
      ⟨r.err, g.calls ++ r.calls, r.state⟩

/-- The method `defaultGroupController.loadListenerInstances`. -/
def loadListenerInstances {σ : Type} (cloud : CloudAPI σ) (lbArn : String) (s : σ) :
    Except String (GoMap Int elbv2sdk.Listener) × σ :=
  match cloud.ListListenersByLoadBalancer lbArn s with
  | (.error err, s') => (.error err, s')
  | (.ok instances, s') =>
    (.ok (instances.foldl (fun m inst => m.set (Int64Value inst.Port) inst)
      GoMap.empty), s')

/-- Lines 69-72 and 83-86 of the group controller: delete one listener. -/
def defaultGroupController.deleteStep {σ : Type} (cloud : CloudAPI σ)
    (inst : elbv2sdk.Listener) (s : σ) : Ran Call σ :=
  match cloud.DeleteListenersByArn (StringValue inst.ListenerArn) s with
  | (some err, s') => ⟨some err, [.DeleteListenersByArn (StringValue inst.ListenerArn)], s'⟩
  | (none, s') => ⟨none, [.DeleteListenersByArn (StringValue inst.ListenerArn)], s'⟩

/-- The options line 55-62 of the group `Reconcile` builds for one port. -/
def defaultGroupController.optionsFor (lbArn : String) (service : k8s.Service)
    (serviceAnnos : ServiceAnnos) (tgGroup : TargetGroupGroup)
    (instancesByPort : GoMap Int elbv2sdk.Listener) (port : PortData) : ReconcileOptions :=
  { LBArn := lbArn, Service := service, ServiceAnnos := serviceAnnos, Port := port,
    TGGroup := tgGroup, Instance := instancesByPort.get? port.Port }

/-- Lines 53-64 of the group `Reconcile`: the body of the loop over the ports. -/
def defaultGroupController.reconcileStep {σ : Type} (lsController : Controller σ)
    (lbArn : String) (service : k8s.Service) (serviceAnnos : ServiceAnnos)
    (tgGroup : TargetGroupGroup) (instancesByPort : GoMap Int elbv2sdk.Listener)
    (port : PortData) (s : σ) : Ran Call σ :=
  match lsController.Reconcile
      (defaultGroupController.optionsFor lbArn service serviceAnnos tgGroup instancesByPort
        port) s with
  | (some err, s') =>
    ⟨some err, [.ControllerReconcile (defaultGroupController.optionsFor lbArn service
      serviceAnnos tgGroup instancesByPort port)], s'⟩
  | (none, s') =>
    ⟨none, [.ControllerReconcile (defaultGroupController.optionsFor lbArn service
      serviceAnnos tgGroup instancesByPort port)], s'⟩

/-- The method `defaultGroupController.Reconcile`. The ports loop inserts each
port into `portsInUse` before it reconciles it; the set is read only after the
loop has run through, when it holds every port, so it is computed there. The
order is that of the loop over the unused ports. -/
def defaultGroupController.Reconcile {σ : Type} (store : Storer) (cloud : CloudAPI σ)
    (lsController : Controller σ) (oDel : RangeOrder) (lbArn : String)
    (service : k8s.Service) (tgGroup : TargetGroupGroup) (s : σ) : Ran Call σ :=
  match store.GetServiceAnnotations (k8s.MetaNamespaceKey service) with
  | .error err => ⟨some err, [], s⟩
  | .ok serviceAnnos =>
    match loadListenerInstances cloud lbArn s with
    | (.error err, s') => ⟨some err, [.ListListenersByLoadBalancer lbArn], s'⟩
    | (.ok instancesByPort, s') =>
      let r := (forEach (defaultGroupController.reconcileStep lsController lbArn service
          serviceAnnos tgGroup instancesByPort) serviceAnnos.LoadBalancer.Ports s').andThen
        (fun s1 =>
          let portsInUse := serviceAnnos.LoadBalancer.Ports.foldl
            (fun set port => set.Insert port.Port) GoSet.empty
          let portsUnsed := (GoSet.KeySet instancesByPort).Difference portsInUse
          forEach (defaultGroupController.deleteStep cloud)
            ((oDel.apply portsUnsed.elems).filterMap (fun port => instancesByPort.get? port)) s1)
      ⟨r.err, .ListListenersByLoadBalancer lbArn :: r.calls, r.state⟩

/-- The method `defaultGroupController.Delete`. The order is that of the loop
over the map of instances. -/
def defaultGroupController.Delete {σ : Type} (cloud : CloudAPI σ) (o : RangeOrder)
    (lbArn : String) (s : σ) : Ran Call σ :=
  match loadListenerInstances cloud lbArn s with
  | (.error err, s') => ⟨some err, [.ListListenersByLoadBalancer lbArn], s'⟩
  | (.ok instancesByPort, s') =>
    let r := forEach (defaultGroupController.deleteStep cloud)
      ((o.apply instancesByPort.entries).map (fun e => e.2)) s'
    ⟨r.err, .ListListenersByLoadBalancer lbArn :: r.calls, r.state⟩

/-- The ARNs of the certificates of a listing that are not flagged default. -/
def actualNonDefault (certificates : List elbv2sdk.Certificate) : List String :=
  (certificates.filter (fun c => !BoolValue c.IsDefault)).map
    (fun c => StringValue c.CertificateArn)

/-- Example certificate of a listing. -/
def exCert (arn : String) (isDefault : Bool) : elbv2sdk.Certificate :=
  { CertificateArn := some arn, IsDefault := some isDefault }

/-- Whether a call creates or modifies a listener. -/
def Call.isCreateOrModify : Call → Bool
  | .CreateListenerWithContext _ => true
  | .ModifyListenerWithContext _ => true
  | _ => false

/-- A call of the steps of `Reconcile` that follow the create-or-modify step,
issued on the listener `inst`: a certificate call on its ARN, or the rules
reconcile of it. -/
def Call.onInstance (inst : elbv2sdk.Listener) : Call → Prop
  | .DescribeListenerCertificates lsArn => lsArn = StringValue inst.ListenerArn
  | .AddListenerCertificates input => input.ListenerArn = some (StringValue inst.ListenerArn)
  | .RemoveListenerCertificates input => input.ListenerArn = some (StringValue inst.ListenerArn)
  | .RulesReconcile i _ _ _ => i = inst
  | _ => False

/-- Whether port, protocol, certificates, SSL policy and default actions of a
listener are all deeply equal to those of a config. -/
def fieldsDeepEqual (inst : elbv2sdk.Listener) (config : listenerConfig) : Bool :=
  DeepEqual inst.Port config.Port && DeepEqual inst.Protocol config.Protocol &&
    DeepEqual inst.Certificates config.DefaultCertificate &&
    DeepEqual inst.SslPolicy config.SslPolicy &&
    DeepEqual inst.DefaultActions config.DefaultActions

/-- Example helpers: the SSL policy and certificate annotations load the given
values, every backend resolves to one forward action. -/
def exHelpers (sslPolicy : Option String) (certificateARNs : Option (List String)) :
    Helpers where
  LoadStringAnnotation := fun _ _ => sslPolicy
  LoadStringSliceAnnotation := fun _ _ => certificateARNs
  GetAnnotationWithPrefix := fun suffix => "alb.ingress.kubernetes.io/" ++ suffix
  buildActions := fun _ backend _ =>
    .ok [{ Type_ := some "forward", TargetGroupArn := some ("arn:tg/" ++ backend.ServiceName) }]

/-- The ports of a list of listeners, as the group controller reads them. -/
def instancePorts (instances : List elbv2sdk.Listener) : List Int :=
  instances.map (fun inst => Int64Value inst.Port)

/-- The ports of a list of port configurations. -/
def desiredPorts (ports : List PortData) : List Int := ports.map (fun port => port.Port)

/-- Example cloud state: the listeners of the load balancer, and the certificates
attached to its listener. -/
structure ExState where
  listeners : List elbv2sdk.Listener
  certificates : List elbv2sdk.Certificate
deriving DecidableEq, Repr

/-- Example listener with an ARN and a port. -/
def exListener (arn : String) (port : Int) : elbv2sdk.Listener :=
  { ListenerArn := some arn, Port := some port, Protocol := some "TCP", Certificates := [],
    SslPolicy := none, DefaultActions := [] }

/-- Example cloud over `ExState`: every call succeeds, except the delete, attach
and detach calls on the ARNs in `failing`. -/
def exCloud (failing : List String) : CloudAPI ExState where
  ListListenersByLoadBalancer := fun _ s => (.ok s.listeners, s)
  DeleteListenersByArn := fun lsArn s =>
    if lsArn ∈ failing then (some "Throttling", s)
    else (none, { s with listeners := s.listeners.filter (fun l => l.ListenerArn ≠ some lsArn) })
  CreateListenerWithContext := fun input s =>
    let l : elbv2sdk.Listener :=
      { ListenerArn := some "arn:ls/new", Port := input.Port, Protocol := input.Protocol,
        Certificates := input.Certificates, SslPolicy := input.SslPolicy,
        DefaultActions := input.DefaultActions }
    (.ok { Listeners := [l] }, { s with listeners := s.listeners ++ [l] })
  ModifyListenerWithContext := fun input s =>
    let l : elbv2sdk.Listener :=
      { ListenerArn := input.ListenerArn, Port := input.Port, Protocol := input.Protocol,
        Certificates := input.Certificates, SslPolicy := input.SslPolicy,
        DefaultActions := input.DefaultActions }
    (.ok { Listeners := [l] },
      { s with listeners :=
          List.map (fun x => if x.ListenerArn = input.ListenerArn then l else x) s.listeners })
  DescribeListenerCertificates := fun _ s => (.ok s.certificates, s)
  AddListenerCertificates := fun input s =>
    if input.Certificates.any (fun c => decide (StringValue c.CertificateArn ∈ failing)) then
      (some "Throttling", s)
    else (none, { s with certificates := s.certificates ++ input.Certificates })
  RemoveListenerCertificates := fun input s =>
    if input.Certificates.any (fun c => decide (StringValue c.CertificateArn ∈ failing)) then
      (some "Throttling", s)
    else
      let kept := s.certificates.filter (fun c =>
        !(input.Certificates.any (fun d => decide (d.CertificateArn = c.CertificateArn))))
      (none, { s with certificates := kept })

/-- Example listener controller and rules controller: every reconcile succeeds. -/
def exController : Controller ExState where
  Reconcile := fun _ s => (none, s)

def exRulesController : RulesController ExState where
  Reconcile := fun _ _ _ _ s => (none, s)

/-- Example store: the service declares the given ports. -/
def exStore (ports : List PortData) : Storer where
  GetServiceAnnotations := fun _ => .ok { LoadBalancer := { Ports := ports } }

/-- Example service with one service port. -/
def exService : k8s.Service :=
  { Namespace := "prod", Name := "web", Annotations := GoMap.empty, Ports := [⟨"", 80⟩] }

/-- Example target group group of the service. -/
def exTGGroup : TargetGroupGroup := { TGByBackend := GoMap.empty, selector := GoMap.empty }

/-- Example options: the example service on a port, with or without a listener. -/
def exOptions (port : PortData) (inst : Option elbv2sdk.Listener) : ReconcileOptions :=
  { LBArn := "arn:lb/1", Service := exService,
    ServiceAnnos := { LoadBalancer := { Ports := [port] } }, Port := port,
    TGGroup := exTGGroup, Instance := inst }

end ls

/-! ## `internal/alb/tg`: `Reconcile` and the extraction of backends -/

namespace elbv2sdk

/-- The constant `elbv2.ActionTypeEnumForward`. -/
def ActionTypeEnumForward : String := "forward"

end elbv2sdk

namespace k8s

/-- The value of a string of decimal digits; `none` when the string is empty or
has another character. -/
def digitsValue : List Char → Option Nat
  | [] => none
  | cs => if cs.all Char.isDigit then some (cs.foldl (fun n c => 10 * n + (c.toNat - 48)) 0)
    else none

/-- The function `strconv.Atoi`: an optional sign and decimal digits, within
the range of a 64-bit `int`. -/
def Atoi (val : String) : Option Int :=
  let v : Option Int :=
    match val.data with
    | '+' :: cs => (digitsValue cs).map (fun n => (n : Int))
    | '-' :: cs => (digitsValue cs).map (fun n => -(n : Int))
    | cs => (digitsValue cs).map (fun n => (n : Int))
  match v with
  | some i => if -(2 : Int) ^ 63 ≤ i ∧ i < (2 : Int) ^ 63 then some i else none
  | none => none

/-- The function `intstr.FromInt`: the value as an `int32`. -/
def FromInt (val : Int) : IntOrString :=
  .int ((val + (2 : Int) ^ 31) % (2 : Int) ^ 32 - (2 : Int) ^ 31)

/-- The function `intstr.Parse`: an integer when `Atoi` reads one, the string
otherwise. -/
def Parse (val : String) : IntOrString :=
  match Atoi val with
  | some i => FromInt i
  | none => .str val

/-- The method `IntOrString.String`. -/
def IntOrString.String_ : IntOrString → String
  | .int v => toString v
  | .str s => s

/-- The type `networking.HTTPIngressPath`. -/
structure HTTPIngressPath where
  Path : String
  Backend : IngressBackend
deriving DecidableEq, Repr

/-- The type `networking.HTTPIngressRuleValue`. -/
structure HTTPIngressRuleValue where
  Paths : List HTTPIngressPath
deriving DecidableEq, Repr

/-- The type `networking.IngressRule`; `HTTP` is `none` for Go's nil. -/
structure IngressRule where
  Host : String
  HTTP : Option HTTPIngressRuleValue
deriving DecidableEq, Repr

/-- The type `networking.IngressSpec`; `Backend` is `none` for Go's nil. -/
structure IngressSpec where
  Backend : Option IngressBackend
  Rules : List IngressRule
deriving DecidableEq, Repr

/-- The type `networking.Ingress`, with the fields the group controller reads. -/
structure Ingress where
  Namespace : String
  Name : String
  Spec : IngressSpec
deriving DecidableEq, Repr

/-- The helper `k8s.MetaNamespaceKey` on an ingress: `namespace/name`. -/
def IngressKey (ingress : Ingress) : String := ingress.Namespace ++ "/" ++ ingress.Name

end k8s

namespace tg

open k8s

/-- The type `action.TargetGroupTuple`, a target of a forward action: pointers
to the service name and to the service port. -/
structure TargetGroupTuple where
  ServiceName : Option String
  ServicePort : Option String
deriving DecidableEq, Repr

/-- The type `action.ForwardActionConfig`. -/
structure ForwardActionConfig where
  TargetGroups : List TargetGroupTuple
deriving DecidableEq, Repr

/-- The type `action.Action`, with the fields the group controller reads. -/
structure Action where
  Type_ : Option String
  ForwardConfig : ForwardActionConfig
deriving DecidableEq, Repr

/-- The type `action.Config`. Its declaration is not among the sources at hand:
`Actions` is the actions in the order in which the `range` loop of
`extractTargetGroupBackends` visits them. -/
structure ActionConfig where
  Actions : List Action
deriving DecidableEq, Repr

/-- The type `annotations.Ingress`, with the field the group controller reads. -/
structure IngressAnnos where
  Action : ActionConfig
deriving DecidableEq, Repr

/-- The part of `store.Storer` the group controller uses. -/
structure Storer where
  GetIngressAnnotations : String → Except String IngressAnnos

/-- Lines 116-127 of `extractTargetGroupBackends`: the default backend, then the
backend of every path of every rule that has HTTP paths. -/
def extractTargetGroupBackends.raw (ingress : Ingress) : List IngressBackend :=
  let rawIngBackends : List IngressBackend :=
    match ingress.Spec.Backend with
    | some backend => [] ++ [backend]
    | none => []
  ingress.Spec.Rules.foldl
    (fun rawIngBackends rule =>
      match rule.HTTP with
      | none => rawIngBackends
      | some http =>
        http.Paths.foldl (fun rawIngBackends path => rawIngBackends ++ [path.Backend])
          rawIngBackends)
    rawIngBackends

/-- Lines 129-135 of `extractTargetGroupBackends`: drop the backends whose port,
as a string, is an action placeholder. `use` is the function `action.Use`, which
is not among the sources at hand. -/
def extractTargetGroupBackends.keep (use : String → Bool)
    (rawIngBackends : List IngressBackend) : List IngressBackend :=
  rawIngBackends.foldl
    (fun ingBackends ingBackend =>
      if use ingBackend.ServicePort.String_ then ingBackends
      else ingBackends ++ [ingBackend])
    []

/-- Lines 142-155 of `extractTargetGroupBackends`: one backend for each target
with a service name of each forward action. -/
def extractTargetGroupBackends.addActions (actions : List Action)
    (ingBackends : List IngressBackend) : List IngressBackend :=
  actions.foldl
    (fun ingBackends action =>
      if StringValue action.Type_ ≠ elbv2sdk.ActionTypeEnumForward then ingBackends
      else
        action.ForwardConfig.TargetGroups.foldl
          (fun ingBackends tgt =>
            match tgt.ServiceName with
            | some _ =>
              ingBackends ++ [{ ServiceName := StringValue tgt.ServiceName,
                                ServicePort := Parse (StringValue tgt.ServicePort) }]
            | none => ingBackends)
          ingBackends)
    ingBackends

/-- The method `defaultGroupController.extractTargetGroupBackends`. -/
def extractTargetGroupBackends (store : Storer) (use : String → Bool) (ingress : Ingress) :
    Except String (List IngressBackend) :=
  let rawIngBackends := extractTargetGroupBackends.raw ingress
  let ingBackends := extractTargetGroupBackends.keep use rawIngBackends
  match store.GetIngressAnnotations (IngressKey ingress) with
  | .error err => .error err
  | .ok ingAnnos => .ok (extractTargetGroupBackends.addActions ingAnnos.Action.Actions ingBackends)

/-- A call of the target group reconciler, with what it returned. -/
structure ReconcilerCall where
  ingress : Ingress
  backend : IngressBackend
  returned : Except String TargetGroup

/-- The interface `Controller` of the package: the target group reconciler. -/
structure Controller (σ : Type) where
  Reconcile : Ingress → IngressBackend → σ → Except String TargetGroup × σ

/-- What the loop over the backends leaves behind. -/
structure LoopRan (σ : Type) where
  err : Option String
  tgByBackend : GoMap IngressBackend TargetGroup
  calls : List ReconcilerCall
  state : σ

/-- Lines 67-74 of `Reconcile`: the loop over the backends. A backend that is a
key of the map is skipped; when the reconciler fails the loop ends with its
error (the map is dropped by the caller). -/
def Reconcile.loop {σ : Type} (tgController : Controller σ) (ingress : Ingress) :
    List IngressBackend → GoMap IngressBackend TargetGroup → σ → LoopRan σ
  | [], tgByBackend, s => ⟨none, tgByBackend, [], s⟩
  | backend :: rest, tgByBackend, s =>
    match tgByBackend.get? backend with
    | some _ => Reconcile.loop tgController ingress rest tgByBackend s
    | none =>
      match tgController.Reconcile ingress backend s with
      | (.error err, s') => ⟨some err, tgByBackend, [⟨ingress, backend, .error err⟩], s'⟩
      | (.ok tg, s') =>
        let r := Reconcile.loop tgController ingress rest (tgByBackend.set backend tg) s'
        ⟨r.err, r.tgByBackend, ⟨ingress, backend, .ok tg⟩ :: r.calls, r.state⟩

/-- What `Reconcile` returns and leaves behind: the group, the error, the calls
of the target group reconciler, the collaborators' state. -/
structure Reconciled (σ : Type) where
  group : TargetGroupGroup
  err : Option String
  calls : List ReconcilerCall
  state : σ

/-- The value `TargetGroupGroup{}`: no target group, no selector. -/
def TargetGroupGroup.zero : TargetGroupGroup :=
  { TGByBackend := GoMap.empty, selector := GoMap.empty }

/-- The method `defaultGroupController.Reconcile`. -/
def Reconcile {σ : Type} (store : Storer) (use : String → Bool) (tgController : Controller σ)
    (nameTagGen : NameTagGenerator) (ingress : Ingress) (s : σ) : Reconciled σ :=
  match extractTargetGroupBackends store use ingress with
  | .error err => ⟨TargetGroupGroup.zero, some err, [], s⟩
  | .ok backends =>
    let r := Reconcile.loop tgController ingress backends GoMap.empty s
    match r.err with
    | some err => ⟨TargetGroupGroup.zero, some err, r.calls, r.state⟩
    | none =>
      let selector := nameTagGen.TagTGGroup ingress.Namespace ingress.Name
      ⟨{ TGByBackend := r.tgByBackend, selector := selector }, none, r.calls, r.state⟩

/-- The items of a list, each once, in the order of their first occurrence. -/
def firstOccurrences {α : Type} [DecidableEq α] : List α → List α
  | [] => []
  | x :: xs => x :: (firstOccurrences xs).filter (fun y => decide (y ≠ x))

/-- The backends the extraction takes from the ingress itself: the default
backend, then the path backends in rule order and path order. -/
def specBackends (ingress : Ingress) : List IngressBackend :=
  ingress.Spec.Backend.toList ++
    ingress.Spec.Rules.flatMap (fun rule =>
      match rule.HTTP with
      | some http => http.Paths.map (fun path => path.Backend)
      | none => [])

/-- The backends of the targets of one annotation action: one per target that
names a service, when the action is a forward action. -/
def actionBackends (action : Action) : List IngressBackend :=
  if StringValue action.Type_ = elbv2sdk.ActionTypeEnumForward then
    action.ForwardConfig.TargetGroups.filterMap (fun tgt =>
      tgt.ServiceName.map (fun name =>
        { ServiceName := name, ServicePort := Parse (StringValue tgt.ServicePort) }))
  else []

/-- Example `action.Use`: the placeholder port is `use-annotation`. -/
def exUse (s : String) : Bool := s == "use-annotation"

/-- Example store: every ingress has the given annotation actions. -/
def exIngressStore (actions : List Action) : Storer where
  GetIngressAnnotations := fun _ => .ok { Action := { Actions := actions } }

/-- Example name tag generator. -/
def exNameTagGen : NameTagGenerator where
  TagTGGroup := fun ns name =>
    ⟨[("kubernetes.io/ingress-name", name), ("kubernetes.io/namespace", ns)]⟩

/-- Example target group reconciler: the state is the list of the backends that
have a target group; a backend whose service is in `failing` fails. -/
def exTGController (failing : List String) : Controller (List IngressBackend) where
  Reconcile := fun _ backend s =>
    if backend.ServiceName ∈ failing then (.error "CreateTargetGroup failed", s)
    else (.ok { Arn := "arn:tg/" ++ backend.ServiceName ++ "-" ++ backend.ServicePort.String_ },
      if backend ∈ s then s else s ++ [backend])

/-- Example ingress: a default backend, and one rule with two paths. -/
def exIngress : Ingress :=
  { Namespace := "prod", Name := "web",
    Spec :=
      { Backend := some ⟨"svc-a", .int 80⟩,
        Rules :=
          [{ Host := "example.com",
             HTTP := some { Paths := [⟨"/b", ⟨"svc-b", .int 8080⟩⟩, ⟨"/a", ⟨"svc-a", .int 80⟩⟩,
               ⟨"/r", ⟨"redirect", .str "use-annotation"⟩⟩] } },
           { Host := "plain.example.com", HTTP := none }] } }

end tg

/-! ## `webhooks/elbv2`: target group binding validator -/

namespace webhooks

/-- The constant `elbv2api.TargetTypeInstance`. -/
def TargetTypeInstance : String := "instance"

/-- The constant `elbv2api.TargetTypeIP`. -/
def TargetTypeIP : String := "ip"

/-- The type `metav1.LabelSelector`, by its match labels. -/
structure LabelSelector where
  MatchLabels : GoMap String String
deriving DecidableEq, Repr

/-- The type `elbv2api.TargetGroupBindingSpec`; `TargetType` and `NodeSelector`
are `none` for Go's nil. -/
structure TargetGroupBindingSpec where
  TargetGroupARN : String
  TargetType : Option String
  NodeSelector : Option LabelSelector
deriving DecidableEq, Repr

/-- The type `elbv2api.TargetGroupBinding`. -/
structure TargetGroupBinding where
  Namespace : String
  Name : String
  Spec : TargetGroupBindingSpec
deriving DecidableEq, Repr

/-- How a validation ends when it does not accept: with an error, or by a
run-time panic. -/
inductive Failure where
  | error (msg : String)
  | panicked (msg : String)
deriving DecidableEq, Repr

/-- The calls the validator issues on the cluster client. -/
inductive ClientCall where
  | List
deriving DecidableEq, Repr

/-- The part of `client.Client` the validator uses: the listing of the target
group bindings of the cluster. -/
structure Client (σ : Type) where
  List : σ → Except String (List TargetGroupBinding) × σ

/-- The type `targetGroupBindingValidator` (the logger left out). -/
structure targetGroupBindingValidator (σ : Type) where
  k8sClient : Client σ

/-- What a validation returns (`none` is Go's nil: the object is accepted) and
leaves behind. -/
structure Validated (σ : Type) where
  result : Option Failure
  calls : List ClientCall
  state : σ

/-- The helper `k8s.NamespacedName(obj).String()`: `namespace/name`. -/
def NamespacedNameString (tgb : TargetGroupBinding) : String :=
  tgb.Namespace ++ "/" ++ tgb.Name

/-- The method `checkRequiredFields`. -/
def checkRequiredFields (tgb : TargetGroupBinding) : Option Failure :=
  let absentRequiredFields : List String := []
  let absentRequiredFields :=
    if tgb.Spec.TargetType = none then absentRequiredFields ++ ["spec.targetType"]
    else absentRequiredFields
  if absentRequiredFields.length ≠ 0 then
    some (.error ("TargetGroupBinding must specify these fields: " ++
      ",".intercalate absentRequiredFields))
  else none

/-- The method `checkImmutableFields`. -/
def checkImmutableFields (tgb oldTGB : TargetGroupBinding) : Option Failure :=
  let changedImmutableFields : List String := []
  let changedImmutableFields :=
    if tgb.Spec.TargetGroupARN ≠ oldTGB.Spec.TargetGroupARN then
      changedImmutableFields ++ ["spec.targetGroupARN"]
    else changedImmutableFields
  let changedImmutableFields :=
    if tgb.Spec.TargetType.isNone ≠ oldTGB.Spec.TargetType.isNone then
      changedImmutableFields ++ ["spec.targetType"]
    else changedImmutableFields
  let changedImmutableFields :=
    match tgb.Spec.TargetType, oldTGB.Spec.TargetType with
    | some targetType, some oldTargetType =>
      if targetType ≠ oldTargetType then changedImmutableFields ++ ["spec.targetType"]
      else changedImmutableFields
    | _, _ => changedImmutableFields
  if changedImmutableFields.length ≠ 0 then
    some (.error ("TargetGroupBinding update may not change these fields: " ++
      ",".intercalate changedImmutableFields))
  else none

/-- Lines 110-115 of `checkExistingTargetGroups`: the loop over the listed
bindings, which returns at the first one with the ARN of the new binding. -/
def checkExistingTargetGroups.loop (tgb : TargetGroupBinding) :
    List TargetGroupBinding → Option Failure
  | [] => none
  | tgbObj :: rest =>
    if tgbObj.Spec.TargetGroupARN = tgb.Spec.TargetGroupARN then
      some (.error ("TargetGroup " ++ tgb.Spec.TargetGroupARN ++
        " is already bound to TargetGroupBinding " ++ NamespacedNameString tgbObj))
    else checkExistingTargetGroups.loop tgb rest

/-- The method `checkExistingTargetGroups`. -/
def checkExistingTargetGroups {σ : Type} (v : targetGroupBindingValidator σ)
    (tgb : TargetGroupBinding) (s : σ) : Validated σ :=
  match v.k8sClient.List s with
  | (.error err, s') =>
    ⟨some (.error ("failed to list TargetGroupBindings in the cluster: " ++ err)), [.List], s'⟩
  | (.ok items, s') => ⟨checkExistingTargetGroups.loop tgb items, [.List], s'⟩

/-- The method `checkNodeSelector`. The condition dereferences `TargetType`
first: a nil target type is a nil pointer dereference. -/
def checkNodeSelector (tgb : TargetGroupBinding) : Option Failure :=
  match tgb.Spec.TargetType with
  | none => some (.panicked "runtime error: invalid memory address or nil pointer dereference")
  | some targetType =>
    if targetType = TargetTypeIP ∧ tgb.Spec.NodeSelector ≠ none then
      some (.error "TargetGroupBinding cannot set NodeSelector when TargetType is ip")
    else none

/-- The method `ValidateCreate`. -/
def ValidateCreate {σ : Type} (v : targetGroupBindingValidator σ) (tgb : TargetGroupBinding)
    (s : σ) : Validated σ :=
  match checkRequiredFields tgb with
  | some err => ⟨some err, [], s⟩
  | none =>
    match checkNodeSelector tgb with
    | some err => ⟨some err, [], s⟩
    | none =>
      let r := checkExistingTargetGroups v tgb s
      match r.result with
      | some err => ⟨some err, r.calls, r.state⟩
      | none => ⟨none, r.calls, r.state⟩

/-- The method `ValidateUpdate`. It does not use the client of the validator. -/
def ValidateUpdate {σ : Type} (_v : targetGroupBindingValidator σ)
    (tgb oldTgb : TargetGroupBinding) (s : σ) : Validated σ :=
  match checkRequiredFields tgb with
  | some err => ⟨some err, [], s⟩
  | none =>
    match checkImmutableFields tgb oldTgb with
    | some err => ⟨some err, [], s⟩
    | none =>
      match checkNodeSelector tgb with
      | some err => ⟨some err, [], s⟩
      | none => ⟨none, [], s⟩

/-- Example binding. -/
def exBinding (name arn : String) (targetType : Option String)
    (nodeSelector : Option LabelSelector) : TargetGroupBinding :=
  { Namespace := "prod", Name := name,
    Spec := { TargetGroupARN := arn, TargetType := targetType, NodeSelector := nodeSelector } }

/-- Example node selector. -/
def exNodeSelector : LabelSelector := { MatchLabels := ⟨[("pool", "edge")]⟩ }

/-- Example validator: the state of the cluster is the list of its bindings. -/
def exValidator : targetGroupBindingValidator (List TargetGroupBinding) where
  k8sClient := { List := fun s => (.ok s, s) }

/-- Example validator whose listing fails. -/
def exValidatorDown : targetGroupBindingValidator (List TargetGroupBinding) where
  k8sClient := { List := fun s => (.error "connection refused", s) }

end webhooks

namespace ls

/-- Example cloud whose describe call on the listener certificates fails. -/
def exCloudDescribeFailing : CloudAPI ExState :=
  { exCloud [] with
    DescribeListenerCertificates := fun _ s => (.error "AccessDenied", s) }

end ls

namespace deploy

/-- Example: a desired listener node of load balancer `arn:lb/1` with a given
identity at a port. -/
def exResNamed (id : String) (port : Int) : Listener :=
  { id := id,
    Spec := { LoadBalancerARN := .resolved "arn:lb/1", Port := port, Protocol := "HTTP" } }

/-- Example: an actual listener with a given ARN at a port. -/
def exSDKNamed (arn : String) (port : Int) : elbv2sdk.Listener :=
  { ListenerArn := some arn, Port := some port, Protocol := some "HTTP",
    Certificates := [], SslPolicy := none, DefaultActions := [] }

end deploy

namespace deploy

/-- The node whose status an event sets, if it is a `SetStatus`. -/
def Event.statusNode : Event → Option Listener
  | .SetStatus resLS _ => some resLS
  | _ => none

/-- The nodes whose status was set among the events of a run, in order. -/
def statusNodes (events : List Event) : List Listener := events.filterMap Event.statusNode

end deploy

namespace deploy

/-- The loop of `mapResListenerByLoadBalancerARN`: resolve the load balancer
reference of each listener, return at the first error, otherwise append the
listener to the group of the resolved ARN (`append` to the nil slice of an absent
key starts the group). -/
def mapResListenerByLoadBalancerARN.loop :
    List Listener → GoMap String (List Listener) → Except String (GoMap String (List Listener))
  | [], resLSsByLBARN => .ok resLSsByLBARN
  | ls :: rest, resLSsByLBARN =>
    match ls.Spec.LoadBalancerARN.Resolve with
    | .error err => .error err
    | .ok lbARN =>
      mapResListenerByLoadBalancerARN.loop rest
        (resLSsByLBARN.set lbARN ((resLSsByLBARN.get? lbARN).getD [] ++ [ls]))

/-- The function `mapResListenerByLoadBalancerARN`. -/
def mapResListenerByLoadBalancerARN (resLSs : List Listener) :
    Except String (GoMap String (List Listener)) :=
  mapResListenerByLoadBalancerARN.loop resLSs GoMap.empty

/-- The method `listenerSynthesizer.Synthesize`. `resLSs` are the listener nodes
`stack.ListResources` yields, `o` is the order in which the loop visits the
groups of the map. -/
def Synthesize {σ : Type} (elbv2Client : ELBV2 σ) (lsManager : ListenerManager σ)
    (o : RangeOrder) (resLSs : List Listener) (s : σ) : Ran Event σ :=
  match mapResListenerByLoadBalancerARN resLSs with
  | .error err => ⟨some err, [], s⟩
  | .ok resLSsByLBARN =>
    forEach
      (fun (entry : String × List Listener) s1 =>
        synthesizeListenersOnLB elbv2Client lsManager entry.1 entry.2 s1)
      (o.apply resLSsByLBARN.entries) s

/-- Example: a desired listener node of a given load balancer. -/
def exResOn (lbARN : String) (id : String) (port : Int) : Listener :=
  { id := id, Spec := { LoadBalancerARN := .resolved lbARN, Port := port, Protocol := "HTTP" } }

/-- Example: a desired listener node whose load balancer reference does not
resolve. -/
def exResUnresolved (id : String) (port : Int) (err : String) : Listener :=
  { id := id, Spec := { LoadBalancerARN := .unresolved err, Port := port, Protocol := "HTTP" } }

end deploy

namespace tg

/-- The state the cloud is in after it has answered `DeleteTargetGroupByArn` for
the ARNs of a list, one after the other. -/
def CloudAPI.afterDeletes {σ : Type} (cloud : CloudAPI σ) (arns : List String) (s : σ) : σ :=
  arns.foldl (fun st arn => (cloud.DeleteTargetGroupByArn arn st).2) s

end tg

namespace deploy

/-- The state the listener manager is in after it has answered `Delete` for the
actual listeners of a list, one after the other. -/
def ListenerManager.afterDeletes {σ : Type} (lsManager : ListenerManager σ)
    (sdkLSs : List elbv2sdk.Listener) (s : σ) : σ :=
  sdkLSs.foldl (fun st sdkLS => (lsManager.Delete sdkLS st).2) s

/-- The state the listener manager is in after it has answered `Create` for the
desired listeners of a list, one after the other. -/
def ListenerManager.afterCreates {σ : Type} (lsManager : ListenerManager σ)
    (resLSs : List Listener) (s : σ) : σ :=
  resLSs.foldl (fun st resLS => (lsManager.Create resLS st).2) s

/-- The state the listener manager is in after it has answered `Update` for the
pairs of a list, one after the other. -/
def ListenerManager.afterUpdates {σ : Type} (lsManager : ListenerManager σ)
    (pairs : List resAndSDKListenerPair) (s : σ) : σ :=
  pairs.foldl (fun st pair => (lsManager.Update pair.resLS pair.sdkLS st).2) s

end deploy

namespace tg

open k8s

/-- The state the target group reconciler is in after it has answered `Reconcile`
for the backends of a list, one after the other. -/
def Controller.afterReconciles {σ : Type} (tgController : Controller σ) (ingress : Ingress)
    (backends : List IngressBackend) (s : σ) : σ :=
  backends.foldl (fun st backend => (tgController.Reconcile ingress backend st).2) s

end tg

namespace ls

/-- The state the collaborators are in after the listener reconciler has answered
`Reconcile` for the options of a list, one after the other. -/
def Controller.afterPortReconciles {σ : Type} (lsController : Controller σ)
    (optionsList : List ReconcileOptions) (s : σ) : σ :=
  optionsList.foldl (fun st options => (lsController.Reconcile options st).2) s

/-- The state the cloud is in after it has answered `DeleteListenersByArn` for the
ARNs of a list, one after the other. -/
def CloudAPI.afterListenerDeletes {σ : Type} (cloud : CloudAPI σ) (arns : List String)
    (s : σ) : σ :=
  arns.foldl (fun st arn => (cloud.DeleteListenersByArn arn st).2) s

end ls

/-! ## Lemmas on sets, maps and loops -/

namespace GoSet
variable {α : Type} [DecidableEq α]

theorem mem_Insert (s : GoSet α) (x y : α) :
    y ∈ (s.Insert x).elems ↔ y ∈ s.elems ∨ y = x := by
  unfold Insert
  split
  · constructor
    · intro h
      exact Or.inl h
    · rintro (h | rfl)
      · exact h
      · assumption
  · simp

theorem nodup_Insert (s : GoSet α) (x : α) (h : s.elems.Nodup) :
    (s.Insert x).elems.Nodup := by
  unfold Insert
  split
  · exact h
  · rename_i hx
    exact List.Nodup.append h (List.nodup_singleton x) (by simpa using hx)

theorem mem_foldl_Insert {β : Type} (f : β → α) (l : List β) :
    ∀ (s : GoSet α) (y : α),
      y ∈ (l.foldl (fun s e => s.Insert (f e)) s).elems ↔ y ∈ s.elems ∨ ∃ e ∈ l, f e = y := by
  induction l with
  | nil => intro s y; simp
  | cons e l ih =>
    intro s y
    rw [List.foldl_cons, ih, mem_Insert]
    constructor
    · rintro ((h | rfl) | ⟨e', he', rfl⟩)
      · exact Or.inl h
      · exact Or.inr ⟨e, List.mem_cons_self _ _, rfl⟩
      · exact Or.inr ⟨e', List.mem_cons_of_mem _ he', rfl⟩
    · rintro (h | ⟨e', he', rfl⟩)
      · exact Or.inl (Or.inl h)
      · rcases List.mem_cons.mp he' with rfl | h
        · exact Or.inl (Or.inr rfl)
        · exact Or.inr ⟨e', h, rfl⟩

theorem nodup_foldl_Insert {β : Type} (f : β → α) (l : List β) :
    ∀ (s : GoSet α), s.elems.Nodup → (l.foldl (fun s e => s.Insert (f e)) s).elems.Nodup := by
  induction l with
  | nil => intro s h; exact h
  | cons e l ih =>
    intro s h
    rw [List.foldl_cons]
    exact ih _ (nodup_Insert s (f e) h)

theorem mem_New (items : List α) (y : α) : y ∈ (New items).elems ↔ y ∈ items := by
  have h := mem_foldl_Insert (fun x : α => x) items empty y
  simpa [New, empty] using h

theorem nodup_New (items : List α) : (New items).elems.Nodup :=
  nodup_foldl_Insert (fun x : α => x) items empty List.nodup_nil

theorem mem_Difference (s t : GoSet α) (y : α) :
    y ∈ (s.Difference t).elems ↔ y ∈ s.elems ∧ y ∉ t.elems := by
  simp [Difference, Has, List.mem_filter]

theorem nodup_Difference (s t : GoSet α) (h : s.elems.Nodup) :
    (s.Difference t).elems.Nodup :=
  List.Nodup.filter _ h

theorem mem_Intersection (s t : GoSet α) (y : α) :
    y ∈ (s.Intersection t).elems ↔ y ∈ s.elems ∧ y ∈ t.elems := by
  simp [Intersection, Has, List.mem_filter]

theorem nodup_Intersection (s t : GoSet α) (h : s.elems.Nodup) :
    (s.Intersection t).elems.Nodup :=
  List.Nodup.filter _ h

end GoSet

namespace GoMap
variable {K V : Type}

theorem entries_map_fst_sublist (g : K → Option V) (ks : List K) :
    ((ks.filterMap (fun k => (g k).map (fun v => (k, v)))).map Prod.fst).Sublist ks := by
  induction ks with
  | nil => simp
  | cons k ks ih =>
    cases hg : g k with
    | none =>
      simp only [List.filterMap_cons, hg, Option.map_none']
      exact List.Sublist.cons _ ih
    | some v =>
      simp only [List.filterMap_cons, hg, Option.map_some', List.map_cons]
      exact List.Sublist.cons₂ _ ih

/-- Assigning the items of a list one after the other stacks their bindings,
the last assigned at the head. -/
theorem foldl_set_bindings {α : Type} (fk : α → K) (fv : α → V) (l : List α) :
    ∀ m0 : GoMap K V, (l.foldl (fun m a => m.set (fk a) (fv a)) m0).bindings
      = (l.map (fun a => (fk a, fv a))).reverse ++ m0.bindings := by
  induction l with
  | nil => intro m0; simp
  | cons a l ih =>
    intro m0
    rw [List.foldl_cons, ih]
    simp [set]

end GoMap

namespace GoMap
variable {K V : Type} [DecidableEq K]

theorem mem_of_lookup_eq_some {l : List (K × V)} {k : K} {v : V}
    (h : lookup l k = some v) : (k, v) ∈ l := by
  induction l with
  | nil => simp [lookup] at h
  | cons kv l ih =>
    obtain ⟨k', v'⟩ := kv
    unfold lookup at h
    by_cases hk : k' = k
    · subst hk
      simp at h
      subst h
      exact List.mem_cons_self _ _
    · simp only [hk, if_false] at h
      exact List.mem_cons_of_mem _ (ih h)

theorem lookup_ne_none_iff (l : List (K × V)) (k : K) :
    lookup l k ≠ none ↔ k ∈ l.map Prod.fst := by
  induction l with
  | nil => simp [lookup]
  | cons kv l ih =>
    obtain ⟨k', v'⟩ := kv
    unfold lookup
    by_cases hk : k' = k
    · simp [hk]
    · simp only [hk, if_false, ih, List.map_cons, List.mem_cons]
      constructor
      · intro h
        exact Or.inr h
      · rintro (h | h)
        · exact absurd h.symm hk
        · exact h

theorem lookup_of_nodup {l : List (K × V)} (hn : (l.map Prod.fst).Nodup) {k : K} {v : V}
    (h : (k, v) ∈ l) : lookup l k = some v := by
  induction l with
  | nil => simp at h
  | cons kv l ih =>
    obtain ⟨k', v'⟩ := kv
    rw [List.map_cons, List.nodup_cons] at hn
    unfold lookup
    rcases List.mem_cons.mp h with heq | hmem
    · injection heq with h1 h2
      subst h1
      subst h2
      simp
    · have hk : k' ≠ k := by
        intro hk'
        apply hn.1
        rw [hk']
        exact List.mem_map.mpr ⟨(k, v), hmem, rfl⟩
      simp only [hk, if_false]
      exact ih hn.2 hmem

theorem lookup_append (l₁ l₂ : List (K × V)) (k : K) :
    lookup (l₁ ++ l₂) k = (lookup l₁ k).orElse (fun _ => lookup l₂ k) := by
  induction l₁ with
  | nil => simp [lookup]
  | cons kv l ih =>
    obtain ⟨k', v'⟩ := kv
    simp only [List.cons_append, lookup]
    by_cases hk : k' = k
    · simp [hk]
    · simp only [hk, if_false]
      exact ih

theorem mem_keys (m : GoMap K V) (k : K) : k ∈ m.keys ↔ k ∈ m.bindings.map Prod.fst :=
  List.mem_dedup

theorem nodup_keys (m : GoMap K V) : m.keys.Nodup := List.nodup_dedup _

theorem mem_keys_iff_get? (m : GoMap K V) (k : K) : k ∈ m.keys ↔ m.get? k ≠ none := by
  rw [mem_keys, get?, lookup_ne_none_iff]

theorem mem_entries (m : GoMap K V) (k : K) (v : V) :
    (k, v) ∈ m.entries ↔ m.get? k = some v := by
  unfold entries
  rw [List.mem_filterMap]
  constructor
  · rintro ⟨k', _, h⟩
    cases hg : m.get? k' with
    | none => simp [hg] at h
    | some v' =>
      simp [hg] at h
      obtain ⟨rfl, rfl⟩ := h
      exact hg
  · intro h
    refine ⟨k, ?_, by simp [h]⟩
    rw [mem_keys_iff_get?, h]
    simp

theorem nodup_entries_keys (m : GoMap K V) : (m.entries.map Prod.fst).Nodup :=
  List.Nodup.sublist (entries_map_fst_sublist m.get? m.keys) (nodup_keys m)

end GoMap

namespace GoMap
variable {K α : Type} [DecidableEq K]

/-- In a map filled by `m[key(a)] = a` over a list, a value found under `k` is
an item of the list whose key is `k`. -/
theorem get?_index_some (fk : α → K) (l : List α) (k : K) (v : α)
    (h : (l.foldl (fun m a => m.set (fk a) a) GoMap.empty).get? k = some v) :
    v ∈ l ∧ fk v = k := by
  unfold get? at h
  rw [foldl_set_bindings fk (fun a => a)] at h
  have hm := mem_of_lookup_eq_some h
  simp only [empty, List.append_nil, List.mem_reverse, List.mem_map] at hm
  obtain ⟨a, ha, heq⟩ := hm
  injection heq with h1 h2
  subst h2
  exact ⟨ha, h1⟩

theorem mem_keys_index (fk : α → K) (l : List α) (k : K) :
    k ∈ (l.foldl (fun m a => m.set (fk a) a) GoMap.empty).keys ↔ k ∈ l.map fk := by
  rw [mem_keys, foldl_set_bindings fk (fun a => a)]
  simp [empty]

theorem keys_index_of_nodup (fk : α → K) (l : List α) (hn : (l.map fk).Nodup) :
    (l.foldl (fun m a => m.set (fk a) a) GoMap.empty).keys = (l.map fk).reverse := by
  unfold keys
  rw [foldl_set_bindings fk (fun a => a)]
  simp only [empty, List.append_nil, List.map_reverse, List.map_map]
  exact List.Nodup.dedup (List.nodup_reverse.mpr hn)

theorem get?_index_of_nodup (fk : α → K) (l : List α) (hn : (l.map fk).Nodup) (a : α)
    (ha : a ∈ l) : (l.foldl (fun m a => m.set (fk a) a) GoMap.empty).get? (fk a) = some a := by
  unfold get?
  rw [foldl_set_bindings fk (fun a => a)]
  simp only [empty, List.append_nil]
  apply lookup_of_nodup
  · rw [List.map_reverse, List.nodup_reverse, List.map_map]
    exact hn
  · rw [List.mem_reverse, List.mem_map]
    exact ⟨a, ha, rfl⟩

end GoMap

/-- Reading a list of keys off a map in which every key of the list is bound to a
value that carries the key gives back the keys. -/
theorem map_filterMap_of_key {K β : Type} (f : K → Option β) (g : β → K) (l : List K)
    (h : ∀ k ∈ l, ∃ v, f k = some v ∧ g v = k) : (l.filterMap f).map g = l := by
  induction l with
  | nil => rfl
  | cons k l ih =>
    obtain ⟨v, hv, hg⟩ := h k (List.mem_cons_self _ _)
    rw [List.filterMap_cons_some hv, List.map_cons, hg,
      ih (fun k' hk' => h k' (List.mem_cons_of_mem _ hk'))]

theorem GoSet.mem_SortedList (s : GoSet Int) (x : Int) : x ∈ s.SortedList ↔ x ∈ s.elems :=
  (List.perm_insertionSort _ _).mem_iff

theorem GoSet.nodup_SortedList (s : GoSet Int) (h : s.elems.Nodup) : s.SortedList.Nodup :=
  (List.perm_insertionSort _ _).nodup_iff.mpr h

theorem GoSet.length_SortedList (s : GoSet Int) : s.SortedList.length = s.elems.length :=
  List.length_insertionSort _ _

theorem GoSet.length_Intersection_add_Difference {α : Type} [DecidableEq α] (s t : GoSet α) :
    (s.Intersection t).elems.length + (s.Difference t).elems.length = s.elems.length := by
  unfold GoSet.Intersection GoSet.Difference
  exact (List.length_eq_length_filter_add (fun x => t.Has x)).symm

theorem GoSet.length_Intersection_comm {α : Type} [DecidableEq α] (s t : GoSet α)
    (hs : s.elems.Nodup) (ht : t.elems.Nodup) :
    (s.Intersection t).elems.length = (t.Intersection s).elems.length := by
  apply List.Perm.length_eq
  rw [List.perm_ext_iff_of_nodup (GoSet.nodup_Intersection s t hs)
    (GoSet.nodup_Intersection t s ht)]
  intro a
  rw [GoSet.mem_Intersection, GoSet.mem_Intersection, and_comm]

theorem Ran.andThen_err_none {C σ : Type} (r : Ran C σ) (k : σ → Ran C σ) :
    (r.andThen k).err = none ↔ r.err = none ∧ (k r.state).err = none := by
  unfold Ran.andThen
  cases h : r.err <;> simp

theorem Ran.andThen_calls_of_ok {C σ : Type} (r : Ran C σ) (k : σ → Ran C σ)
    (h : r.err = none) : (r.andThen k).calls = r.calls ++ (k r.state).calls := by
  unfold Ran.andThen
  simp [h]

theorem Ran.andThen_calls_of_err {C σ : Type} (r : Ran C σ) (k : σ → Ran C σ)
    (h : r.err ≠ none) : (r.andThen k).calls = r.calls := by
  unfold Ran.andThen
  cases h' : r.err with
  | none => exact absurd h' h
  | some e => rfl

theorem Ran.andThen_state_of_ok {C σ : Type} (r : Ran C σ) (k : σ → Ran C σ)
    (h : r.err = none) : (r.andThen k).state = (k r.state).state := by
  unfold Ran.andThen
  simp [h]

/-- A loop whose body issues, among the calls selected by `p`, exactly the call
`c x` on item `x` has issued, when it ends without error, the selected calls of
all items in order. -/
theorem forEach_filter_calls_of_ok {α C σ : Type} (f : α → σ → Ran C σ) (p : C → Bool)
    (c : α → C) (hf : ∀ x s, (f x s).calls.filter p = [c x]) :
    ∀ (xs : List α) (s : σ), (forEach f xs s).err = none →
      (forEach f xs s).calls.filter p = xs.map c := by
  intro xs
  induction xs with
  | nil => intro s _; rfl
  | cons x xs ih =>
    intro s h
    unfold forEach at h ⊢
    rw [Ran.andThen_err_none] at h
    rw [Ran.andThen_calls_of_ok _ _ h.1, List.filter_append, hf, ih _ h.2]
    rfl

/-- A loop whose body issues, among the calls selected by `p`, exactly the call
`c x` on item `x` has issued, however it ends, the selected calls of an initial
segment of the items. -/
theorem forEach_filter_calls_take {α C σ : Type} (f : α → σ → Ran C σ) (p : C → Bool)
    (c : α → C) (hf : ∀ x s, (f x s).calls.filter p = [c x]) :
    ∀ (xs : List α) (s : σ), ∃ n, (forEach f xs s).calls.filter p = (xs.take n).map c := by
  intro xs
  induction xs with
  | nil => intro s; exact ⟨0, rfl⟩
  | cons x xs ih =>
    intro s
    unfold forEach
    cases hx : (f x s).err with
    | some e =>
      refine ⟨1, ?_⟩
      rw [Ran.andThen_calls_of_err _ _ (by simp [hx]), hf]
      rfl
    | none =>
      obtain ⟨n, hn⟩ := ih (f x s).state
      refine ⟨n + 1, ?_⟩
      rw [Ran.andThen_calls_of_ok _ _ hx, List.filter_append, hf, hn]
      rfl

/-- A loop whose body issues exactly the call `c x` on item `x` has issued, when
it ends without error, the calls of all items in order. -/
theorem forEach_calls_of_ok {α C σ : Type} (f : α → σ → Ran C σ) (c : α → C)
    (hf : ∀ x s, (f x s).calls = [c x]) (xs : List α) (s : σ)
    (h : (forEach f xs s).err = none) : (forEach f xs s).calls = xs.map c := by
  have := forEach_filter_calls_of_ok f (fun _ => true) c (by simp [hf]) xs s h
  simpa using this

/-- A loop whose body issues exactly the call `c x` on item `x` has issued, however
it ends, the calls of an initial segment of the items. -/
theorem forEach_calls_take {α C σ : Type} (f : α → σ → Ran C σ) (c : α → C)
    (hf : ∀ x s, (f x s).calls = [c x]) (xs : List α) (s : σ) :
    ∃ n, (forEach f xs s).calls = (xs.take n).map c := by
  have := forEach_filter_calls_take f (fun _ => true) c (by simp [hf]) xs s
  simpa using this

theorem Ran.andThen_forall {C σ : Type} (P : C → Prop) (r : Ran C σ) (k : σ → Ran C σ)
    (hr : ∀ c ∈ r.calls, P c) (hk : ∀ s, ∀ c ∈ (k s).calls, P c) :
    ∀ c ∈ (r.andThen k).calls, P c := by
  intro c hc
  unfold Ran.andThen at hc
  cases h : r.err with
  | some e =>
    simp only [h] at hc
    exact hr c hc
  | none =>
    simp only [h, List.mem_append] at hc
    rcases hc with hc | hc
    · exact hr c hc
    · exact hk _ c hc

theorem forEach_forall {α C σ : Type} (P : C → Prop) (f : α → σ → Ran C σ)
    (hf : ∀ x s, ∀ c ∈ (f x s).calls, P c) :
    ∀ (xs : List α) (s : σ), ∀ c ∈ (forEach f xs s).calls, P c := by
  intro xs
  induction xs with
  | nil => intro s c hc; simp [forEach] at hc
  | cons x xs ih =>
    intro s
    unfold forEach
    exact Ran.andThen_forall P _ _ (hf x s) ih

namespace tg

theorem deletedArns_map_delete (l : List String) :
    deletedArns (l.map CloudCall.DeleteTargetGroupByArn) = l := by
  induction l with
  | nil => rfl
  | cons a l ih => simp [deletedArns, ih]

theorem GC.deleteOne_calls {σ : Type} (cloud : CloudAPI σ) (arn : String) (s : σ) :
    (GC.deleteOne cloud arn s).calls = [CloudCall.DeleteTargetGroupByArn arn] := by
  unfold GC.deleteOne
  split <;> rfl

theorem GC.mem_usedTgArns (o : RangeOrder) (tgGroup : TargetGroupGroup) (arn : String) :
    arn ∈ (GC.usedTgArns o tgGroup).elems ↔ arn ∈ referencedArns tgGroup := by
  unfold GC.usedTgArns referencedArns
  rw [GoSet.mem_foldl_Insert (fun e : k8s.IngressBackend × TargetGroup => e.2.Arn)]
  simp [GoSet.empty, (o.perm tgGroup.TGByBackend.entries).mem_iff]

theorem GC.tagFilters_get? (o : RangeOrder) (tgGroup : TargetGroupGroup) (k v : String)
    (h : tgGroup.selector.get? k = some v) : (GC.tagFilters o tgGroup).get? k = some [v] := by
  unfold GC.tagFilters GoMap.get?
  rw [GoMap.foldl_set_bindings (fun kv : String × String => kv.1) (fun kv => [kv.2])]
  simp only [GoMap.empty, List.append_nil]
  apply GoMap.lookup_of_nodup
  · rw [List.map_reverse, List.nodup_reverse, List.map_map]
    have hp := (o.perm tgGroup.selector.entries).map Prod.fst
    exact hp.nodup_iff.mpr (GoMap.nodup_entries_keys _)
  · rw [List.mem_reverse, List.mem_map]
    exact ⟨(k, v), (o.perm _).mem_iff.mpr ((GoMap.mem_entries _ k v).mpr h), rfl⟩

/-- The ARNs the delete loop of `GC` is run on: the search result minus the used ARNs. -/
theorem GC.mem_unused (oTG oDel : RangeOrder) (tgGroup : TargetGroupGroup)
    (arns : List String) (arn : String) :
    arn ∈ oDel.apply ((GoSet.New arns).Difference (GC.usedTgArns oTG tgGroup)).elems ↔
      (arn ∈ arns ∧ arn ∉ referencedArns tgGroup) := by
  rw [(oDel.perm _).mem_iff, GoSet.mem_Difference, GoSet.mem_New, GC.mem_usedTgArns]

/-- Every ARN `GC` deletes is in the search result and is not referenced. -/
theorem GC.deleted_mem {σ : Type} (cloud : CloudAPI σ)
    (oSel oTG oDel : RangeOrder) (tgGroup : TargetGroupGroup) (s s' : σ) (arns : List String)
    (hsearch : cloud.GetResourcesByFilters (GC.tagFilters oSel tgGroup)
      ResourceTypeEnumELBTargetGroup s = (.ok arns, s'))
    (arn : String) (harn : arn ∈ deletedArns (GC cloud oSel oTG oDel tgGroup s).calls) :
    arn ∈ arns ∧ arn ∉ referencedArns tgGroup := by
  simp only [GC, hsearch, deletedArns] at harn
  obtain ⟨n, hn⟩ := forEach_calls_take (GC.deleteOne cloud) CloudCall.DeleteTargetGroupByArn
    (GC.deleteOne_calls cloud) (oDel.apply ((GoSet.New arns).Difference
      (GC.usedTgArns oTG tgGroup)).elems) s'
  rw [hn, deletedArns_map_delete] at harn
  exact (GC.mem_unused oTG oDel tgGroup arns arn).mp (List.mem_of_mem_take harn)

/-- A run of `GC` whose search fails deletes nothing. -/
theorem GC.no_delete_of_search_error {σ : Type} (cloud : CloudAPI σ)
    (oSel oTG oDel : RangeOrder) (tgGroup : TargetGroupGroup) (s s' : σ) (e : String)
    (hsearch : cloud.GetResourcesByFilters (GC.tagFilters oSel tgGroup)
      ResourceTypeEnumELBTargetGroup s = (.error e, s')) :
    deletedArns (GC cloud oSel oTG oDel tgGroup s).calls = [] := by
  simp [GC, hsearch, deletedArns]

/-- With a cloud whose search is the tag search, `GC` run with a selector that
has a key/value pair the tags of a target group lack does not delete it. -/
theorem GC.not_deleted_of_selector_mismatch {σ : Type} (cloud : CloudAPI σ)
    (view : σ → TagStore)
    (hsearch : ∀ tagFilters rt s,
      (cloud.GetResourcesByFilters tagFilters rt s).1 = .ok (tagSearch (view s) tagFilters))
    (oSel oTG oDel : RangeOrder) (tgGroup : TargetGroupGroup) (S2 : GoMap String String)
    (hdiff : ∃ k v, tgGroup.selector.get? k = some v ∧ S2.get? k ≠ some v)
    (s : σ) (arn : String) (tags : GoMap String String)
    (harn : (view s).get? arn = some tags) (htags : sameTags tags S2) :
    arn ∉ deletedArns (GC cloud oSel oTG oDel tgGroup s).calls := by
  intro hdel
  obtain ⟨k, v, hk, hS2⟩ := hdiff
  have hs := hsearch (GC.tagFilters oSel tgGroup) ResourceTypeEnumELBTargetGroup s
  cases hp : cloud.GetResourcesByFilters (GC.tagFilters oSel tgGroup)
      ResourceTypeEnumELBTargetGroup s with
  | mk res s' =>
    rw [hp] at hs
    simp only at hs
    subst hs
    have hin := (GC.deleted_mem cloud oSel oTG oDel tgGroup s s' _ hp arn hdel).1
    unfold tagSearch at hin
    rw [List.mem_filter, harn] at hin
    have hall := hin.2
    unfold tagsMatch at hall
    rw [List.all_eq_true] at hall
    have hent : (k, [v]) ∈ (GC.tagFilters oSel tgGroup).entries :=
      (GoMap.mem_entries _ k [v]).mpr (GC.tagFilters_get? oSel tgGroup k v hk)
    have hkv := hall (k, [v]) hent
    apply hS2
    rw [← htags k]
    cases ht : tags.get? k with
    | none => simp [ht] at hkv
    | some v' =>
      simp [ht] at hkv
      rw [hkv]

/-- Counterexample to C2 as stated: the selector `{namespace: prod}` differs from
the tags `{ingress-name: api, namespace: prod}` of `arn:tg/api-1`, and `GC` run
with that selector deletes `arn:tg/api-1`. -/
theorem GC_distinct_selector_deletes_counterexample :
    ¬ sameTags exSelectorProd exSelectorApi ∧
    exStore.get? "arn:tg/api-1" = some exSelectorApi ∧
    "arn:tg/api-1" ∈ deletedArns (GC (storeCloud []) RangeOrder.stored RangeOrder.stored
      RangeOrder.stored { TGByBackend := GoMap.empty, selector := exSelectorProd }
      exStore).calls := by
  refine ⟨?_, by decide, by decide⟩
  intro h
  exact absurd (h "kubernetes.io/ingress-name") (by decide)

/-- Claim C2, amended. With the cloud tag search returning exactly the target
groups whose tags hold every key/value pair of the filter, for all selectors `S1`
and tag maps `S2` such that some key/value pair of `S1` is not in `S2`, neither
`GC` nor `Delete` run with selector `S1` issues a delete for a target group whose
tags are exactly `S2`. -/
theorem GC_never_deletes_target_group_lacking_a_selector_tag {σ : Type}
    (cloud : CloudAPI σ) (view : σ → TagStore)
    (hsearch : ∀ tagFilters rt s,
      (cloud.GetResourcesByFilters tagFilters rt s).1 = .ok (tagSearch (view s) tagFilters))
    (oSel oTG oDel : RangeOrder) (tgGroup : TargetGroupGroup) (S2 : GoMap String String)
    (hdiff : ∃ k v, tgGroup.selector.get? k = some v ∧ S2.get? k ≠ some v)
    (s : σ) (arn : String) (tags : GoMap String String)
    (harn : (view s).get? arn = some tags) (htags : sameTags tags S2) :
    arn ∉ deletedArns (GC cloud oSel oTG oDel tgGroup s).calls ∧
    ∀ (nameTagGen : NameTagGenerator) (ingressKey : NamespacedName),
      nameTagGen.TagTGGroup ingressKey.Namespace ingressKey.Name = tgGroup.selector →
      arn ∉ deletedArns (Delete nameTagGen cloud oSel oTG oDel ingressKey s).calls := by
  constructor
  · exact GC.not_deleted_of_selector_mismatch cloud view hsearch oSel oTG oDel tgGroup S2
      hdiff s arn tags harn htags
  · intro nameTagGen ingressKey hsel
    unfold Delete
    exact GC.not_deleted_of_selector_mismatch cloud view hsearch oSel oTG oDel
      { TGByBackend := GoMap.empty,
        selector := nameTagGen.TagTGGroup ingressKey.Namespace ingressKey.Name } S2
      (by rw [hsel]; exact hdiff) s arn tags harn htags

/-- Witness of C2: `GC` of the `web` group does not delete the `api` target group. -/
theorem GC_never_deletes_target_group_lacking_a_selector_tag_witness :
    "arn:tg/api-1" ∉ deletedArns (GC (storeCloud []) RangeOrder.stored RangeOrder.stored
      RangeOrder.stored exGroupWeb exStore).calls :=
  (GC_never_deletes_target_group_lacking_a_selector_tag (storeCloud []) (fun s => s)
    (fun _ _ _ => rfl) RangeOrder.stored RangeOrder.stored RangeOrder.stored exGroupWeb
    exSelectorApi ⟨"kubernetes.io/ingress-name", "web", by decide, by decide⟩
    exStore "arn:tg/api-1" exSelectorApi (by decide) (fun _ => rfl)).1

end tg

namespace deploy

theorem mem_keys_mapResListenerByPort (resLSs : List Listener) (port : Int) :
    port ∈ (GoSet.KeySet (mapResListenerByPort resLSs)).elems ↔ port ∈ resPorts resLSs :=
  GoMap.mem_keys_index (fun ls : Listener => ls.Spec.Port) resLSs port

theorem mem_keys_mapSDKListenerByPort (sdkLSs : List elbv2sdk.Listener) (port : Int) :
    port ∈ (GoSet.KeySet (mapSDKListenerByPort sdkLSs)).elems ↔ port ∈ sdkPorts sdkLSs :=
  GoMap.mem_keys_index (fun ls : elbv2sdk.Listener => Int64Value ls.Port) sdkLSs port

theorem get?_mapResListenerByPort (resLSs : List Listener) (port : Int) (ls : Listener)
    (h : (mapResListenerByPort resLSs).get? port = some ls) :
    ls ∈ resLSs ∧ ls.Spec.Port = port :=
  GoMap.get?_index_some (fun ls : Listener => ls.Spec.Port) resLSs port ls h

theorem get?_mapSDKListenerByPort (sdkLSs : List elbv2sdk.Listener) (port : Int)
    (ls : elbv2sdk.Listener) (h : (mapSDKListenerByPort sdkLSs).get? port = some ls) :
    ls ∈ sdkLSs ∧ Int64Value ls.Port = port :=
  GoMap.get?_index_some (fun ls : elbv2sdk.Listener => Int64Value ls.Port) sdkLSs port ls h

/-- A port of the desired listeners is bound in `mapResListenerByPort`. -/
theorem exists_get?_mapResListenerByPort (resLSs : List Listener) (port : Int)
    (h : port ∈ (GoSet.KeySet (mapResListenerByPort resLSs)).elems) :
    ∃ ls, (mapResListenerByPort resLSs).get? port = some ls ∧ ls.Spec.Port = port := by
  have hk := (GoMap.mem_keys_iff_get? _ port).mp h
  cases hg : (mapResListenerByPort resLSs).get? port with
  | none => exact absurd hg hk
  | some ls => exact ⟨ls, rfl, (get?_mapResListenerByPort resLSs port ls hg).2⟩

/-- A port of the actual listeners is bound in `mapSDKListenerByPort`. -/
theorem exists_get?_mapSDKListenerByPort (sdkLSs : List elbv2sdk.Listener) (port : Int)
    (h : port ∈ (GoSet.KeySet (mapSDKListenerByPort sdkLSs)).elems) :
    ∃ ls, (mapSDKListenerByPort sdkLSs).get? port = some ls ∧ Int64Value ls.Port = port := by
  have hk := (GoMap.mem_keys_iff_get? _ port).mp h
  cases hg : (mapSDKListenerByPort sdkLSs).get? port with
  | none => exact absurd hg hk
  | some ls => exact ⟨ls, rfl, (get?_mapSDKListenerByPort sdkLSs port ls hg).2⟩

/-- The ports of the matched pairs are the common ports, in ascending order. -/
theorem pairPorts_matched (resLSs : List Listener) (sdkLSs : List elbv2sdk.Listener) :
    pairPorts (matchResAndSDKListeners resLSs sdkLSs).1 =
      ((GoSet.KeySet (mapResListenerByPort resLSs)).Intersection
        (GoSet.KeySet (mapSDKListenerByPort sdkLSs))).SortedList := by
  unfold matchResAndSDKListeners pairPorts
  apply map_filterMap_of_key
  intro port hport
  rw [GoSet.mem_SortedList, GoSet.mem_Intersection] at hport
  obtain ⟨r, hr, hrp⟩ := exists_get?_mapResListenerByPort resLSs port hport.1
  obtain ⟨s, hs, _⟩ := exists_get?_mapSDKListenerByPort sdkLSs port hport.2
  exact ⟨{ resLS := r, sdkLS := s }, by simp [hr, hs], hrp⟩

/-- The ports of the unmatched desired listeners are the ports only desired, in
ascending order. -/
theorem resPorts_unmatched (resLSs : List Listener) (sdkLSs : List elbv2sdk.Listener) :
    resPorts (matchResAndSDKListeners resLSs sdkLSs).2.1 =
      ((GoSet.KeySet (mapResListenerByPort resLSs)).Difference
        (GoSet.KeySet (mapSDKListenerByPort sdkLSs))).SortedList := by
  unfold matchResAndSDKListeners resPorts
  apply map_filterMap_of_key
  intro port hport
  rw [GoSet.mem_SortedList, GoSet.mem_Difference] at hport
  exact exists_get?_mapResListenerByPort resLSs port hport.1

/-- The ports of the unmatched actual listeners are the ports only actual, in
ascending order. -/
theorem sdkPorts_unmatched (resLSs : List Listener) (sdkLSs : List elbv2sdk.Listener) :
    sdkPorts (matchResAndSDKListeners resLSs sdkLSs).2.2 =
      ((GoSet.KeySet (mapSDKListenerByPort sdkLSs)).Difference
        (GoSet.KeySet (mapResListenerByPort resLSs))).SortedList := by
  unfold matchResAndSDKListeners sdkPorts
  apply map_filterMap_of_key
  intro port hport
  rw [GoSet.mem_SortedList, GoSet.mem_Difference] at hport
  exact exists_get?_mapSDKListenerByPort sdkLSs port hport.1

theorem nodup_KeySet {V : Type} (m : GoMap Int V) : (GoSet.KeySet m).elems.Nodup :=
  GoMap.nodup_keys m

/-- A matched pair joins a desired and an actual listener of the same port. -/
theorem mem_matched (resLSs : List Listener) (sdkLSs : List elbv2sdk.Listener)
    (pair : resAndSDKListenerPair) (h : pair ∈ (matchResAndSDKListeners resLSs sdkLSs).1) :
    pair.resLS ∈ resLSs ∧ pair.sdkLS ∈ sdkLSs ∧
      pair.resLS.Spec.Port = Int64Value pair.sdkLS.Port := by
  unfold matchResAndSDKListeners at h
  simp only [List.mem_filterMap] at h
  obtain ⟨port, _, hp⟩ := h
  cases hr : (mapResListenerByPort resLSs).get? port with
  | none => simp [hr] at hp
  | some r =>
    cases hs : (mapSDKListenerByPort sdkLSs).get? port with
    | none => simp [hr, hs] at hp
    | some s =>
      simp [hr, hs] at hp
      subst hp
      have h1 := get?_mapResListenerByPort resLSs port r hr
      have h2 := get?_mapSDKListenerByPort sdkLSs port s hs
      exact ⟨h1.1, h2.1, by rw [h1.2, h2.2]⟩

theorem mem_unmatchedRes (resLSs : List Listener) (sdkLSs : List elbv2sdk.Listener)
    (ls : Listener) (h : ls ∈ (matchResAndSDKListeners resLSs sdkLSs).2.1) :
    ls ∈ resLSs ∧ ls.Spec.Port ∉ sdkPorts sdkLSs := by
  unfold matchResAndSDKListeners at h
  simp only [List.mem_filterMap] at h
  obtain ⟨port, hport, hp⟩ := h
  rw [GoSet.mem_SortedList, GoSet.mem_Difference, mem_keys_mapSDKListenerByPort] at hport
  have h1 := get?_mapResListenerByPort resLSs port ls hp
  exact ⟨h1.1, by rw [h1.2]; exact hport.2⟩

theorem mem_unmatchedSDK (resLSs : List Listener) (sdkLSs : List elbv2sdk.Listener)
    (ls : elbv2sdk.Listener) (h : ls ∈ (matchResAndSDKListeners resLSs sdkLSs).2.2) :
    ls ∈ sdkLSs ∧ Int64Value ls.Port ∉ resPorts resLSs := by
  unfold matchResAndSDKListeners at h
  simp only [List.mem_filterMap] at h
  obtain ⟨port, hport, hp⟩ := h
  rw [GoSet.mem_SortedList, GoSet.mem_Difference, mem_keys_mapResListenerByPort] at hport
  have h1 := get?_mapSDKListenerByPort sdkLSs port ls hp
  exact ⟨h1.1, by rw [h1.2]; exact hport.2⟩

end deploy

namespace deploy

theorem length_matched (resLSs : List Listener) (sdkLSs : List elbv2sdk.Listener) :
    (matchResAndSDKListeners resLSs sdkLSs).1.length =
      ((GoSet.KeySet (mapResListenerByPort resLSs)).Intersection
        (GoSet.KeySet (mapSDKListenerByPort sdkLSs))).elems.length := by
  rw [← GoSet.length_SortedList, ← pairPorts_matched, pairPorts, List.length_map]

theorem length_unmatchedRes (resLSs : List Listener) (sdkLSs : List elbv2sdk.Listener) :
    (matchResAndSDKListeners resLSs sdkLSs).2.1.length =
      ((GoSet.KeySet (mapResListenerByPort resLSs)).Difference
        (GoSet.KeySet (mapSDKListenerByPort sdkLSs))).elems.length := by
  rw [← GoSet.length_SortedList, ← resPorts_unmatched, resPorts, List.length_map]

theorem length_unmatchedSDK (resLSs : List Listener) (sdkLSs : List elbv2sdk.Listener) :
    (matchResAndSDKListeners resLSs sdkLSs).2.2.length =
      ((GoSet.KeySet (mapSDKListenerByPort sdkLSs)).Difference
        (GoSet.KeySet (mapResListenerByPort resLSs))).elems.length := by
  rw [← GoSet.length_SortedList, ← sdkPorts_unmatched, sdkPorts, List.length_map]

/-- Claim C3. For desired and actual listener lists whose ports are pairwise
distinct within each list, `matchResAndSDKListeners` returns outputs with
`|pairs| + |desiredOnly| = |desired|` and `|pairs| + |actualOnly| = |actual|`. -/
theorem matchResAndSDKListeners_lengths (resLSs : List Listener)
    (sdkLSs : List elbv2sdk.Listener)
    (hres : (resPorts resLSs).Nodup) (hsdk : (sdkPorts sdkLSs).Nodup) :
    (matchResAndSDKListeners resLSs sdkLSs).1.length +
        (matchResAndSDKListeners resLSs sdkLSs).2.1.length = resLSs.length ∧
    (matchResAndSDKListeners resLSs sdkLSs).1.length +
        (matchResAndSDKListeners resLSs sdkLSs).2.2.length = sdkLSs.length := by
  have hR : (GoSet.KeySet (mapResListenerByPort resLSs)).elems.length = resLSs.length := by
    unfold GoSet.KeySet mapResListenerByPort
    rw [GoMap.keys_index_of_nodup (fun ls : Listener => ls.Spec.Port) resLSs hres]
    simp
  have hS : (GoSet.KeySet (mapSDKListenerByPort sdkLSs)).elems.length = sdkLSs.length := by
    unfold GoSet.KeySet mapSDKListenerByPort
    rw [GoMap.keys_index_of_nodup (fun ls : elbv2sdk.Listener => Int64Value ls.Port) sdkLSs hsdk]
    simp
  constructor
  · rw [length_matched, length_unmatchedRes, GoSet.length_Intersection_add_Difference, hR]
  · rw [length_matched, length_unmatchedSDK,
      GoSet.length_Intersection_comm _ _ (nodup_KeySet _) (nodup_KeySet _),
      GoSet.length_Intersection_add_Difference, hS]

/-- Witness of C3: desired ports 443 and 8443 against actual ports 80 and 443. -/
theorem matchResAndSDKListeners_lengths_witness :
    (matchResAndSDKListeners [exRes 443, exRes 8443] [exSDK 80, exSDK 443]).1.length +
        (matchResAndSDKListeners [exRes 443, exRes 8443] [exSDK 80, exSDK 443]).2.1.length
        = [exRes 443, exRes 8443].length ∧
    (matchResAndSDKListeners [exRes 443, exRes 8443] [exSDK 80, exSDK 443]).1.length +
        (matchResAndSDKListeners [exRes 443, exRes 8443] [exSDK 80, exSDK 443]).2.2.length
        = [exSDK 80, exSDK 443].length :=
  matchResAndSDKListeners_lengths [exRes 443, exRes 8443] [exSDK 80, exSDK 443]
    (by decide) (by decide)

/-- Claim C4. For every desired and actual listener list the outputs of
`matchResAndSDKListeners` partition the ports of both lists: a port is the port
of a pair iff it is a port of both inputs, and both members of a pair carry the
same port; it is the port of an unmatched desired listener iff it is a port of
the desired but not of the actual list; it is the port of an unmatched actual
listener iff it is a port of the actual but not of the desired list; no port
occurs twice in one output, and no port occurs in two outputs. Every member of
an output is a listener of the input it stands for. -/
theorem matchResAndSDKListeners_partitions_ports (resLSs : List Listener)
    (sdkLSs : List elbv2sdk.Listener) :
    (∀ port, port ∈ pairPorts (matchResAndSDKListeners resLSs sdkLSs).1 ↔
      (port ∈ resPorts resLSs ∧ port ∈ sdkPorts sdkLSs)) ∧
    (∀ pair ∈ (matchResAndSDKListeners resLSs sdkLSs).1,
      pair.resLS ∈ resLSs ∧ pair.sdkLS ∈ sdkLSs ∧
        pair.resLS.Spec.Port = Int64Value pair.sdkLS.Port) ∧
    (∀ port, port ∈ resPorts (matchResAndSDKListeners resLSs sdkLSs).2.1 ↔
      (port ∈ resPorts resLSs ∧ port ∉ sdkPorts sdkLSs)) ∧
    (∀ ls ∈ (matchResAndSDKListeners resLSs sdkLSs).2.1, ls ∈ resLSs) ∧
    (∀ port, port ∈ sdkPorts (matchResAndSDKListeners resLSs sdkLSs).2.2 ↔
      (port ∈ sdkPorts sdkLSs ∧ port ∉ resPorts resLSs)) ∧
    (∀ ls ∈ (matchResAndSDKListeners resLSs sdkLSs).2.2, ls ∈ sdkLSs) ∧
    (pairPorts (matchResAndSDKListeners resLSs sdkLSs).1).Nodup ∧
    (resPorts (matchResAndSDKListeners resLSs sdkLSs).2.1).Nodup ∧
    (sdkPorts (matchResAndSDKListeners resLSs sdkLSs).2.2).Nodup ∧
    (∀ port, ¬ (port ∈ pairPorts (matchResAndSDKListeners resLSs sdkLSs).1 ∧
      port ∈ resPorts (matchResAndSDKListeners resLSs sdkLSs).2.1)) ∧
    (∀ port, ¬ (port ∈ pairPorts (matchResAndSDKListeners resLSs sdkLSs).1 ∧
      port ∈ sdkPorts (matchResAndSDKListeners resLSs sdkLSs).2.2)) ∧
    (∀ port, ¬ (port ∈ resPorts (matchResAndSDKListeners resLSs sdkLSs).2.1 ∧
      port ∈ sdkPorts (matchResAndSDKListeners resLSs sdkLSs).2.2)) := by
  have h1 : ∀ port, port ∈ pairPorts (matchResAndSDKListeners resLSs sdkLSs).1 ↔
      (port ∈ resPorts resLSs ∧ port ∈ sdkPorts sdkLSs) := by
    intro port
    rw [pairPorts_matched, GoSet.mem_SortedList, GoSet.mem_Intersection,
      mem_keys_mapResListenerByPort, mem_keys_mapSDKListenerByPort]
  have h2 : ∀ port, port ∈ resPorts (matchResAndSDKListeners resLSs sdkLSs).2.1 ↔
      (port ∈ resPorts resLSs ∧ port ∉ sdkPorts sdkLSs) := by
    intro port
    rw [resPorts_unmatched, GoSet.mem_SortedList, GoSet.mem_Difference,
      mem_keys_mapResListenerByPort, mem_keys_mapSDKListenerByPort]
  have h3 : ∀ port, port ∈ sdkPorts (matchResAndSDKListeners resLSs sdkLSs).2.2 ↔
      (port ∈ sdkPorts sdkLSs ∧ port ∉ resPorts resLSs) := by
    intro port
    rw [sdkPorts_unmatched, GoSet.mem_SortedList, GoSet.mem_Difference,
      mem_keys_mapResListenerByPort, mem_keys_mapSDKListenerByPort]
  refine ⟨h1, mem_matched resLSs sdkLSs, h2,
    fun ls h => (mem_unmatchedRes resLSs sdkLSs ls h).1, h3,
    fun ls h => (mem_unmatchedSDK resLSs sdkLSs ls h).1, ?_, ?_, ?_, ?_, ?_, ?_⟩
  · rw [pairPorts_matched]
    exact GoSet.nodup_SortedList _ (GoSet.nodup_Intersection _ _ (nodup_KeySet _))
  · rw [resPorts_unmatched]
    exact GoSet.nodup_SortedList _ (GoSet.nodup_Difference _ _ (nodup_KeySet _))
  · rw [sdkPorts_unmatched]
    exact GoSet.nodup_SortedList _ (GoSet.nodup_Difference _ _ (nodup_KeySet _))
  · intro port h
    exact ((h2 port).mp h.2).2 ((h1 port).mp h.1).2
  · intro port h
    exact ((h3 port).mp h.2).2 ((h1 port).mp h.1).1
  · intro port h
    exact ((h2 port).mp h.1).2 ((h3 port).mp h.2).1

end deploy

namespace deploy

theorem mem_unmatchedRes_of_nodup (resLSs : List Listener) (sdkLSs : List elbv2sdk.Listener)
    (hres : (resPorts resLSs).Nodup) (ls : Listener) (h : ls ∈ resLSs)
    (hp : ls.Spec.Port ∉ sdkPorts sdkLSs) :
    ls ∈ (matchResAndSDKListeners resLSs sdkLSs).2.1 := by
  unfold matchResAndSDKListeners
  simp only [List.mem_filterMap]
  refine ⟨ls.Spec.Port, ?_, GoMap.get?_index_of_nodup (fun ls : Listener => ls.Spec.Port)
    resLSs hres ls h⟩
  rw [GoSet.mem_SortedList, GoSet.mem_Difference, mem_keys_mapResListenerByPort,
    mem_keys_mapSDKListenerByPort]
  exact ⟨List.mem_map.mpr ⟨ls, h, rfl⟩, hp⟩

theorem mem_unmatchedSDK_of_nodup (resLSs : List Listener) (sdkLSs : List elbv2sdk.Listener)
    (hsdk : (sdkPorts sdkLSs).Nodup) (ls : elbv2sdk.Listener) (h : ls ∈ sdkLSs)
    (hp : Int64Value ls.Port ∉ resPorts resLSs) :
    ls ∈ (matchResAndSDKListeners resLSs sdkLSs).2.2 := by
  unfold matchResAndSDKListeners
  simp only [List.mem_filterMap]
  refine ⟨Int64Value ls.Port, ?_, GoMap.get?_index_of_nodup
    (fun ls : elbv2sdk.Listener => Int64Value ls.Port) sdkLSs hsdk ls h⟩
  rw [GoSet.mem_SortedList, GoSet.mem_Difference, mem_keys_mapResListenerByPort,
    mem_keys_mapSDKListenerByPort]
  exact ⟨List.mem_map.mpr ⟨ls, h, rfl⟩, hp⟩

theorem mem_matched_of_nodup (resLSs : List Listener) (sdkLSs : List elbv2sdk.Listener)
    (hres : (resPorts resLSs).Nodup) (hsdk : (sdkPorts sdkLSs).Nodup)
    (pair : resAndSDKListenerPair) (hr : pair.resLS ∈ resLSs) (hs : pair.sdkLS ∈ sdkLSs)
    (hp : pair.resLS.Spec.Port = Int64Value pair.sdkLS.Port) :
    pair ∈ (matchResAndSDKListeners resLSs sdkLSs).1 := by
  unfold matchResAndSDKListeners
  simp only [List.mem_filterMap]
  refine ⟨pair.resLS.Spec.Port, ?_, ?_⟩
  · rw [GoSet.mem_SortedList, GoSet.mem_Intersection, mem_keys_mapResListenerByPort,
      mem_keys_mapSDKListenerByPort]
    exact ⟨List.mem_map.mpr ⟨pair.resLS, hr, rfl⟩, List.mem_map.mpr ⟨pair.sdkLS, hs, hp.symm⟩⟩
  · have h1 : (mapResListenerByPort resLSs).get? pair.resLS.Spec.Port = some pair.resLS :=
      GoMap.get?_index_of_nodup (fun ls : Listener => ls.Spec.Port) resLSs hres _ hr
    have h2 : (mapSDKListenerByPort sdkLSs).get? pair.resLS.Spec.Port = some pair.sdkLS := by
      rw [hp]
      exact GoMap.get?_index_of_nodup (fun ls : elbv2sdk.Listener => Int64Value ls.Port)
        sdkLSs hsdk _ hs
    rw [h1, h2]

theorem deleteStep_managerCalls {σ : Type} (lsManager : ListenerManager σ)
    (sdkLS : elbv2sdk.Listener) (s : σ) :
    (synthesizeListenersOnLB.deleteStep lsManager sdkLS s).calls.filter Event.isManagerCall
      = [Event.Delete sdkLS] := by
  unfold synthesizeListenersOnLB.deleteStep
  split <;> rfl

theorem createStep_managerCalls {σ : Type} (lsManager : ListenerManager σ)
    (resLS : Listener) (s : σ) :
    (synthesizeListenersOnLB.createStep lsManager resLS s).calls.filter Event.isManagerCall
      = [Event.Create resLS] := by
  unfold synthesizeListenersOnLB.createStep
  split <;> rfl

theorem updateStep_managerCalls {σ : Type} (lsManager : ListenerManager σ)
    (pair : resAndSDKListenerPair) (s : σ) :
    (synthesizeListenersOnLB.updateStep lsManager pair s).calls.filter Event.isManagerCall
      = [Event.Update pair.resLS pair.sdkLS] := by
  unfold synthesizeListenersOnLB.updateStep
  split <;> rfl

/-- The manager calls of a run of `synthesizeListenersOnLB` that ends without
error: the deletes of the unmatched actual listeners, then the creates of the
unmatched desired listeners, then the updates of the matched pairs. -/
theorem synthesizeListenersOnLB_managerCalls {σ : Type} (elbv2Client : ELBV2 σ)
    (lsManager : ListenerManager σ) (lbARN : String) (resLSs : List Listener) (s s' : σ)
    (sdkLSs : List elbv2sdk.Listener)
    (hdesc : findSDKListenersOnLB elbv2Client lbARN s = (.ok sdkLSs, s'))
    (hok : (synthesizeListenersOnLB elbv2Client lsManager lbARN resLSs s).err = none) :
    managerCalls (synthesizeListenersOnLB elbv2Client lsManager lbARN resLSs s).calls =
      (matchResAndSDKListeners resLSs sdkLSs).2.2.map Event.Delete ++
      (matchResAndSDKListeners resLSs sdkLSs).2.1.map Event.Create ++
      (matchResAndSDKListeners resLSs sdkLSs).1.map
        (fun pair => Event.Update pair.resLS pair.sdkLS) := by
  simp only [synthesizeListenersOnLB, hdesc] at hok ⊢
  rw [Ran.andThen_err_none] at hok
  obtain ⟨h1, h23⟩ := hok
  rw [Ran.andThen_err_none] at h23
  obtain ⟨h2, h3⟩ := h23
  unfold managerCalls
  rw [List.filter_cons_of_neg (by simp [Event.isManagerCall]),
    Ran.andThen_calls_of_ok _ _ h1, Ran.andThen_calls_of_ok _ _ h2,
    List.filter_append, List.filter_append,
    forEach_filter_calls_of_ok _ Event.isManagerCall Event.Delete
      (deleteStep_managerCalls lsManager) _ _ h1,
    forEach_filter_calls_of_ok _ Event.isManagerCall Event.Create
      (createStep_managerCalls lsManager) _ _ h2,
    forEach_filter_calls_of_ok _ Event.isManagerCall
      (fun pair : resAndSDKListenerPair => Event.Update pair.resLS pair.sdkLS)
      (updateStep_managerCalls lsManager) _ _ h3, List.append_assoc]

end deploy

namespace GoMap
variable {K α : Type} [DecidableEq K]

theorem get?_index_iff_of_nodup (fk : α → K) (l : List α) (hn : (l.map fk).Nodup) (k : K)
    (a : α) : (l.foldl (fun m a => m.set (fk a) a) GoMap.empty).get? k = some a ↔
      (a ∈ l ∧ fk a = k) := by
  constructor
  · exact get?_index_some fk l k a
  · rintro ⟨ha, rfl⟩
    exact get?_index_of_nodup fk l hn a ha

theorem filterMap_get?_map (m : GoMap K α) (fk : α → K) (l : List α)
    (h : ∀ a ∈ l, m.get? (fk a) = some a) :
    (l.map fk).filterMap (fun k => (m.get? k).map (fun v => (k, v))) =
      l.map (fun a => (fk a, a)) := by
  induction l with
  | nil => rfl
  | cons a l ih =>
    rw [List.map_cons, List.filterMap_cons_some (by rw [h a (List.mem_cons_self _ _)]; rfl),
      ih (fun b hb => h b (List.mem_cons_of_mem _ hb))]
    rfl

/-- The entries of a map filled by `m[key(a)] = a` over a list with pairwise
distinct keys are the items of the list. -/
theorem entries_index_of_nodup (fk : α → K) (l : List α) (hn : (l.map fk).Nodup) :
    (l.foldl (fun m a => m.set (fk a) a) GoMap.empty).entries =
      l.reverse.map (fun a => (fk a, a)) := by
  unfold entries
  rw [keys_index_of_nodup fk l hn, ← List.map_reverse]
  apply filterMap_get?_map
  intro a ha
  exact get?_index_of_nodup fk l hn a (List.mem_reverse.mp ha)

end GoMap

namespace GoMap
variable {K α : Type} [DecidableEq K]

/-- Reading keys of a map filled by `m[key(a)] = a` gives items with those keys. -/
theorem map_filterMap_get?_index (fk : α → K) (l : List α) (ks : List K)
    (h : ∀ k ∈ ks, k ∈ (l.foldl (fun m a => m.set (fk a) a) GoMap.empty).keys) :
    (ks.filterMap (fun k => (l.foldl (fun m a => m.set (fk a) a) GoMap.empty).get? k)).map fk
      = ks := by
  apply map_filterMap_of_key
  intro k hk
  have hne := (mem_keys_iff_get? _ k).mp (h k hk)
  cases hg : (l.foldl (fun m a => m.set (fk a) a) GoMap.empty).get? k with
  | none => exact absurd hg hne
  | some v => exact ⟨v, rfl, (get?_index_some fk l k v hg).2⟩

end GoMap

namespace ls

theorem deleteStep_calls {σ : Type} (cloud : CloudAPI σ) (inst : elbv2sdk.Listener) (s : σ) :
    (defaultGroupController.deleteStep cloud inst s).calls =
      [Call.DeleteListenersByArn (StringValue inst.ListenerArn)] := by
  unfold defaultGroupController.deleteStep
  split <;> rfl

theorem reconcileStep_calls {σ : Type} (lsController : Controller σ) (lbArn : String)
    (service : k8s.Service) (serviceAnnos : ServiceAnnos) (tgGroup : TargetGroupGroup)
    (instancesByPort : GoMap Int elbv2sdk.Listener) (port : PortData) (s : σ) :
    (defaultGroupController.reconcileStep lsController lbArn service serviceAnnos tgGroup
      instancesByPort port s).calls =
      [Call.ControllerReconcile (defaultGroupController.optionsFor lbArn service serviceAnnos
        tgGroup instancesByPort port)] := by
  unfold defaultGroupController.reconcileStep
  split <;> rfl

theorem mem_portsInUse (ports : List PortData) (x : Int) :
    x ∈ (ports.foldl (fun set port => set.Insert port.Port) GoSet.empty).elems ↔
      x ∈ desiredPorts ports := by
  rw [GoSet.mem_foldl_Insert (fun port : PortData => port.Port)]
  simp [GoSet.empty, desiredPorts]

/-- The listeners the group `Reconcile` deletes: those whose port is not desired. -/
theorem mem_unusedInstances (oDel : RangeOrder) (instances : List elbv2sdk.Listener)
    (ports : List PortData) (hnodup : (instancePorts instances).Nodup)
    (inst : elbv2sdk.Listener) :
    inst ∈ (oDel.apply ((GoSet.KeySet (instances.foldl
        (fun m inst => m.set (Int64Value inst.Port) inst) GoMap.empty)).Difference
        (ports.foldl (fun set port => set.Insert port.Port) GoSet.empty)).elems).filterMap
        (fun port => (instances.foldl (fun m inst => m.set (Int64Value inst.Port) inst)
          GoMap.empty).get? port) ↔
      (inst ∈ instances ∧ Int64Value inst.Port ∉ desiredPorts ports) := by
  rw [List.mem_filterMap]
  constructor
  · rintro ⟨port, hport, hget⟩
    rw [(oDel.perm _).mem_iff, GoSet.mem_Difference, mem_portsInUse] at hport
    have h := GoMap.get?_index_some (fun inst : elbv2sdk.Listener => Int64Value inst.Port)
      instances port inst hget
    have h2 : Int64Value inst.Port = port := h.2
    exact ⟨h.1, by rw [h2]; exact hport.2⟩
  · rintro ⟨hin, hport⟩
    refine ⟨Int64Value inst.Port, ?_, GoMap.get?_index_of_nodup
      (fun inst : elbv2sdk.Listener => Int64Value inst.Port) instances hnodup inst hin⟩
    rw [(oDel.perm _).mem_iff, GoSet.mem_Difference, mem_portsInUse]
    refine ⟨?_, hport⟩
    exact (GoMap.mem_keys_index (fun inst : elbv2sdk.Listener => Int64Value inst.Port)
      instances _).mpr (List.mem_map.mpr ⟨inst, hin, rfl⟩)

theorem nodup_unusedInstances (oDel : RangeOrder) (instances : List elbv2sdk.Listener)
    (ports : List PortData) :
    ((oDel.apply ((GoSet.KeySet (instances.foldl
        (fun m inst => m.set (Int64Value inst.Port) inst) GoMap.empty)).Difference
        (ports.foldl (fun set port => set.Insert port.Port) GoSet.empty)).elems).filterMap
        (fun port => (instances.foldl (fun m inst => m.set (Int64Value inst.Port) inst)
          GoMap.empty).get? port)).Nodup := by
  apply List.Nodup.of_map (fun inst : elbv2sdk.Listener => Int64Value inst.Port)
  rw [GoMap.map_filterMap_get?_index (fun inst : elbv2sdk.Listener => Int64Value inst.Port)]
  · exact (oDel.perm _).nodup_iff.mpr (GoSet.nodup_Difference _ _ (GoMap.nodup_keys _))
  · intro k hk
    rw [(oDel.perm _).mem_iff, GoSet.mem_Difference] at hk
    exact hk.1

/-- Counterexample to C6 as stated. (1) Existing listeners at 80 and 81, desired
port 443, the listing and the per-port reconcile succeed, the delete calls fail:
the run stops at the first delete, whichever listener the loop visits first, and
never issues the delete of the other listener, whose port is not desired either.
(2) Two existing listeners at port 80, desired port 443, every call succeeds:
only the one listed last is deleted. -/
theorem groupReconcile_deletes_not_all_unused_counterexample :
    ((defaultGroupController.Reconcile (exStore [⟨443, "TCP"⟩])
        (exCloud ["arn:ls/80", "arn:ls/81"]) exController RangeOrder.stored "arn:lb/1"
        exService exTGGroup ⟨[exListener "arn:ls/80" 80, exListener "arn:ls/81" 81], []⟩).calls =
      [Call.ListListenersByLoadBalancer "arn:lb/1",
        Call.ControllerReconcile
          { LBArn := "arn:lb/1", Service := exService,
            ServiceAnnos := { LoadBalancer := { Ports := [⟨443, "TCP"⟩] } },
            Port := ⟨443, "TCP"⟩, TGGroup := exTGGroup, Instance := none },
        Call.DeleteListenersByArn "arn:ls/81"]) ∧
    ((defaultGroupController.Reconcile (exStore [⟨443, "TCP"⟩])
        (exCloud ["arn:ls/80", "arn:ls/81"]) exController RangeOrder.reversed "arn:lb/1"
        exService exTGGroup ⟨[exListener "arn:ls/80" 80, exListener "arn:ls/81" 81], []⟩).calls =
      [Call.ListListenersByLoadBalancer "arn:lb/1",
        Call.ControllerReconcile
          { LBArn := "arn:lb/1", Service := exService,
            ServiceAnnos := { LoadBalancer := { Ports := [⟨443, "TCP"⟩] } },
            Port := ⟨443, "TCP"⟩, TGGroup := exTGGroup, Instance := none },
        Call.DeleteListenersByArn "arn:ls/80"]) ∧
    ((defaultGroupController.Reconcile (exStore [⟨443, "TCP"⟩]) (exCloud []) exController
        RangeOrder.stored "arn:lb/1" exService exTGGroup
        ⟨[exListener "arn:ls/a" 80, exListener "arn:ls/b" 80], []⟩).err = none ∧
      (defaultGroupController.Reconcile (exStore [⟨443, "TCP"⟩]) (exCloud []) exController
        RangeOrder.stored "arn:lb/1" exService exTGGroup
        ⟨[exListener "arn:ls/a" 80, exListener "arn:ls/b" 80], []⟩).calls =
      [Call.ListListenersByLoadBalancer "arn:lb/1",
        Call.ControllerReconcile
          { LBArn := "arn:lb/1", Service := exService,
            ServiceAnnos := { LoadBalancer := { Ports := [⟨443, "TCP"⟩] } },
            Port := ⟨443, "TCP"⟩, TGGroup := exTGGroup, Instance := none },
        Call.DeleteListenersByArn "arn:ls/b"]) := by
  decide

theorem groupDelete_calls {σ : Type} (cloud : CloudAPI σ) (o : RangeOrder) (lbArn : String)
    (s s' : σ) (instances : List elbv2sdk.Listener)
    (hlist : cloud.ListListenersByLoadBalancer lbArn s = (.ok instances, s'))
    (hok : (defaultGroupController.Delete cloud o lbArn s).err = none) :
    (defaultGroupController.Delete cloud o lbArn s).calls =
      Call.ListListenersByLoadBalancer lbArn ::
        ((o.apply (instances.foldl (fun m inst => m.set (Int64Value inst.Port) inst)
          GoMap.empty).entries).map (fun e => e.2)).map
          (fun inst => Call.DeleteListenersByArn (StringValue inst.ListenerArn)) := by
  simp only [defaultGroupController.Delete, loadListenerInstances, hlist] at hok ⊢
  rw [forEach_calls_of_ok _ _ (deleteStep_calls cloud) _ _ hok]

/-- Claim C7, amended. For every list of listeners with pairwise distinct ports
that `ListListenersByLoadBalancer` returns for the load balancer, a run of the
listener group `Delete` in which every delete call succeeds (it ends without
error) issues a `DeleteListenersByArn` call for the ARN of every listener of the
list: after the listing, one call per listener and no other call. -/
theorem groupDelete_deletes_every_listener {σ : Type} (cloud : CloudAPI σ) (o : RangeOrder)
    (lbArn : String) (s s' : σ) (instances : List elbv2sdk.Listener)
    (hlist : cloud.ListListenersByLoadBalancer lbArn s = (.ok instances, s'))
    (hnodup : (instancePorts instances).Nodup)
    (hok : (defaultGroupController.Delete cloud o lbArn s).err = none) :
    (∀ inst ∈ instances, Call.DeleteListenersByArn (StringValue inst.ListenerArn) ∈
      (defaultGroupController.Delete cloud o lbArn s).calls) ∧
    ∃ D : List elbv2sdk.Listener, D.Perm instances ∧
      (defaultGroupController.Delete cloud o lbArn s).calls =
        Call.ListListenersByLoadBalancer lbArn ::
          D.map (fun inst => Call.DeleteListenersByArn (StringValue inst.ListenerArn)) := by
  have hcalls := groupDelete_calls cloud o lbArn s s' instances hlist hok
  have hperm : ((o.apply (instances.foldl (fun m inst => m.set (Int64Value inst.Port) inst)
      GoMap.empty).entries).map (fun e => e.2)).Perm instances := by
    have h1 := (o.perm (instances.foldl (fun m inst => m.set (Int64Value inst.Port) inst)
      GoMap.empty).entries).map (fun e => e.2)
    have h2 : (instances.foldl (fun m inst => m.set (Int64Value inst.Port) inst)
        GoMap.empty).entries.map (fun e => e.2) = instances.reverse := by
      rw [GoMap.entries_index_of_nodup (fun inst : elbv2sdk.Listener => Int64Value inst.Port)
        instances hnodup, List.map_map]
      show List.map (fun a => a) instances.reverse = instances.reverse
      exact List.map_id' _
    rw [h2] at h1
    exact h1.trans (List.reverse_perm instances)
  constructor
  · intro inst hinst
    rw [hcalls]
    apply List.mem_cons_of_mem
    exact List.mem_map.mpr ⟨inst, hperm.mem_iff.mpr hinst, rfl⟩
  · exact ⟨_, hperm, hcalls⟩

/-- Witness of C7: listeners at 80 and 443, every delete succeeds. -/
theorem groupDelete_deletes_every_listener_witness :
    ∃ D : List elbv2sdk.Listener,
      D.Perm [exListener "arn:ls/80" 80, exListener "arn:ls/443" 443] ∧
      (defaultGroupController.Delete (exCloud []) RangeOrder.stored "arn:lb/1"
        ⟨[exListener "arn:ls/80" 80, exListener "arn:ls/443" 443], []⟩).calls =
        Call.ListListenersByLoadBalancer "arn:lb/1" ::
          D.map (fun inst => Call.DeleteListenersByArn (StringValue inst.ListenerArn)) :=
  (groupDelete_deletes_every_listener (exCloud []) RangeOrder.stored "arn:lb/1"
    ⟨[exListener "arn:ls/80" 80, exListener "arn:ls/443" 443], []⟩
    ⟨[exListener "arn:ls/80" 80, exListener "arn:ls/443" 443], []⟩
    [exListener "arn:ls/80" 80, exListener "arn:ls/443" 443] rfl (by decide) (by decide)).2

/-- Counterexample to C7 as stated: the listing returns two listeners with the
same port 80 and every delete call succeeds; the run ends without error, deletes
`arn:ls/b` and issues no delete call for `arn:ls/a`. -/
theorem groupDelete_skips_listener_counterexample :
    (exCloud []).ListListenersByLoadBalancer "arn:lb/1"
        ⟨[exListener "arn:ls/a" 80, exListener "arn:ls/b" 80], []⟩ =
      (.ok [exListener "arn:ls/a" 80, exListener "arn:ls/b" 80],
        ⟨[exListener "arn:ls/a" 80, exListener "arn:ls/b" 80], []⟩) ∧
    (defaultGroupController.Delete (exCloud []) RangeOrder.stored "arn:lb/1"
      ⟨[exListener "arn:ls/a" 80, exListener "arn:ls/b" 80], []⟩).err = none ∧
    (defaultGroupController.Delete (exCloud []) RangeOrder.stored "arn:lb/1"
      ⟨[exListener "arn:ls/a" 80, exListener "arn:ls/b" 80], []⟩).calls =
      [Call.ListListenersByLoadBalancer "arn:lb/1", Call.DeleteListenersByArn "arn:ls/b"] ∧
    Call.DeleteListenersByArn "arn:ls/a" ∉
      (defaultGroupController.Delete (exCloud []) RangeOrder.stored "arn:lb/1"
        ⟨[exListener "arn:ls/a" 80, exListener "arn:ls/b" 80], []⟩).calls := by
  refine ⟨rfl, by decide, by decide, by decide⟩

theorem mem_actualExtra_foldl (certificates : List elbv2sdk.Certificate) :
    ∀ (s0 : GoSet String) (arn : String),
      arn ∈ (certificates.foldl
        (fun set certificate =>
          if !BoolValue certificate.IsDefault then
            set.Insert (StringValue certificate.CertificateArn)
          else set) s0).elems ↔ (arn ∈ s0.elems ∨ arn ∈ actualNonDefault certificates) := by
  induction certificates with
  | nil => intro s0 arn; simp [actualNonDefault]
  | cons c cs ih =>
    intro s0 arn
    rw [List.foldl_cons, ih]
    unfold actualNonDefault
    cases hd : BoolValue c.IsDefault with
    | true => simp [hd]
    | false =>
      simp only [hd, Bool.not_false, if_true, GoSet.mem_Insert, List.filter_cons_of_pos,
        List.map_cons, List.mem_cons]
      constructor
      · rintro ((h | h) | h)
        · exact Or.inl h
        · exact Or.inr (Or.inl h)
        · exact Or.inr (Or.inr h)
      · rintro (h | h | h)
        · exact Or.inl (Or.inl h)
        · exact Or.inl (Or.inr h)
        · exact Or.inr h

theorem nodup_actualExtra_foldl (certificates : List elbv2sdk.Certificate) :
    ∀ (s0 : GoSet String), s0.elems.Nodup →
      (certificates.foldl
        (fun set certificate =>
          if !BoolValue certificate.IsDefault then
            set.Insert (StringValue certificate.CertificateArn)
          else set) s0).elems.Nodup := by
  induction certificates with
  | nil => intro s0 h; exact h
  | cons c cs ih =>
    intro s0 h
    rw [List.foldl_cons]
    apply ih
    split
    · exact GoSet.nodup_Insert _ _ h
    · exact h

theorem mem_actualExtra (certificates : List elbv2sdk.Certificate) (arn : String) :
    arn ∈ (reconcileExtraCertificates.actualExtra certificates).elems ↔
      arn ∈ actualNonDefault certificates := by
  unfold reconcileExtraCertificates.actualExtra
  rw [mem_actualExtra_foldl]
  simp [GoSet.empty]

theorem nodup_actualExtra (certificates : List elbv2sdk.Certificate) :
    (reconcileExtraCertificates.actualExtra certificates).elems.Nodup :=
  nodup_actualExtra_foldl certificates GoSet.empty List.nodup_nil

theorem addStep_calls {σ : Type} (cloud : CloudAPI σ) (lsArn certARN : String) (s : σ) :
    (reconcileExtraCertificates.addStep cloud lsArn certARN s).calls =
      [Call.AddListenerCertificates (reconcileExtraCertificates.input lsArn certARN)] := by
  unfold reconcileExtraCertificates.addStep
  split <;> rfl

theorem removeStep_calls {σ : Type} (cloud : CloudAPI σ) (lsArn certARN : String) (s : σ) :
    (reconcileExtraCertificates.removeStep cloud lsArn certARN s).calls =
      [Call.RemoveListenerCertificates (reconcileExtraCertificates.input lsArn certARN)] := by
  unfold reconcileExtraCertificates.removeStep
  split <;> rfl

/-- The calls of a run of `reconcileExtraCertificates` that ends without error. -/
theorem reconcileExtraCertificates_calls {σ : Type} (cloud : CloudAPI σ)
    (oAdd oRemove : RangeOrder) (lsArn : String) (extraCertificateARNs : List String)
    (s s' : σ) (certificates : List elbv2sdk.Certificate)
    (hdesc : cloud.DescribeListenerCertificates lsArn s = (.ok certificates, s'))
    (hok : (reconcileExtraCertificates cloud oAdd oRemove lsArn extraCertificateARNs s).err
      = none) :
    (reconcileExtraCertificates cloud oAdd oRemove lsArn extraCertificateARNs s).calls =
      Call.DescribeListenerCertificates lsArn ::
        ((oAdd.apply ((GoSet.New extraCertificateARNs).Difference
            (reconcileExtraCertificates.actualExtra certificates)).elems).map
            (fun certARN => Call.AddListenerCertificates
              (reconcileExtraCertificates.input lsArn certARN)) ++
          (oRemove.apply ((reconcileExtraCertificates.actualExtra certificates).Difference
            (GoSet.New extraCertificateARNs)).elems).map
            (fun certARN => Call.RemoveListenerCertificates
              (reconcileExtraCertificates.input lsArn certARN))) := by
  simp only [reconcileExtraCertificates, hdesc] at hok ⊢
  rw [Ran.andThen_err_none] at hok
  rw [Ran.andThen_calls_of_ok _ _ hok.1,
    forEach_calls_of_ok _ _ (addStep_calls cloud lsArn) _ _ hok.1,
    forEach_calls_of_ok _ _ (removeStep_calls cloud lsArn) _ _ hok.2]

/-- Claim C8. For every desired extra-certificate list and every listing of the
certificates attached to the listener, a run of `reconcileExtraCertificates` that
ends without error (every call succeeded) issues, after the describe call, one
attach call per ARN that is desired and not an attached non-default certificate,
then one detach call per ARN that is an attached non-default certificate and not
desired, each call carrying that single certificate, and no other call. With
attached extras A, B and desired extras B, C these are one attach (C) and one
detach (A); with attached extras B, C and desired extras B, C there is no attach
or detach call. -/
theorem reconcileExtraCertificates_attaches_and_detaches_the_difference {σ : Type}
    (cloud : CloudAPI σ) (oAdd oRemove : RangeOrder) (lsArn : String)
    (extraCertificateARNs : List String) (s s' : σ)
    (certificates : List elbv2sdk.Certificate)
    (hdesc : cloud.DescribeListenerCertificates lsArn s = (.ok certificates, s'))
    (hok : (reconcileExtraCertificates cloud oAdd oRemove lsArn extraCertificateARNs s).err
      = none) :
    (∃ (A R : List String),
      A.Nodup ∧
      (∀ arn, arn ∈ A ↔ (arn ∈ extraCertificateARNs ∧ arn ∉ actualNonDefault certificates)) ∧
      R.Nodup ∧
      (∀ arn, arn ∈ R ↔ (arn ∈ actualNonDefault certificates ∧ arn ∉ extraCertificateARNs)) ∧
      (reconcileExtraCertificates cloud oAdd oRemove lsArn extraCertificateARNs s).calls =
        Call.DescribeListenerCertificates lsArn ::
          (A.map (fun arn => Call.AddListenerCertificates
              { ListenerArn := some lsArn,
                Certificates := [{ CertificateArn := some arn, IsDefault := none }] }) ++
            R.map (fun arn => Call.RemoveListenerCertificates
              { ListenerArn := some lsArn,
                Certificates := [{ CertificateArn := some arn, IsDefault := none }] }))) ∧
    (∀ (τ : Type) (cloud' : CloudAPI τ) (o₁ o₂ : RangeOrder) (t t' : τ),
      cloud'.DescribeListenerCertificates "arn:ls/1" t =
        (.ok [exCert "arn:cert/D" true, exCert "arn:cert/A" false, exCert "arn:cert/B" false],
          t') →
      (reconcileExtraCertificates cloud' o₁ o₂ "arn:ls/1" ["arn:cert/B", "arn:cert/C"] t).err
        = none →
      (reconcileExtraCertificates cloud' o₁ o₂ "arn:ls/1" ["arn:cert/B", "arn:cert/C"] t).calls =
        [Call.DescribeListenerCertificates "arn:ls/1",
          Call.AddListenerCertificates
            { ListenerArn := some "arn:ls/1",
              Certificates := [{ CertificateArn := some "arn:cert/C", IsDefault := none }] },
          Call.RemoveListenerCertificates
            { ListenerArn := some "arn:ls/1",
              Certificates := [{ CertificateArn := some "arn:cert/A", IsDefault := none }] }]) ∧
    (∀ (τ : Type) (cloud' : CloudAPI τ) (o₁ o₂ : RangeOrder) (t t' : τ),
      cloud'.DescribeListenerCertificates "arn:ls/1" t =
        (.ok [exCert "arn:cert/D" true, exCert "arn:cert/B" false, exCert "arn:cert/C" false],
          t') →
      (reconcileExtraCertificates cloud' o₁ o₂ "arn:ls/1" ["arn:cert/B", "arn:cert/C"] t).err
        = none ∧
      (reconcileExtraCertificates cloud' o₁ o₂ "arn:ls/1" ["arn:cert/B", "arn:cert/C"] t).calls =
        [Call.DescribeListenerCertificates "arn:ls/1"]) := by
  refine ⟨⟨_, _, ?_, ?_, ?_, ?_, reconcileExtraCertificates_calls cloud oAdd oRemove lsArn
    extraCertificateARNs s s' certificates hdesc hok⟩, ?_, ?_⟩
  · exact (oAdd.perm _).nodup_iff.mpr (GoSet.nodup_Difference _ _ (GoSet.nodup_New _))
  · intro arn
    rw [(oAdd.perm _).mem_iff, GoSet.mem_Difference, GoSet.mem_New, mem_actualExtra]
  · exact (oRemove.perm _).nodup_iff.mpr (GoSet.nodup_Difference _ _ (nodup_actualExtra _))
  · intro arn
    rw [(oRemove.perm _).mem_iff, GoSet.mem_Difference, GoSet.mem_New, mem_actualExtra]
  · intro τ cloud' o₁ o₂ t t' hd ho
    rw [reconcileExtraCertificates_calls cloud' o₁ o₂ _ _ t t' _ hd ho]
    have hA : ((GoSet.New ["arn:cert/B", "arn:cert/C"]).Difference
        (reconcileExtraCertificates.actualExtra [exCert "arn:cert/D" true,
          exCert "arn:cert/A" false, exCert "arn:cert/B" false])).elems = ["arn:cert/C"] := by
      decide
    have hR : ((reconcileExtraCertificates.actualExtra [exCert "arn:cert/D" true,
          exCert "arn:cert/A" false, exCert "arn:cert/B" false]).Difference
        (GoSet.New ["arn:cert/B", "arn:cert/C"])).elems = ["arn:cert/A"] := by
      decide
    rw [hA, hR, List.perm_singleton.mp (o₁.perm _), List.perm_singleton.mp (o₂.perm _)]
    rfl
  · intro τ cloud' o₁ o₂ t t' hd
    have hA : ((GoSet.New ["arn:cert/B", "arn:cert/C"]).Difference
        (reconcileExtraCertificates.actualExtra [exCert "arn:cert/D" true,
          exCert "arn:cert/B" false, exCert "arn:cert/C" false])).elems = [] := by
      decide
    have hR : ((reconcileExtraCertificates.actualExtra [exCert "arn:cert/D" true,
          exCert "arn:cert/B" false, exCert "arn:cert/C" false]).Difference
        (GoSet.New ["arn:cert/B", "arn:cert/C"])).elems = [] := by
      decide
    simp only [reconcileExtraCertificates, hd, hA, hR, (o₁.perm _).eq_nil,
      (o₂.perm _).eq_nil]
    exact ⟨rfl, rfl⟩

/-- Witness of C8: the example cloud with attached certificates D (default), A
and B, desired extras B and C. -/
theorem reconcileExtraCertificates_attaches_and_detaches_the_difference_witness :
    (reconcileExtraCertificates (exCloud []) RangeOrder.stored RangeOrder.stored "arn:ls/1"
      ["arn:cert/B", "arn:cert/C"]
      ⟨[], [exCert "arn:cert/D" true, exCert "arn:cert/A" false,
        exCert "arn:cert/B" false]⟩).calls =
      [Call.DescribeListenerCertificates "arn:ls/1",
        Call.AddListenerCertificates
          { ListenerArn := some "arn:ls/1",
            Certificates := [{ CertificateArn := some "arn:cert/C", IsDefault := none }] },
        Call.RemoveListenerCertificates
          { ListenerArn := some "arn:ls/1",
            Certificates := [{ CertificateArn := some "arn:cert/A", IsDefault := none }] }] :=
  (reconcileExtraCertificates_attaches_and_detaches_the_difference (exCloud [])
    RangeOrder.stored RangeOrder.stored "arn:ls/1" ["arn:cert/B", "arn:cert/C"]
    ⟨[], [exCert "arn:cert/D" true, exCert "arn:cert/A" false, exCert "arn:cert/B" false]⟩
    ⟨[], [exCert "arn:cert/D" true, exCert "arn:cert/A" false, exCert "arn:cert/B" false]⟩
    [exCert "arn:cert/D" true, exCert "arn:cert/A" false, exCert "arn:cert/B" false]
    rfl (by decide)).2.1 ExState (exCloud []) RangeOrder.stored RangeOrder.stored
    ⟨[], [exCert "arn:cert/D" true, exCert "arn:cert/A" false, exCert "arn:cert/B" false]⟩
    ⟨[], [exCert "arn:cert/D" true, exCert "arn:cert/A" false, exCert "arn:cert/B" false]⟩
    rfl (by decide)

end ls

namespace ls

theorem LSInstanceNeedsModification_eq (inst : elbv2sdk.Listener) (config : listenerConfig) :
    LSInstanceNeedsModification inst config = !fieldsDeepEqual inst config := by
  unfold LSInstanceNeedsModification fieldsDeepEqual
  cases DeepEqual inst.Port config.Port <;> cases DeepEqual inst.Protocol config.Protocol <;>
    cases DeepEqual inst.Certificates config.DefaultCertificate <;>
    cases DeepEqual inst.SslPolicy config.SslPolicy <;>
    cases DeepEqual inst.DefaultActions config.DefaultActions <;> rfl

theorem reconcileExtraCertificates_onInstance {σ : Type} (cloud : CloudAPI σ)
    (oAdd oRemove : RangeOrder) (inst : elbv2sdk.Listener) (extra : List String) (s : σ) :
    ∀ c ∈ (reconcileExtraCertificates cloud oAdd oRemove (StringValue inst.ListenerArn)
      extra s).calls, Call.onInstance inst c := by
  unfold reconcileExtraCertificates
  split
  · intro c hc
    simp only [List.mem_singleton] at hc
    subst hc
    rfl
  · intro c hc
    simp only [List.mem_cons] at hc
    rcases hc with rfl | hc
    · rfl
    · revert c
      apply Ran.andThen_forall
      · apply forEach_forall
        intro x s1 c hc
        rw [addStep_calls, List.mem_singleton] at hc
        subst hc
        rfl
      · intro s1
        apply forEach_forall
        intro x s2 c hc
        rw [removeStep_calls, List.mem_singleton] at hc
        subst hc
        rfl

theorem certificates_onInstance {σ : Type} (cloud : CloudAPI σ)
    (oAdd oRemove : RangeOrder) (options : ReconcileOptions) (config : listenerConfig)
    (inst : elbv2sdk.Listener) (s : σ) :
    ∀ c ∈ (defaultController.Reconcile.certificates cloud oAdd oRemove options config
      inst s).calls, Call.onInstance inst c := by
  unfold defaultController.Reconcile.certificates
  split
  · simp only
    split
    · exact reconcileExtraCertificates_onInstance cloud oAdd oRemove inst _ s
    · exact reconcileExtraCertificates_onInstance cloud oAdd oRemove inst _ s
  · intro c hc
    simp at hc

theorem rules_onInstance {σ : Type} (rulesController : RulesController σ)
    (options : ReconcileOptions) (inst : elbv2sdk.Listener) (s : σ) :
    ∀ c ∈ (defaultController.Reconcile.rules rulesController options inst s).calls,
      Call.onInstance inst c := by
  unfold defaultController.Reconcile.rules
  split <;>
  · intro c hc
    simp only [List.mem_singleton] at hc
    subst hc
    rfl

theorem onInstance_not_createOrModify (inst : elbv2sdk.Listener) (c : Call)
    (h : Call.onInstance inst c) : c.isCreateOrModify = false := by
  cases c <;> first | rfl | exact absurd h id

/-- The calls of `Reconcile` once the config is built: those of the
create-or-modify step, then calls on the listener that step yields. -/
theorem defaultController_Reconcile_calls {σ : Type} (h : Helpers) (cloud : CloudAPI σ)
    (rulesController : RulesController σ) (oAdd oRemove : RangeOrder)
    (options : ReconcileOptions) (s : σ) (config : listenerConfig)
    (hcfg : buildListenerConfig h options = (config, none)) :
    ∃ rest, (defaultController.Reconcile h cloud rulesController oAdd oRemove options s).calls
        = (defaultController.Reconcile.ensureInstance cloud options config s).calls ++ rest ∧
      (∀ c ∈ rest, c.isCreateOrModify = false) ∧
      (∀ inst, (defaultController.Reconcile.ensureInstance cloud options config s).val
        = .ok inst → ∀ c ∈ rest, Call.onInstance inst c) := by
  simp only [defaultController.Reconcile, hcfg]
  cases hv : (defaultController.Reconcile.ensureInstance cloud options config s).val with
  | error e =>
    cases e with
    | error err => exact ⟨[], by simp, by simp, by intro inst hinst; cases hinst⟩
    | panicked msg => exact ⟨[], by simp, by simp, by intro inst hinst; cases hinst⟩
  | ok inst =>
    have hall : ∀ c ∈ ((defaultController.Reconcile.certificates cloud oAdd oRemove options
        config inst (defaultController.Reconcile.ensureInstance cloud options config
          s).state).andThen (fun s1 => defaultController.Reconcile.rules rulesController
            options inst s1)).calls, Call.onInstance inst c :=
      Ran.andThen_forall _ _ _ (certificates_onInstance cloud oAdd oRemove options config
        inst _) (fun s1 => rules_onInstance rulesController options inst s1)
    refine ⟨_, rfl, fun c hc => onInstance_not_createOrModify inst c (hall c hc), ?_⟩
    intro inst' hinst'
    injection hinst' with h'
    subst h'
    exact hall

end ls

namespace ls

theorem ensureInstance_none {σ : Type} (cloud : CloudAPI σ) (options : ReconcileOptions)
    (config : listenerConfig) (s : σ) (hnone : options.Instance = none) :
    (defaultController.Reconcile.ensureInstance cloud options config s).calls =
      [Call.CreateListenerWithContext
        { LoadBalancerArn := some options.LBArn, Port := config.Port,
          Protocol := config.Protocol, Certificates := config.DefaultCertificate,
          SslPolicy := config.SslPolicy, DefaultActions := config.DefaultActions }] ∧
    (∀ resp s' l ls, cloud.CreateListenerWithContext
        { LoadBalancerArn := some options.LBArn, Port := config.Port,
          Protocol := config.Protocol, Certificates := config.DefaultCertificate,
          SslPolicy := config.SslPolicy, DefaultActions := config.DefaultActions } s
          = (.ok resp, s') → resp.Listeners = l :: ls →
      (defaultController.Reconcile.ensureInstance cloud options config s).val = .ok l) := by
  unfold defaultController.Reconcile.ensureInstance
  simp only [hnone, newLSInstance]
  cases hc : cloud.CreateListenerWithContext
      { LoadBalancerArn := some options.LBArn, Port := config.Port,
        Protocol := config.Protocol, Certificates := config.DefaultCertificate,
        SslPolicy := config.SslPolicy, DefaultActions := config.DefaultActions } s with
  | mk res s1 =>
    cases res with
    | error err =>
      refine ⟨rfl, ?_⟩
      intro resp s' l ls hresp
      cases hresp
    | ok resp =>
      constructor
      · simp only
        split <;> rfl
      · intro resp' s' l ls hresp hl
        injection hresp with h1 h2
        injection h1 with h1
        subst h1
        simp [firstListener, hl]

theorem ensureInstance_modify {σ : Type} (cloud : CloudAPI σ) (options : ReconcileOptions)
    (config : listenerConfig) (s : σ) (inst : elbv2sdk.Listener)
    (hsome : options.Instance = some inst) (hne : fieldsDeepEqual inst config = false) :
    (defaultController.Reconcile.ensureInstance cloud options config s).calls =
      [Call.ModifyListenerWithContext
        { ListenerArn := inst.ListenerArn, Port := config.Port,
          Protocol := config.Protocol, Certificates := config.DefaultCertificate,
          SslPolicy := config.SslPolicy, DefaultActions := config.DefaultActions }] ∧
    (∀ output s' l ls, cloud.ModifyListenerWithContext
        { ListenerArn := inst.ListenerArn, Port := config.Port,
          Protocol := config.Protocol, Certificates := config.DefaultCertificate,
          SslPolicy := config.SslPolicy, DefaultActions := config.DefaultActions } s
          = (.ok output, s') → output.Listeners = l :: ls →
      (defaultController.Reconcile.ensureInstance cloud options config s).val = .ok l) := by
  unfold defaultController.Reconcile.ensureInstance
  simp only [hsome, reconcileLSInstance, LSInstanceNeedsModification_eq, hne, Bool.not_false,
    if_true]
  cases hc : cloud.ModifyListenerWithContext
      { ListenerArn := inst.ListenerArn, Port := config.Port,
        Protocol := config.Protocol, Certificates := config.DefaultCertificate,
        SslPolicy := config.SslPolicy, DefaultActions := config.DefaultActions } s with
  | mk res s1 =>
    cases res with
    | error err =>
      refine ⟨rfl, ?_⟩
      intro output s' l ls houtput
      cases houtput
    | ok output =>
      constructor
      · simp only
        split <;> rfl
      · intro output' s' l ls houtput hl
        injection houtput with h1 h2
        injection h1 with h1
        subst h1
        simp [firstListener, hl]

theorem ensureInstance_keep {σ : Type} (cloud : CloudAPI σ) (options : ReconcileOptions)
    (config : listenerConfig) (s : σ) (inst : elbv2sdk.Listener)
    (hsome : options.Instance = some inst) (heq : fieldsDeepEqual inst config = true) :
    (defaultController.Reconcile.ensureInstance cloud options config s).calls = [] ∧
    (defaultController.Reconcile.ensureInstance cloud options config s).val = .ok inst := by
  unfold defaultController.Reconcile.ensureInstance
  simp [hsome, reconcileLSInstance, LSInstanceNeedsModification_eq, heq]

/-- Claim C9. For every desired listener config that `buildListenerConfig` yields:
when no instance is supplied, `Reconcile` issues exactly one create call, carrying
the desired port, protocol, default certificate, SSL policy and default actions,
and no modify call, and the listener the create returns is the one every later
call is issued on; when an instance is supplied and at least one of port,
protocol, certificates, SSL policy, default actions is not deeply equal between
instance and config, it issues exactly one modify call, carrying all five desired
fields, and no create call, and the listener the modify returns becomes the
current instance, on which every later call is issued; when all five are deeply
equal it issues no create or modify call and every call is issued on the supplied
instance. -/
theorem defaultController_Reconcile_creates_or_modifies {σ : Type} (h : Helpers)
    (cloud : CloudAPI σ) (rulesController : RulesController σ) (oAdd oRemove : RangeOrder)
    (options : ReconcileOptions) (s : σ) (config : listenerConfig)
    (hcfg : buildListenerConfig h options = (config, none)) :
    (options.Instance = none →
      ∃ rest,
        (defaultController.Reconcile h cloud rulesController oAdd oRemove options s).calls =
          Call.CreateListenerWithContext
            { LoadBalancerArn := some options.LBArn, Port := config.Port,
              Protocol := config.Protocol, Certificates := config.DefaultCertificate,
              SslPolicy := config.SslPolicy, DefaultActions := config.DefaultActions } :: rest ∧
        (∀ c ∈ rest, c.isCreateOrModify = false) ∧
        (∀ resp s' l ls, cloud.CreateListenerWithContext
            { LoadBalancerArn := some options.LBArn, Port := config.Port,
              Protocol := config.Protocol, Certificates := config.DefaultCertificate,
              SslPolicy := config.SslPolicy, DefaultActions := config.DefaultActions } s
              = (.ok resp, s') → resp.Listeners = l :: ls →
          ∀ c ∈ rest, Call.onInstance l c)) ∧
    (∀ inst, options.Instance = some inst → fieldsDeepEqual inst config = false →
      ∃ rest,
        (defaultController.Reconcile h cloud rulesController oAdd oRemove options s).calls =
          Call.ModifyListenerWithContext
            { ListenerArn := inst.ListenerArn, Port := config.Port,
              Protocol := config.Protocol, Certificates := config.DefaultCertificate,
              SslPolicy := config.SslPolicy, DefaultActions := config.DefaultActions } :: rest ∧
        (∀ c ∈ rest, c.isCreateOrModify = false) ∧
        (∀ output s' l ls, cloud.ModifyListenerWithContext
            { ListenerArn := inst.ListenerArn, Port := config.Port,
              Protocol := config.Protocol, Certificates := config.DefaultCertificate,
              SslPolicy := config.SslPolicy, DefaultActions := config.DefaultActions } s
              = (.ok output, s') → output.Listeners = l :: ls →
          ∀ c ∈ rest, Call.onInstance l c)) ∧
    (∀ inst, options.Instance = some inst → fieldsDeepEqual inst config = true →
      (∀ c ∈ (defaultController.Reconcile h cloud rulesController oAdd oRemove options
        s).calls, c.isCreateOrModify = false) ∧
      (∀ c ∈ (defaultController.Reconcile h cloud rulesController oAdd oRemove options
        s).calls, Call.onInstance inst c)) := by
  obtain ⟨rest, hcalls, hnocm, hon⟩ := defaultController_Reconcile_calls h cloud
    rulesController oAdd oRemove options s config hcfg
  refine ⟨?_, ?_, ?_⟩
  · intro hnone
    obtain ⟨h1, h2⟩ := ensureInstance_none cloud options config s hnone
    refine ⟨rest, by rw [hcalls, h1]; rfl, hnocm, ?_⟩
    intro resp s' l ls hresp hl
    exact hon l (h2 resp s' l ls hresp hl)
  · intro inst hsome hne
    obtain ⟨h1, h2⟩ := ensureInstance_modify cloud options config s inst hsome hne
    refine ⟨rest, by rw [hcalls, h1]; rfl, hnocm, ?_⟩
    intro output s' l ls houtput hl
    exact hon l (h2 output s' l ls houtput hl)
  · intro inst hsome heq
    obtain ⟨h1, h2⟩ := ensureInstance_keep cloud options config s inst hsome heq
    rw [hcalls, h1, List.nil_append]
    exact ⟨hnocm, hon inst h2⟩

end ls

namespace ls

/-- Witness of C9: the example service on port 443 with one certificate and no
listener yet: `Reconcile` starts with the create call that carries the config. -/
theorem defaultController_Reconcile_creates_or_modifies_witness :
    ∃ rest,
      (defaultController.Reconcile (exHelpers none (some ["arn:cert/1"])) (exCloud [])
        exRulesController RangeOrder.stored RangeOrder.stored (exOptions ⟨443, "TCP"⟩ none)
        ⟨[], []⟩).calls =
        Call.CreateListenerWithContext
          { LoadBalancerArn := some "arn:lb/1", Port := some 443, Protocol := some "TCP",
            Certificates := [{ CertificateArn := some "arn:cert/1", IsDefault := none }],
            SslPolicy := some "ELBSecurityPolicy-2016-08",
            DefaultActions :=
              [{ Type_ := some "forward", TargetGroupArn := some "arn:tg/web" }] } :: rest ∧
      (∀ c ∈ rest, c.isCreateOrModify = false) := by
  obtain ⟨rest, h1, h2, _⟩ := (defaultController_Reconcile_creates_or_modifies
    (exHelpers none (some ["arn:cert/1"])) (exCloud []) exRulesController RangeOrder.stored
    RangeOrder.stored (exOptions ⟨443, "TCP"⟩ none) ⟨[], []⟩
    { Port := some 443, Protocol := some "TCP",
      DefaultActions := [{ Type_ := some "forward", TargetGroupArn := some "arn:tg/web" }],
      SslPolicy := some "ELBSecurityPolicy-2016-08",
      DefaultCertificate := [{ CertificateArn := some "arn:cert/1", IsDefault := none }],
      ExtraCertificateARNs := [] } (by decide)).1 rfl
  exact ⟨rest, h1, h2⟩

/-- Claim C10, the code at the failing input. A port whose scheme is `TLS`, the
scheme that terminates TLS: without a certificate annotation `buildListenerConfig`
returns a config and no error, and `Reconcile` goes on to create the listener with
protocol `TLS` and no certificate; with the annotation listing two ARNs, and with
an SSL policy annotation, the config still has no default certificate, no extra
certificate and no SSL policy. -/
theorem buildListenerConfig_TLS_scheme_gets_no_certificate :
    buildListenerConfig (exHelpers none none) (exOptions ⟨443, "TLS"⟩ none) =
      ({ Port := some 443, Protocol := some "TLS",
         DefaultActions := [{ Type_ := some "forward", TargetGroupArn := some "arn:tg/web" }],
         SslPolicy := none, DefaultCertificate := [], ExtraCertificateARNs := [] }, none) ∧
    buildListenerConfig
        (exHelpers (some "ELBSecurityPolicy-TLS-1-2-2017-01")
          (some ["arn:cert/1", "arn:cert/2"]))
        (exOptions ⟨443, "TLS"⟩ none) =
      ({ Port := some 443, Protocol := some "TLS",
         DefaultActions := [{ Type_ := some "forward", TargetGroupArn := some "arn:tg/web" }],
         SslPolicy := none, DefaultCertificate := [], ExtraCertificateARNs := [] }, none) ∧
    (defaultController.Reconcile (exHelpers none none) (exCloud []) exRulesController
        RangeOrder.stored RangeOrder.stored (exOptions ⟨443, "TLS"⟩ none) ⟨[], []⟩).calls =
      [Call.CreateListenerWithContext
        { LoadBalancerArn := some "arn:lb/1", Port := some 443, Protocol := some "TLS",
          Certificates := [], SslPolicy := none,
          DefaultActions := [{ Type_ := some "forward", TargetGroupArn := some "arn:tg/web" }] },
       Call.RulesReconcile
        { ListenerArn := some "arn:ls/new", Port := some 443, Protocol := some "TLS",
          Certificates := [], SslPolicy := none,
          DefaultActions := [{ Type_ := some "forward", TargetGroupArn := some "arn:tg/web" }] }
        exService { LoadBalancer := { Ports := [⟨443, "TLS"⟩] } } exTGGroup] := by
  refine ⟨by decide, by decide, by decide⟩

end ls

namespace ls

/-- Claim C11, the code at the failing input. A port whose scheme is plain `TCP`:
without a certificate annotation `buildListenerConfig` fails with the certificate
error and `Reconcile` fails before any call; with a certificate annotation the
config carries an SSL policy and the certificate, and `Reconcile` creates the
`TCP` listener with them and goes on to describe the listener's certificates. -/
theorem buildListenerConfig_TCP_scheme_requires_certificate :
    buildListenerConfig (exHelpers none none) (exOptions ⟨80, "TCP"⟩ none) =
      ({ Port := some 80, Protocol := some "TCP", DefaultActions := [],
         SslPolicy := some "ELBSecurityPolicy-2016-08", DefaultCertificate := [],
         ExtraCertificateARNs := [] },
       some ("annotation alb.ingress.kubernetes.io/certificate-arn must be specified " ++
         "for https listener")) ∧
    (defaultController.Reconcile (exHelpers none none) (exCloud []) exRulesController
        RangeOrder.stored RangeOrder.stored (exOptions ⟨80, "TCP"⟩ none) ⟨[], []⟩).err =
      some ("failed to build listener config due to annotation " ++
        "alb.ingress.kubernetes.io/certificate-arn must be specified for https listener") ∧
    (defaultController.Reconcile (exHelpers none none) (exCloud []) exRulesController
        RangeOrder.stored RangeOrder.stored (exOptions ⟨80, "TCP"⟩ none) ⟨[], []⟩).calls = [] ∧
    (defaultController.Reconcile (exHelpers none (some ["arn:cert/1"])) (exCloud [])
        exRulesController RangeOrder.stored RangeOrder.stored (exOptions ⟨80, "TCP"⟩ none)
        ⟨[], []⟩).calls =
      [Call.CreateListenerWithContext
        { LoadBalancerArn := some "arn:lb/1", Port := some 80, Protocol := some "TCP",
          Certificates := [{ CertificateArn := some "arn:cert/1", IsDefault := none }],
          SslPolicy := some "ELBSecurityPolicy-2016-08",
          DefaultActions := [{ Type_ := some "forward", TargetGroupArn := some "arn:tg/web" }] },
       Call.DescribeListenerCertificates "arn:ls/new",
       Call.RulesReconcile
        { ListenerArn := some "arn:ls/new", Port := some 80, Protocol := some "TCP",
          Certificates := [{ CertificateArn := some "arn:cert/1", IsDefault := none }],
          SslPolicy := some "ELBSecurityPolicy-2016-08",
          DefaultActions := [{ Type_ := some "forward", TargetGroupArn := some "arn:tg/web" }] }
        exService { LoadBalancer := { Ports := [⟨80, "TCP"⟩] } } exTGGroup] := by
  refine ⟨by decide, by decide, by decide, by decide⟩

end ls

/-- A loop that appends one item per element appends the mapped list. -/
theorem foldl_append_map {α β : Type} (f : α → β) (l : List α) :
    ∀ init : List β, l.foldl (fun acc x => acc ++ [f x]) init = init ++ l.map f := by
  induction l with
  | nil => intro init; simp
  | cons x xs ih => intro init; simp [List.foldl_cons, ih]

/-- A loop that appends a list per element appends the concatenation. -/
theorem foldl_append_flatMap {α β : Type} (g : List β → α → List β) (f : α → List β)
    (hg : ∀ acc x, g acc x = acc ++ f x) (l : List α) :
    ∀ init : List β, l.foldl g init = init ++ l.flatMap f := by
  induction l with
  | nil => intro init; simp
  | cons x xs ih => intro init; simp [List.foldl_cons, hg, ih]

/-- A loop that appends the elements that pass a test appends the filtered list. -/
theorem foldl_append_filter {α : Type} (p : α → Bool) (l : List α) :
    ∀ init : List α, l.foldl (fun acc x => if p x then acc else acc ++ [x]) init
      = init ++ l.filter (fun x => !p x) := by
  induction l with
  | nil => intro init; simp
  | cons x xs ih =>
    intro init
    rw [List.foldl_cons, ih]
    cases hp : p x <;> simp [hp]

namespace tg

open k8s

theorem extractTargetGroupBackends.raw_eq (ingress : Ingress) :
    extractTargetGroupBackends.raw ingress = specBackends ingress := by
  unfold extractTargetGroupBackends.raw specBackends
  rw [foldl_append_flatMap _ (fun rule : IngressRule =>
    match rule.HTTP with
    | some http => http.Paths.map (fun path => path.Backend)
    | none => [])]
  · cases ingress.Spec.Backend <;> rfl
  · intro acc rule
    cases rule.HTTP with
    | none => simp
    | some http => exact foldl_append_map (fun path : HTTPIngressPath => path.Backend) _ acc

theorem extractTargetGroupBackends.keep_eq (use : String → Bool)
    (rawIngBackends : List IngressBackend) :
    extractTargetGroupBackends.keep use rawIngBackends =
      rawIngBackends.filter (fun b => !use b.ServicePort.String_) := by
  unfold extractTargetGroupBackends.keep
  rw [foldl_append_filter (fun b : IngressBackend => use b.ServicePort.String_)]
  simp

theorem extractTargetGroupBackends.targets_eq (tgts : List TargetGroupTuple) :
    ∀ init : List IngressBackend,
      tgts.foldl
        (fun ingBackends tgt =>
          match tgt.ServiceName with
          | some _ =>
            ingBackends ++ [{ ServiceName := StringValue tgt.ServiceName,
                              ServicePort := Parse (StringValue tgt.ServicePort) }]
          | none => ingBackends) init =
      init ++ tgts.filterMap (fun tgt =>
        tgt.ServiceName.map (fun name =>
          ({ ServiceName := name, ServicePort := Parse (StringValue tgt.ServicePort) } :
            IngressBackend))) := by
  induction tgts with
  | nil => intro init; simp
  | cons tgt tgts ih =>
    intro init
    rw [List.foldl_cons, ih]
    cases h : tgt.ServiceName with
    | none => simp [h]
    | some name => simp [h, StringValue]

theorem extractTargetGroupBackends.addActions_eq (actions : List Action)
    (ingBackends : List IngressBackend) :
    extractTargetGroupBackends.addActions actions ingBackends =
      ingBackends ++ actions.flatMap actionBackends := by
  unfold extractTargetGroupBackends.addActions
  apply foldl_append_flatMap
  intro acc action
  unfold actionBackends
  by_cases h : StringValue action.Type_ = elbv2sdk.ActionTypeEnumForward
  · simp only [h, ne_eq, not_true_eq_false, if_false, if_true]
    exact extractTargetGroupBackends.targets_eq _ acc
  · simp [h]

/-- What the extraction returns when the store holds annotations for the
ingress. -/
theorem extractTargetGroupBackends.eq_of_annos (store : Storer) (use : String → Bool)
    (ingress : Ingress) (ingAnnos : IngressAnnos)
    (hannos : store.GetIngressAnnotations (IngressKey ingress) = .ok ingAnnos) :
    extractTargetGroupBackends store use ingress =
      .ok ((specBackends ingress).filter (fun b => !use b.ServicePort.String_) ++
        ingAnnos.Action.Actions.flatMap actionBackends) := by
  unfold extractTargetGroupBackends
  simp only [hannos]
  rw [extractTargetGroupBackends.addActions_eq, extractTargetGroupBackends.keep_eq,
    extractTargetGroupBackends.raw_eq]

/-- Claim C14. For every ingress and every annotation set the store holds for it,
`extractTargetGroupBackends` returns, in this order: the default backend if
present and the path backends of each rule that has HTTP paths, in rule order and
path order, without those whose port is an action placeholder; then one backend
(service name, parsed service port) for each target that names a service of each
forward action of the annotations, in action order and target order. Actions of
another type and targets without a service name contribute nothing. -/
theorem extractTargetGroupBackends_order (store : Storer) (use : String → Bool)
    (ingress : Ingress) (ingAnnos : IngressAnnos)
    (hannos : store.GetIngressAnnotations (IngressKey ingress) = .ok ingAnnos) :
    extractTargetGroupBackends store use ingress =
      .ok ((specBackends ingress).filter (fun b => !use b.ServicePort.String_) ++
        ingAnnos.Action.Actions.flatMap actionBackends) :=
  extractTargetGroupBackends.eq_of_annos store use ingress ingAnnos hannos

/-- Witness of C14: the example ingress with a forward action of two targets, one
of them without a service name, and a redirect action. -/
theorem extractTargetGroupBackends_order_witness :
    extractTargetGroupBackends
        (exIngressStore [⟨some "redirect", ⟨[⟨some "svc-x", some "1"⟩]⟩⟩,
          ⟨some "forward", ⟨[⟨some "svc-c", some "443"⟩, ⟨none, some "1"⟩,
            ⟨some "svc-d", some "http"⟩]⟩⟩])
        exUse exIngress =
      .ok ((specBackends exIngress).filter (fun b => !exUse b.ServicePort.String_) ++
        [⟨some "redirect", ⟨[⟨some "svc-x", some "1"⟩]⟩⟩,
          ⟨some "forward", ⟨[⟨some "svc-c", some "443"⟩, ⟨none, some "1"⟩,
            ⟨some "svc-d", some "http"⟩]⟩⟩].flatMap actionBackends) ∧
    ((specBackends exIngress).filter (fun b => !exUse b.ServicePort.String_) ++
        [⟨some "redirect", ⟨[⟨some "svc-x", some "1"⟩]⟩⟩,
          ⟨some "forward", ⟨[⟨some "svc-c", some "443"⟩, ⟨none, some "1"⟩,
            ⟨some "svc-d", some "http"⟩]⟩⟩].flatMap actionBackends) =
      [⟨"svc-a", .int 80⟩, ⟨"svc-b", .int 8080⟩, ⟨"svc-a", .int 80⟩, ⟨"svc-c", .int 443⟩,
        ⟨"svc-d", .str "http"⟩] :=
  ⟨extractTargetGroupBackends_order _ exUse exIngress _ rfl, by decide⟩

end tg

namespace GoMap
variable {K V : Type} [DecidableEq K]

theorem get?_set (m : GoMap K V) (k k' : K) (v : V) :
    (m.set k v).get? k' = if k = k' then some v else m.get? k' := by
  simp [get?, set, lookup]

end GoMap

namespace tg

open k8s

theorem mem_firstOccurrences {α : Type} [DecidableEq α] (l : List α) (x : α) :
    x ∈ firstOccurrences l ↔ x ∈ l := by
  induction l with
  | nil => simp [firstOccurrences]
  | cons y ys ih =>
    simp only [firstOccurrences, List.mem_cons, List.mem_filter, ih, decide_eq_true_eq]
    constructor
    · rintro (h | h)
      · exact Or.inl h
      · exact Or.inr h.1
    · rintro (h | h)
      · exact Or.inl h
      · by_cases hx : x = y
        · exact Or.inl hx
        · exact Or.inr ⟨h, hx⟩

theorem nodup_firstOccurrences {α : Type} [DecidableEq α] (l : List α) :
    (firstOccurrences l).Nodup := by
  induction l with
  | nil => simp [firstOccurrences]
  | cons y ys ih =>
    simp only [firstOccurrences, List.nodup_cons, List.mem_filter, decide_eq_true_eq]
    exact ⟨fun h => h.2 rfl, List.Nodup.filter _ ih⟩

/-- The backends the loop calls the reconciler on, when it runs through: the
backends of the list that are not yet keys of the map, each once, in the order
of their first occurrence. -/
theorem Reconcile.loop_calls {σ : Type} (tgController : Controller σ) (ingress : Ingress)
    (bs : List IngressBackend) :
    ∀ (m : GoMap IngressBackend TargetGroup) (s : σ),
      (Reconcile.loop tgController ingress bs m s).err = none →
      (Reconcile.loop tgController ingress bs m s).calls.map (fun c => c.backend) =
        (firstOccurrences bs).filter (fun b => (m.get? b).isNone) := by
  induction bs with
  | nil => intro m s _; rfl
  | cons b rest ih =>
    intro m s hok
    unfold Reconcile.loop at hok ⊢
    cases hb : m.get? b with
    | some tg0 =>
      simp only [hb] at hok ⊢
      rw [ih m s hok]
      simp only [firstOccurrences, List.filter_cons, hb, Option.isNone_some,
        Bool.false_eq_true, if_false, List.filter_filter]
      apply List.filter_congr
      intro y _
      by_cases hy : y = b
      · subst hy
        simp [hb]
      · simp [hy]
    | none =>
      simp only [hb] at hok ⊢
      cases hr : tgController.Reconcile ingress b s with
      | mk res s' =>
        cases res with
        | error err => simp [hr] at hok
        | ok tg =>
          simp only [hr] at hok ⊢
          simp only [List.map_cons, ih _ s' hok, firstOccurrences, List.filter_cons, hb,
            Option.isNone_none, if_true, List.filter_filter]
          congr 1
          apply List.filter_congr
          intro y _
          rw [GoMap.get?_set]
          by_cases hy : y = b
          · subst hy
            simp
          · have hy' : ¬ b = y := fun h => hy h.symm
            simp [hy, hy']

/-- The keys of the map the loop leaves are keys it started with or backends of
the list. -/
theorem Reconcile.loop_keys {σ : Type} (tgController : Controller σ) (ingress : Ingress)
    (bs : List IngressBackend) :
    ∀ (m : GoMap IngressBackend TargetGroup) (s : σ) (b : IngressBackend),
      (Reconcile.loop tgController ingress bs m s).tgByBackend.get? b ≠ none →
      (m.get? b ≠ none ∨ b ∈ bs) := by
  induction bs with
  | nil => intro m s b h; exact Or.inl h
  | cons b0 rest ih =>
    intro m s b h
    unfold Reconcile.loop at h
    cases hb : m.get? b0 with
    | some tg0 =>
      simp only [hb] at h
      rcases ih m s b h with h1 | h1
      · exact Or.inl h1
      · exact Or.inr (List.mem_cons_of_mem _ h1)
    | none =>
      simp only [hb] at h
      cases hr : tgController.Reconcile ingress b0 s with
      | mk res s' =>
        cases res with
        | error err =>
          simp only [hr] at h
          exact Or.inl h
        | ok tg =>
          simp only [hr] at h
          rcases ih _ s' b h with h1 | h1
          · rw [GoMap.get?_set] at h1
            by_cases hy : b0 = b
            · exact Or.inr (hy ▸ List.mem_cons_self _ _)
            · simp only [hy, if_false] at h1
              exact Or.inl h1
          · exact Or.inr (List.mem_cons_of_mem _ h1)

/-- What the map holds when the loop has run through: what it held before, and
for each call of the reconciler the target group the call returned. -/
theorem Reconcile.loop_get? {σ : Type} (tgController : Controller σ) (ingress : Ingress)
    (bs : List IngressBackend) :
    ∀ (m : GoMap IngressBackend TargetGroup) (s : σ),
      (Reconcile.loop tgController ingress bs m s).err = none →
      ∀ (b : IngressBackend) (tg : TargetGroup),
        (Reconcile.loop tgController ingress bs m s).tgByBackend.get? b = some tg ↔
          (m.get? b = some tg ∨
            ∃ c ∈ (Reconcile.loop tgController ingress bs m s).calls,
              c.backend = b ∧ c.returned = .ok tg) := by
  induction bs with
  | nil =>
    intro m s _ b tg
    simp [Reconcile.loop]
  | cons b0 rest ih =>
    intro m s hok b tg
    unfold Reconcile.loop at hok ⊢
    cases hb : m.get? b0 with
    | some tg0 =>
      simp only [hb] at hok ⊢
      exact ih m s hok b tg
    | none =>
      simp only [hb] at hok ⊢
      cases hr : tgController.Reconcile ingress b0 s with
      | mk res s' =>
        cases res with
        | error err => simp [hr] at hok
        | ok tg0 =>
          simp only [hr] at hok ⊢
          rw [ih _ s' hok b tg, GoMap.get?_set]
          simp only [List.mem_cons, exists_eq_or_imp]
          by_cases hy : b0 = b
          · subst hy
            simp only [if_true, hb]
            constructor
            · rintro (h | h)
              · injection h with h
                subst h
                exact Or.inr (Or.inl ⟨trivial, rfl⟩)
              · exact Or.inr (Or.inr h)
            · rintro (h | h | h)
              · cases h
              · obtain ⟨_, h2⟩ := h
                injection h2 with h2
                subst h2
                exact Or.inl rfl
              · exact Or.inr h
          · simp only [hy, if_false]
            constructor
            · rintro (h | h)
              · exact Or.inl h
              · exact Or.inr (Or.inr h)
            · rintro (h | h | h)
              · exact Or.inl h
              · exact absurd h.1 id
              · exact Or.inr h

/-- When the loop has run through, every backend of the list is a key. -/
theorem Reconcile.loop_keys_of_ok {σ : Type} (tgController : Controller σ)
    (ingress : Ingress) (bs : List IngressBackend) :
    ∀ (m : GoMap IngressBackend TargetGroup) (s : σ),
      (Reconcile.loop tgController ingress bs m s).err = none →
      ∀ b, (m.get? b ≠ none ∨ b ∈ bs) →
        (Reconcile.loop tgController ingress bs m s).tgByBackend.get? b ≠ none := by
  induction bs with
  | nil =>
    intro m s _ b h
    rcases h with h | h
    · exact h
    · simp at h
  | cons b0 rest ih =>
    intro m s hok b h
    unfold Reconcile.loop at hok ⊢
    cases hb : m.get? b0 with
    | some tg0 =>
      simp only [hb] at hok ⊢
      apply ih m s hok b
      rcases h with h | h
      · exact Or.inl h
      · rcases List.mem_cons.mp h with h | h
        · subst h
          exact Or.inl (by simp [hb])
        · exact Or.inr h
    | none =>
      simp only [hb] at hok ⊢
      cases hr : tgController.Reconcile ingress b0 s with
      | mk res s' =>
        cases res with
        | error err => simp [hr] at hok
        | ok tg0 =>
          simp only [hr] at hok ⊢
          apply ih _ s' hok b
          rw [GoMap.get?_set]
          by_cases hy : b0 = b
          · exact Or.inl (by simp [hy])
          · simp only [hy, if_false]
            rcases h with h | h
            · exact Or.inl h
            · rcases List.mem_cons.mp h with h | h
              · exact absurd h.symm hy
              · exact Or.inr h

theorem Reconcile.loop_ingress {σ : Type} (tgController : Controller σ) (ingress : Ingress)
    (bs : List IngressBackend) :
    ∀ (m : GoMap IngressBackend TargetGroup) (s : σ),
      ∀ c ∈ (Reconcile.loop tgController ingress bs m s).calls, c.ingress = ingress := by
  induction bs with
  | nil => intro m s c hc; simp [Reconcile.loop] at hc
  | cons b0 rest ih =>
    intro m s c hc
    unfold Reconcile.loop at hc
    cases hb : m.get? b0 with
    | some tg0 =>
      simp only [hb] at hc
      exact ih m s c hc
    | none =>
      simp only [hb] at hc
      cases hr : tgController.Reconcile ingress b0 s with
      | mk res s' =>
        cases res with
        | error err =>
          simp only [hr, List.mem_singleton] at hc
          rw [hc]
        | ok tg0 =>
          simp only [hr, List.mem_cons] at hc
          rcases hc with hc | hc
          · rw [hc]
          · exact ih _ s' c hc

/-- A call of the loop that is followed by another call returned a target group. -/
theorem Reconcile.loop_ok_before_last {σ : Type} (tgController : Controller σ)
    (ingress : Ingress) (bs : List IngressBackend) :
    ∀ (m : GoMap IngressBackend TargetGroup) (s : σ) (pre : List ReconcilerCall)
      (c : ReconcilerCall) (post : List ReconcilerCall),
      (Reconcile.loop tgController ingress bs m s).calls = pre ++ c :: post → post ≠ [] →
      ∃ tg, c.returned = .ok tg := by
  induction bs with
  | nil =>
    intro m s pre c post h
    simp [Reconcile.loop] at h
  | cons b0 rest ih =>
    intro m s pre c post h hpost
    unfold Reconcile.loop at h
    cases hb : m.get? b0 with
    | some tg0 =>
      simp only [hb] at h
      exact ih m s pre c post h hpost
    | none =>
      simp only [hb] at h
      cases hr : tgController.Reconcile ingress b0 s with
      | mk res s' =>
        cases res with
        | error err =>
          simp only [hr] at h
          cases pre with
          | nil =>
            simp only [List.nil_append, List.cons.injEq] at h
            exact absurd h.2.symm hpost
          | cons p pre' =>
            simp only [List.cons_append, List.cons.injEq] at h
            have := h.2
            simp at this
        | ok tg0 =>
          simp only [hr] at h
          cases pre with
          | nil =>
            simp only [List.nil_append, List.cons.injEq] at h
            exact ⟨tg0, by rw [← h.1]⟩
          | cons p pre' =>
            simp only [List.cons_append, List.cons.injEq] at h
            exact ih _ s' pre' c post h.2 hpost

/-- A call of the loop that returned an error is the error of the loop. -/
theorem Reconcile.loop_error {σ : Type} (tgController : Controller σ)
    (ingress : Ingress) (bs : List IngressBackend) :
    ∀ (m : GoMap IngressBackend TargetGroup) (s : σ),
      ∀ c ∈ (Reconcile.loop tgController ingress bs m s).calls, ∀ e,
        c.returned = .error e → (Reconcile.loop tgController ingress bs m s).err = some e := by
  induction bs with
  | nil => intro m s c hc; simp [Reconcile.loop] at hc
  | cons b0 rest ih =>
    intro m s c hc e he
    unfold Reconcile.loop at hc ⊢
    cases hb : m.get? b0 with
    | some tg0 =>
      simp only [hb] at hc ⊢
      exact ih m s c hc e he
    | none =>
      simp only [hb] at hc ⊢
      cases hr : tgController.Reconcile ingress b0 s with
      | mk res s' =>
        cases res with
        | error err =>
          simp only [hr, List.mem_singleton] at hc ⊢
          rw [hc] at he
          injection he with he
          rw [he]
        | ok tg0 =>
          simp only [hr, List.mem_cons] at hc ⊢
          rcases hc with hc | hc
          · rw [hc] at he
            cases he
          · exact ih _ s' c hc e he

end tg

namespace GoMap
variable {K V : Type} [DecidableEq K]

theorem length_entries (m : GoMap K V) : m.entries.length = m.keys.length := by
  have h : (m.entries.map Prod.fst) = m.keys := by
    unfold entries
    apply map_filterMap_of_key
    intro k hk
    have hne := (mem_keys_iff_get? m k).mp hk
    cases hg : m.get? k with
    | none => exact absurd hg hne
    | some v => exact ⟨(k, v), rfl, rfl⟩
  rw [← h, List.length_map]

end GoMap

namespace tg

open k8s

/-- A run of `Reconcile` that ends without error is the loop run through. -/
theorem Reconcile.of_ok {σ : Type} (store : Storer) (use : String → Bool)
    (tgController : Controller σ) (nameTagGen : NameTagGenerator) (ingress : Ingress) (s : σ)
    (bs : List IngressBackend)
    (hext : extractTargetGroupBackends store use ingress = .ok bs)
    (hok : (Reconcile store use tgController nameTagGen ingress s).err = none) :
    (Reconcile.loop tgController ingress bs GoMap.empty s).err = none ∧
    (Reconcile store use tgController nameTagGen ingress s).calls =
      (Reconcile.loop tgController ingress bs GoMap.empty s).calls ∧
    (Reconcile store use tgController nameTagGen ingress s).group =
      { TGByBackend := (Reconcile.loop tgController ingress bs GoMap.empty s).tgByBackend,
        selector := nameTagGen.TagTGGroup ingress.Namespace ingress.Name } := by
  simp only [Reconcile, hext] at hok ⊢
  cases hr : (Reconcile.loop tgController ingress bs GoMap.empty s).err with
  | some e => simp [hr] at hok
  | none => simp

theorem filter_isNone_empty (l : List IngressBackend) :
    l.filter (fun b => ((GoMap.empty : GoMap IngressBackend TargetGroup).get? b).isNone) = l := by
  apply List.filter_eq_self.mpr
  intro b _
  rfl

/-- Claim C13. If the extraction of the backends fails, `Reconcile` returns its
error with the empty `TargetGroupGroup` and calls the target group reconciler for
no backend. If a call of the target group reconciler fails, it is the last call
`Reconcile` issues, and `Reconcile` returns the error of that call with the empty
`TargetGroupGroup`. Whenever `Reconcile` returns an error the group it returns is
empty: no `TGByBackend` entry, no selector. On the example ingress with a
reconciler that fails for svc-a, the only call is the one for svc-a:80. -/
theorem Reconcile_fails_with_empty_group {σ : Type} (store : Storer) (use : String → Bool)
    (tgController : Controller σ) (nameTagGen : NameTagGenerator) (ingress : Ingress)
    (s : σ) :
    (∀ e, extractTargetGroupBackends store use ingress = .error e →
      (Reconcile store use tgController nameTagGen ingress s).err = some e ∧
      (Reconcile store use tgController nameTagGen ingress s).group = TargetGroupGroup.zero ∧
      (Reconcile store use tgController nameTagGen ingress s).calls = []) ∧
    (∀ pre c post e,
      (Reconcile store use tgController nameTagGen ingress s).calls = pre ++ c :: post →
      c.returned = .error e →
      post = [] ∧
      (Reconcile store use tgController nameTagGen ingress s).err = some e ∧
      (Reconcile store use tgController nameTagGen ingress s).group = TargetGroupGroup.zero) ∧
    ((Reconcile store use tgController nameTagGen ingress s).err ≠ none →
      (Reconcile store use tgController nameTagGen ingress s).group = TargetGroupGroup.zero) ∧
    ((Reconcile (exIngressStore []) exUse (exTGController ["svc-a"]) exNameTagGen exIngress
        []).calls.map (fun c => c.backend) = [⟨"svc-a", .int 80⟩] ∧
      (Reconcile (exIngressStore []) exUse (exTGController ["svc-a"]) exNameTagGen exIngress
        []).err = some "CreateTargetGroup failed" ∧
      (Reconcile (exIngressStore []) exUse (exTGController ["svc-a"]) exNameTagGen exIngress
        []).group = TargetGroupGroup.zero) := by
  have hzero : (Reconcile store use tgController nameTagGen ingress s).err ≠ none →
      (Reconcile store use tgController nameTagGen ingress s).group = TargetGroupGroup.zero := by
    intro h
    unfold Reconcile at h ⊢
    cases hext : extractTargetGroupBackends store use ingress with
    | error e => rfl
    | ok bs =>
      simp only [hext] at h ⊢
      cases hr : (Reconcile.loop tgController ingress bs GoMap.empty s).err with
      | some e => rfl
      | none => simp [hr] at h
  refine ⟨?_, ?_, hzero, by decide, by decide, by decide⟩
  · intro e hext
    simp [Reconcile, hext]
  · intro pre c post e hcalls he
    have hcallsLoop : ∃ bs, (Reconcile.loop tgController ingress bs GoMap.empty s).calls =
        pre ++ c :: post ∧
        (Reconcile store use tgController nameTagGen ingress s).err =
          (Reconcile.loop tgController ingress bs GoMap.empty s).err := by
      unfold Reconcile at hcalls ⊢
      cases hext : extractTargetGroupBackends store use ingress with
      | error e' =>
        simp [hext] at hcalls
      | ok bs =>
        simp only [hext] at hcalls ⊢
        refine ⟨bs, ?_, ?_⟩
        · cases hr : (Reconcile.loop tgController ingress bs GoMap.empty s).err with
          | some e' => simpa [hr] using hcalls
          | none => simpa [hr] using hcalls
        · cases hr : (Reconcile.loop tgController ingress bs GoMap.empty s).err with
          | some e' => simp
          | none => simp
    obtain ⟨bs, hl, herr⟩ := hcallsLoop
    have hpost : post = [] := by
      by_contra hne
      obtain ⟨tg, htg⟩ := Reconcile.loop_ok_before_last tgController ingress bs GoMap.empty s
        pre c post hl hne
      rw [htg] at he
      cases he
    have herr' : (Reconcile store use tgController nameTagGen ingress s).err = some e := by
      rw [herr]
      exact Reconcile.loop_error tgController ingress bs GoMap.empty s c
        (by rw [hl]; simp) e he
    exact ⟨hpost, herr', hzero (by rw [herr']; simp)⟩

end tg

namespace tg

open k8s

/-- Counterexample to C15 as stated: a forward action of the annotations whose
target names the service `svc-e` with the port `use-annotation`. The extracted
list ends with the backend svc-e:use-annotation, whose port is an action
placeholder, and `Reconcile` makes it a key of the group. -/
theorem extractTargetGroupBackends_keeps_placeholder_counterexample :
    extractTargetGroupBackends
        (exIngressStore [⟨some "forward", ⟨[⟨some "svc-e", some "use-annotation"⟩]⟩⟩])
        exUse exIngress =
      .ok [⟨"svc-a", .int 80⟩, ⟨"svc-b", .int 8080⟩, ⟨"svc-a", .int 80⟩,
        ⟨"svc-e", .str "use-annotation"⟩] ∧
    exUse (IntOrString.String_ (.str "use-annotation")) = true ∧
    (Reconcile (exIngressStore [⟨some "forward", ⟨[⟨some "svc-e", some "use-annotation"⟩]⟩⟩])
        exUse (exTGController []) exNameTagGen exIngress []).group.TGByBackend.get?
        ⟨"svc-e", .str "use-annotation"⟩ = some ⟨"arn:tg/svc-e-use-annotation"⟩ := by
  refine ⟨rfl, by decide, by decide⟩

/-- Claim C15, amended. For every ingress and every annotation set the store
holds for it, the list `extractTargetGroupBackends` returns is made of backends of
the ingress itself (default backend, rule paths), none of which has a port that
is an action placeholder, followed by the backends of the forward-action targets
of the annotations, which are kept whatever their port. So a backend of the list,
and a key of the `TargetGroupGroup` that `Reconcile` builds, has a placeholder
port only if it is the backend of such a target. -/
theorem extractTargetGroupBackends_placeholder_only_from_action_target (store : Storer)
    (use : String → Bool) (ingress : Ingress) (ingAnnos : IngressAnnos)
    (hannos : store.GetIngressAnnotations (IngressKey ingress) = .ok ingAnnos) :
    (∃ kept, extractTargetGroupBackends store use ingress =
        .ok (kept ++ ingAnnos.Action.Actions.flatMap actionBackends) ∧
      ∀ b ∈ kept, b ∈ specBackends ingress ∧ use b.ServicePort.String_ = false) ∧
    (∀ (σ : Type) (tgController : Controller σ) (nameTagGen : NameTagGenerator) (s : σ)
      (b : IngressBackend),
      (Reconcile store use tgController nameTagGen ingress s).group.TGByBackend.get? b ≠ none →
      use b.ServicePort.String_ = true →
      b ∈ ingAnnos.Action.Actions.flatMap actionBackends) := by
  have hext := extractTargetGroupBackends.eq_of_annos store use ingress ingAnnos hannos
  constructor
  · refine ⟨_, hext, ?_⟩
    intro b hb
    rw [List.mem_filter] at hb
    exact ⟨hb.1, by simpa using hb.2⟩
  · intro σ tgController nameTagGen s b hkey huse
    unfold Reconcile at hkey
    simp only [hext] at hkey
    cases hr : (Reconcile.loop tgController ingress
        ((specBackends ingress).filter (fun b => !use b.ServicePort.String_) ++
          ingAnnos.Action.Actions.flatMap actionBackends) GoMap.empty s).err with
    | some e =>
      simp only [hr] at hkey
      exact absurd rfl hkey
    | none =>
      simp only [hr] at hkey
      rcases Reconcile.loop_keys tgController ingress _ GoMap.empty s b hkey with h1 | h1
      · exact absurd rfl h1
      · rcases List.mem_append.mp h1 with h2 | h2
        · rw [List.mem_filter] at h2
          have := h2.2
          simp [huse] at this
        · exact h2

/-- Witness of C15: the example ingress, whose path backend with the port
`use-annotation` is dropped, with a forward action on svc-c:443. -/
theorem extractTargetGroupBackends_placeholder_only_from_action_target_witness :
    ∃ kept, extractTargetGroupBackends
        (exIngressStore [⟨some "forward", ⟨[⟨some "svc-c", some "443"⟩]⟩⟩]) exUse exIngress =
        .ok (kept ++ [(⟨some "forward", ⟨[⟨some "svc-c", some "443"⟩]⟩⟩ : Action)].flatMap
          actionBackends) ∧
      ∀ b ∈ kept, b ∈ specBackends exIngress ∧ exUse b.ServicePort.String_ = false :=
  (extractTargetGroupBackends_placeholder_only_from_action_target
    (exIngressStore [⟨some "forward", ⟨[⟨some "svc-c", some "443"⟩]⟩⟩]) exUse exIngress
    { Action := { Actions := [⟨some "forward", ⟨[⟨some "svc-c", some "443"⟩]⟩⟩] } } rfl).1

end tg

namespace webhooks

theorem checkRequiredFields_of_some (tgb : TargetGroupBinding) (t : String)
    (htype : tgb.Spec.TargetType = some t) : checkRequiredFields tgb = none := by
  simp [checkRequiredFields, htype]

theorem checkRequiredFields_of_none (tgb : TargetGroupBinding)
    (htype : tgb.Spec.TargetType = none) :
    checkRequiredFields tgb =
      some (.error "TargetGroupBinding must specify these fields: spec.targetType") := by
  simp only [checkRequiredFields, htype]
  decide

/-- The loop over the listed bindings rejects iff one of them has the ARN, and
then with an error. -/
theorem checkExistingTargetGroups.loop_ne_none (tgb : TargetGroupBinding)
    (items : List TargetGroupBinding) :
    (checkExistingTargetGroups.loop tgb items ≠ none ↔
      ∃ x ∈ items, x.Spec.TargetGroupARN = tgb.Spec.TargetGroupARN) ∧
    (∀ msg, checkExistingTargetGroups.loop tgb items ≠ some (.panicked msg)) := by
  induction items with
  | nil => simp [checkExistingTargetGroups.loop]
  | cons x xs ih =>
    unfold checkExistingTargetGroups.loop
    by_cases hx : x.Spec.TargetGroupARN = tgb.Spec.TargetGroupARN
    · simp [hx]
    · simp only [hx, if_false, List.mem_cons, exists_eq_or_imp, false_or]
      exact ih

theorem ValidateCreate_of_passing {σ : Type} (v : targetGroupBindingValidator σ)
    (tgb : TargetGroupBinding) (s : σ) (t : String)
    (htype : tgb.Spec.TargetType = some t) (hsel : checkNodeSelector tgb = none) :
    (ValidateCreate v tgb s).result = (checkExistingTargetGroups v tgb s).result := by
  unfold ValidateCreate
  simp only [checkRequiredFields_of_some tgb t htype, hsel]
  cases (checkExistingTargetGroups v tgb s).result <;> rfl

/-- Claim C16. For every binding that has a target type and passes the
node-selector check, and every outcome of the listing of the existing bindings,
`ValidateCreate` rejects the binding iff the listing fails or some listed binding
has the same `targetGroupARN`, and it never panics. With a binding for `arn:1` in
the cluster, the create of a binding for `arn:1` is rejected and the create of a
binding for `arn:2` is accepted. -/
theorem ValidateCreate_rejects_iff_arn_is_bound {σ : Type}
    (v : targetGroupBindingValidator σ) (tgb : TargetGroupBinding) (s : σ) (t : String)
    (htype : tgb.Spec.TargetType = some t) (hsel : checkNodeSelector tgb = none) :
    (∀ e s', v.k8sClient.List s = (.error e, s') →
      (ValidateCreate v tgb s).result =
        some (.error ("failed to list TargetGroupBindings in the cluster: " ++ e))) ∧
    (∀ items s', v.k8sClient.List s = (.ok items, s') →
      ((ValidateCreate v tgb s).result ≠ none ↔
        ∃ x ∈ items, x.Spec.TargetGroupARN = tgb.Spec.TargetGroupARN) ∧
      ∀ msg, (ValidateCreate v tgb s).result ≠ some (.panicked msg)) ∧
    (ValidateCreate exValidator (exBinding "new" "arn:1" (some "ip") none)
        [exBinding "existing" "arn:1" (some "instance") none]).result =
      some (.error "TargetGroup arn:1 is already bound to TargetGroupBinding prod/existing") ∧
    (ValidateCreate exValidator (exBinding "new" "arn:2" (some "ip") none)
        [exBinding "existing" "arn:1" (some "instance") none]).result = none := by
  refine ⟨?_, ?_, by decide, by decide⟩
  · intro e s' hlist
    rw [ValidateCreate_of_passing v tgb s t htype hsel]
    simp [checkExistingTargetGroups, hlist]
  · intro items s' hlist
    rw [ValidateCreate_of_passing v tgb s t htype hsel]
    simp only [checkExistingTargetGroups, hlist]
    exact checkExistingTargetGroups.loop_ne_none tgb items

/-- Witness of C16: the create of a binding for `arn:1` with target type `ip`
while the listing of the cluster fails. -/
theorem ValidateCreate_rejects_iff_arn_is_bound_witness :
    (ValidateCreate exValidatorDown (exBinding "new" "arn:1" (some "ip") none) []).result =
      some (.error ("failed to list TargetGroupBindings in the cluster: " ++
        "connection refused")) :=
  (ValidateCreate_rejects_iff_arn_is_bound exValidatorDown
    (exBinding "new" "arn:1" (some "ip") none) [] "ip" rfl (by decide)).1
    "connection refused" [] rfl

/-- The immutable-fields check rejects a change of the ARN or of the target type. -/
theorem checkImmutableFields_of_changed (tgb oldTGB : TargetGroupBinding) (t : String)
    (htype : tgb.Spec.TargetType = some t)
    (hchg : tgb.Spec.TargetGroupARN ≠ oldTGB.Spec.TargetGroupARN ∨
      tgb.Spec.TargetType ≠ oldTGB.Spec.TargetType) :
    ∃ msg, checkImmutableFields tgb oldTGB = some (.error msg) := by
  unfold checkImmutableFields
  simp only [htype]
  cases hold : oldTGB.Spec.TargetType with
  | none =>
    by_cases harn : tgb.Spec.TargetGroupARN = oldTGB.Spec.TargetGroupARN <;>
      simp [harn]
  | some t' =>
    by_cases harn : tgb.Spec.TargetGroupARN = oldTGB.Spec.TargetGroupARN
    · have ht : t ≠ t' := by
        rcases hchg with h | h
        · exact absurd harn h
        · intro heq
          apply h
          rw [htype, hold, heq]
      simp [harn, ht]
    · by_cases ht : t = t' <;> simp [harn, ht]

/-- Claim C17. For every old and new binding, `ValidateUpdate` returns an error
whenever the new `targetGroupARN` differs from the old one or the new
`targetType` differs from the old one, a change between absent and present
included. The update of the ARN from `arn:1` to `arn:2` is rejected, and so is
the update of the target type from `ip` to `instance`. -/
theorem ValidateUpdate_rejects_changed_immutable_fields {σ : Type}
    (v : targetGroupBindingValidator σ) (tgb oldTgb : TargetGroupBinding) (s : σ)
    (hchg : tgb.Spec.TargetGroupARN ≠ oldTgb.Spec.TargetGroupARN ∨
      tgb.Spec.TargetType ≠ oldTgb.Spec.TargetType) :
    (∃ msg, (ValidateUpdate v tgb oldTgb s).result = some (.error msg)) ∧
    (ValidateUpdate exValidator (exBinding "b" "arn:2" (some "ip") none)
        (exBinding "b" "arn:1" (some "ip") none) []).result =
      some (.error "TargetGroupBinding update may not change these fields: spec.targetGroupARN") ∧
    (ValidateUpdate exValidator (exBinding "b" "arn:1" (some "instance") none)
        (exBinding "b" "arn:1" (some "ip") none) []).result =
      some (.error "TargetGroupBinding update may not change these fields: spec.targetType") := by
  refine ⟨?_, by decide, by decide⟩
  unfold ValidateUpdate
  cases htype : tgb.Spec.TargetType with
  | none =>
    rw [checkRequiredFields_of_none tgb htype]
    exact ⟨_, rfl⟩
  | some t =>
    rw [checkRequiredFields_of_some tgb t htype]
    obtain ⟨msg, hmsg⟩ := checkImmutableFields_of_changed tgb oldTgb t htype hchg
    simp only [hmsg]
    exact ⟨msg, rfl⟩

/-- Witness of C17: the target type goes from present (`ip`) to absent. -/
theorem ValidateUpdate_rejects_changed_immutable_fields_witness :
    ∃ msg, (ValidateUpdate exValidator (exBinding "b" "arn:1" none none)
      (exBinding "b" "arn:1" (some "ip") none) []).result = some (.error msg) :=
  (ValidateUpdate_rejects_changed_immutable_fields exValidator
    (exBinding "b" "arn:1" none none) (exBinding "b" "arn:1" (some "ip") none) []
    (Or.inr (by decide))).1

end webhooks

namespace webhooks

/-- What the node-selector check returns for a binding with a target type. -/
theorem checkNodeSelector_of_some (tgb : TargetGroupBinding) (t : String)
    (htype : tgb.Spec.TargetType = some t) :
    checkNodeSelector tgb =
      if t = TargetTypeIP ∧ tgb.Spec.NodeSelector ≠ none then
        some (.error "TargetGroupBinding cannot set NodeSelector when TargetType is ip")
      else none := by
  simp only [checkNodeSelector, htype]

/-- Claim C18. For every binding with a target type present, `checkNodeSelector`
rejects the binding iff a node selector is set and the target type is `ip`, and
then with its error; so every other target type permits a node selector and a
binding without node selector passes for every target type. Both `ValidateCreate`
and `ValidateUpdate` run the check: they return its error when the checks before
it pass. -/
theorem checkNodeSelector_rejects_iff_ip_with_selector (tgb : TargetGroupBinding)
    (t : String) (htype : tgb.Spec.TargetType = some t) :
    (checkNodeSelector tgb ≠ none ↔ (tgb.Spec.NodeSelector ≠ none ∧ t = TargetTypeIP)) ∧
    (checkNodeSelector tgb ≠ none → checkNodeSelector tgb =
      some (.error "TargetGroupBinding cannot set NodeSelector when TargetType is ip")) ∧
    (t ≠ TargetTypeIP → checkNodeSelector tgb = none) ∧
    (tgb.Spec.NodeSelector = none → checkNodeSelector tgb = none) ∧
    (∀ (σ : Type) (v : targetGroupBindingValidator σ) (s : σ),
      checkNodeSelector tgb ≠ none →
      (ValidateCreate v tgb s).result = checkNodeSelector tgb ∧
      (ValidateCreate v tgb s).calls = []) ∧
    (∀ (σ : Type) (v : targetGroupBindingValidator σ) (oldTgb : TargetGroupBinding) (s : σ),
      checkImmutableFields tgb oldTgb = none → checkNodeSelector tgb ≠ none →
      (ValidateUpdate v tgb oldTgb s).result = checkNodeSelector tgb) := by
  have hval := checkNodeSelector_of_some tgb t htype
  refine ⟨?_, ?_, ?_, ?_, ?_, ?_⟩
  · rw [hval]
    by_cases h : t = TargetTypeIP ∧ tgb.Spec.NodeSelector ≠ none
    · simp only [h, and_self, if_true, ne_eq, not_false_eq_true]
      simp
    · simp only [h, if_false, ne_eq, not_true_eq_false, false_iff]
      intro h'
      exact h ⟨h'.2, h'.1⟩
  · intro hne
    rw [hval] at hne ⊢
    by_cases h : t = TargetTypeIP ∧ tgb.Spec.NodeSelector ≠ none
    · rw [if_pos h]
    · rw [if_neg h] at hne
      exact absurd rfl hne
  · intro ht
    rw [hval]
    simp [ht]
  · intro hsel
    rw [hval]
    simp [hsel]
  · intro σ v s hne
    unfold ValidateCreate
    rw [checkRequiredFields_of_some tgb t htype]
    cases hc : checkNodeSelector tgb with
    | none => exact absurd hc hne
    | some err => exact ⟨rfl, rfl⟩
  · intro σ v oldTgb s himm hne
    unfold ValidateUpdate
    rw [checkRequiredFields_of_some tgb t htype]
    simp only [himm]
    cases hc : checkNodeSelector tgb with
    | none => exact absurd hc hne
    | some err => rfl

/-- Witness of C18: a binding of target type `ip` with a node selector. -/
theorem checkNodeSelector_rejects_iff_ip_with_selector_witness :
    checkNodeSelector (exBinding "b" "arn:1" (some "ip") (some exNodeSelector)) ≠ none ∧
    (ValidateCreate exValidator (exBinding "b" "arn:1" (some "ip") (some exNodeSelector))
      []).result =
      some (.error "TargetGroupBinding cannot set NodeSelector when TargetType is ip") := by
  have h := checkNodeSelector_rejects_iff_ip_with_selector
    (exBinding "b" "arn:1" (some "ip") (some exNodeSelector)) "ip" rfl
  have hne : checkNodeSelector (exBinding "b" "arn:1" (some "ip") (some exNodeSelector))
      ≠ none := h.1.mpr ⟨by decide, rfl⟩
  refine ⟨hne, ?_⟩
  rw [(h.2.2.2.2.1 _ exValidator [] hne).1]
  exact h.2.1 hne

/-- Claim C19, the code at the failing input. A binding of target type `instance`
with a node selector is accepted by `checkNodeSelector`, and so by `ValidateCreate`
when no other binding has its ARN: its node selector is set and its target type
is not `ip`. And the binding of target type `ip` with the same node selector is
rejected. -/
theorem checkNodeSelector_accepts_selector_on_instance :
    checkNodeSelector (exBinding "b" "arn:1" (some "instance") (some exNodeSelector)) = none ∧
    (exBinding "b" "arn:1" (some "instance") (some exNodeSelector)).Spec.NodeSelector ≠ none ∧
    (exBinding "b" "arn:1" (some "instance") (some exNodeSelector)).Spec.TargetType ≠
      some TargetTypeIP ∧
    checkNodeSelector (exBinding "b" "arn:1" (some "ip") (some exNodeSelector)) =
      some (.error "TargetGroupBinding cannot set NodeSelector when TargetType is ip") ∧
    (ValidateCreate exValidator
      (exBinding "b" "arn:1" (some "instance") (some exNodeSelector)) []).result = none := by
  refine ⟨by decide, by decide, by decide, by decide, by decide⟩

/-- Claim C20. `ValidateUpdate` issues no call on the cluster client, leaves the
state as it is, and its result is the same for every validator and every state
of the cluster: it is a function of the old and the new object. For every
old/new pair with the target type present, the ARN and the target type unchanged
and the node-selector check passing it accepts, whatever bindings exist; the
removal of the node selector of a binding of target type `instance` is accepted
even when the cluster holds another binding with the same ARN. -/
theorem ValidateUpdate_reads_only_old_and_new {σ : Type} (v : targetGroupBindingValidator σ)
    (tgb oldTgb : TargetGroupBinding) (s : σ) :
    (ValidateUpdate v tgb oldTgb s).calls = [] ∧
    (ValidateUpdate v tgb oldTgb s).state = s ∧
    (∀ (τ : Type) (v' : targetGroupBindingValidator τ) (s' : τ),
      (ValidateUpdate v' tgb oldTgb s').result = (ValidateUpdate v tgb oldTgb s).result) ∧
    (∀ t, tgb.Spec.TargetType = some t → oldTgb.Spec.TargetType = some t →
      tgb.Spec.TargetGroupARN = oldTgb.Spec.TargetGroupARN → checkNodeSelector tgb = none →
      (ValidateUpdate v tgb oldTgb s).result = none) ∧
    (ValidateUpdate exValidator (exBinding "b" "arn:1" (some "instance") none)
        (exBinding "b" "arn:1" (some "instance") (some exNodeSelector))
        [exBinding "b" "arn:1" (some "instance") (some exNodeSelector),
          exBinding "other" "arn:1" (some "ip") none]).result = none := by
  refine ⟨?_, ?_, ?_, ?_, by decide⟩
  · unfold ValidateUpdate
    cases checkRequiredFields tgb <;> cases checkImmutableFields tgb oldTgb <;>
      cases checkNodeSelector tgb <;> rfl
  · unfold ValidateUpdate
    cases checkRequiredFields tgb <;> cases checkImmutableFields tgb oldTgb <;>
      cases checkNodeSelector tgb <;> rfl
  · intro τ v' s'
    unfold ValidateUpdate
    cases checkRequiredFields tgb <;> cases checkImmutableFields tgb oldTgb <;>
      cases checkNodeSelector tgb <;> rfl
  · intro t htype hold harn hsel
    unfold ValidateUpdate
    rw [checkRequiredFields_of_some tgb t htype, hsel]
    have himm : checkImmutableFields tgb oldTgb = none := by
      simp [checkImmutableFields, htype, hold, harn]
    simp only [himm]

end webhooks

namespace webhooks

/-- Claim C21. For every binding whose `targetType` is absent, `ValidateCreate`
and `ValidateUpdate` both return the required-fields error that names
`spec.targetType`, before any other check: nothing is listed on the cluster
client, the state is left as it is, and the result is not the panic of the
node-selector check, which would dereference the absent target type. -/
theorem Validate_absent_targetType_required_fields_error {σ : Type}
    (v : targetGroupBindingValidator σ) (tgb oldTgb : TargetGroupBinding) (s : σ)
    (htype : tgb.Spec.TargetType = none) :
    (ValidateCreate v tgb s).result =
      some (.error "TargetGroupBinding must specify these fields: spec.targetType") ∧
    (ValidateCreate v tgb s).calls = [] ∧
    (ValidateCreate v tgb s).state = s ∧
    (ValidateUpdate v tgb oldTgb s).result =
      some (.error "TargetGroupBinding must specify these fields: spec.targetType") ∧
    (ValidateUpdate v tgb oldTgb s).calls = [] ∧
    (ValidateUpdate v tgb oldTgb s).state = s ∧
    checkNodeSelector tgb =
      some (.panicked "runtime error: invalid memory address or nil pointer dereference") := by
  have hreq := checkRequiredFields_of_none tgb htype
  refine ⟨?_, ?_, ?_, ?_, ?_, ?_, ?_⟩
  · simp only [ValidateCreate, hreq]
  · simp only [ValidateCreate, hreq]
  · simp only [ValidateCreate, hreq]
  · simp only [ValidateUpdate, hreq]
  · simp only [ValidateUpdate, hreq]
  · simp only [ValidateUpdate, hreq]
  · simp only [checkNodeSelector, htype]

/-- Witness of C21: a binding without target type and with a node selector,
while the cluster holds a binding with the same ARN. -/
theorem Validate_absent_targetType_required_fields_error_witness :
    (ValidateCreate exValidator (exBinding "new" "arn:1" none (some exNodeSelector))
        [exBinding "existing" "arn:1" (some "ip") none]).result =
      some (.error "TargetGroupBinding must specify these fields: spec.targetType") ∧
    (ValidateCreate exValidator (exBinding "new" "arn:1" none (some exNodeSelector))
        [exBinding "existing" "arn:1" (some "ip") none]).calls = [] :=
  ⟨(Validate_absent_targetType_required_fields_error exValidator
      (exBinding "new" "arn:1" none (some exNodeSelector))
      (exBinding "new" "arn:1" (some "ip") none)
      [exBinding "existing" "arn:1" (some "ip") none] rfl).1,
    (Validate_absent_targetType_required_fields_error exValidator
      (exBinding "new" "arn:1" none (some exNodeSelector))
      (exBinding "new" "arn:1" (some "ip") none)
      [exBinding "existing" "arn:1" (some "ip") none] rfl).2.1⟩

end webhooks

/-- A loop whose body succeeds on the items of `pre` and fails on the next item
`x` ends there: with the error of `x`, the calls of `pre` and of `x`, and the
state `x` left. -/
theorem forEach_abort {α C σ : Type} (f : α → σ → Ran C σ) (x : α) (post : List α)
    (e : String) :
    ∀ (pre : List α) (s : σ), (forEach f pre s).err = none →
      (f x (forEach f pre s).state).err = some e →
      (forEach f (pre ++ x :: post) s).err = some e ∧
      (forEach f (pre ++ x :: post) s).calls =
        (forEach f pre s).calls ++ (f x (forEach f pre s).state).calls ∧
      (forEach f (pre ++ x :: post) s).state = (f x (forEach f pre s).state).state := by
  intro pre
  induction pre with
  | nil =>
    intro s _ hx
    have hx' : (f x s).err = some e := hx
    simp only [List.nil_append, forEach, Ran.andThen, hx', List.nil_append, and_self]
  | cons p pre ih =>
    intro s hpre hx
    have hp : (f p s).err = none ∧ (forEach f pre (f p s).state).err = none := by
      have h := hpre
      simp only [forEach] at h
      exact (Ran.andThen_err_none _ _).mp h
    have hstate : (forEach f (p :: pre) s).state = (forEach f pre (f p s).state).state := by
      simp only [forEach]
      exact Ran.andThen_state_of_ok _ _ hp.1
    have hcalls : (forEach f (p :: pre) s).calls =
        (f p s).calls ++ (forEach f pre (f p s).state).calls := by
      simp only [forEach]
      exact Ran.andThen_calls_of_ok _ _ hp.1
    rw [hstate] at hx ⊢
    obtain ⟨h1, h2, h3⟩ := ih (f p s).state hp.2 hx
    rw [hcalls]
    simp only [List.cons_append, forEach, Ran.andThen, hp.1]
    refine ⟨h1, ?_, h3⟩
    show (f p s).calls ++ (forEach f (pre ++ x :: post) (f p s).state).calls = _
    rw [h2, List.append_assoc]

namespace ls

theorem addStep_err {σ : Type} (cloud : CloudAPI σ) (lsArn certARN : String) (s : σ) :
    (reconcileExtraCertificates.addStep cloud lsArn certARN s).err =
      (cloud.AddListenerCertificates (reconcileExtraCertificates.input lsArn certARN) s).1 := by
  unfold reconcileExtraCertificates.addStep
  split <;> rename_i h <;> rw [h]

theorem removeStep_err {σ : Type} (cloud : CloudAPI σ) (lsArn certARN : String) (s : σ) :
    (reconcileExtraCertificates.removeStep cloud lsArn certARN s).err =
      (cloud.RemoveListenerCertificates (reconcileExtraCertificates.input lsArn certARN) s).1 := by
  unfold reconcileExtraCertificates.removeStep
  split <;> rename_i h <;> rw [h]

/-- Claim C24. In `reconcileExtraCertificates` the first failing call aborts the
pass. If the describe call fails, its error is returned and it is the only call.
If the describe call succeeds, the attach calls before some certificate succeed
and the attach call of that certificate fails, then its error is returned, the
calls are the describe call and the attach calls up to and including the failing
one, and no detach call is issued. If all attach calls succeed, the detach calls
before some certificate succeed and the detach call of that certificate fails,
then its error is returned and the failing detach call is the last call. -/
theorem reconcileExtraCertificates_first_failure_aborts {σ : Type} (cloud : CloudAPI σ)
    (oAdd oRemove : RangeOrder) (lsArn : String) (extraCertificateARNs : List String) (s : σ) :
    (∀ (err : String) (s' : σ),
      cloud.DescribeListenerCertificates lsArn s = (.error err, s') →
      (reconcileExtraCertificates cloud oAdd oRemove lsArn extraCertificateARNs s).err
        = some err ∧
      (reconcileExtraCertificates cloud oAdd oRemove lsArn extraCertificateARNs s).calls
        = [Call.DescribeListenerCertificates lsArn]) ∧
    (∀ (certificates : List elbv2sdk.Certificate) (s' : σ) (pre : List String)
      (certARN : String) (post : List String) (err : String),
      cloud.DescribeListenerCertificates lsArn s = (.ok certificates, s') →
      oAdd.apply ((GoSet.New extraCertificateARNs).Difference
        (reconcileExtraCertificates.actualExtra certificates)).elems = pre ++ certARN :: post →
      (forEach (reconcileExtraCertificates.addStep cloud lsArn) pre s').err = none →
      (cloud.AddListenerCertificates (reconcileExtraCertificates.input lsArn certARN)
        (forEach (reconcileExtraCertificates.addStep cloud lsArn) pre s').state).1 = some err →
      (reconcileExtraCertificates cloud oAdd oRemove lsArn extraCertificateARNs s).err
        = some err ∧
      (reconcileExtraCertificates cloud oAdd oRemove lsArn extraCertificateARNs s).calls
        = Call.DescribeListenerCertificates lsArn ::
          (pre ++ [certARN]).map (fun a => Call.AddListenerCertificates
            (reconcileExtraCertificates.input lsArn a)) ∧
      (∀ input, Call.RemoveListenerCertificates input ∉
        (reconcileExtraCertificates cloud oAdd oRemove lsArn extraCertificateARNs s).calls)) ∧
    (∀ (certificates : List elbv2sdk.Certificate) (s' : σ) (pre : List String)
      (certARN : String) (post : List String) (err : String),
      cloud.DescribeListenerCertificates lsArn s = (.ok certificates, s') →
      (forEach (reconcileExtraCertificates.addStep cloud lsArn)
        (oAdd.apply ((GoSet.New extraCertificateARNs).Difference
          (reconcileExtraCertificates.actualExtra certificates)).elems) s').err = none →
      oRemove.apply ((reconcileExtraCertificates.actualExtra certificates).Difference
        (GoSet.New extraCertificateARNs)).elems = pre ++ certARN :: post →
      (forEach (reconcileExtraCertificates.removeStep cloud lsArn) pre
        (forEach (reconcileExtraCertificates.addStep cloud lsArn)
          (oAdd.apply ((GoSet.New extraCertificateARNs).Difference
            (reconcileExtraCertificates.actualExtra certificates)).elems) s').state).err
        = none →
      (cloud.RemoveListenerCertificates (reconcileExtraCertificates.input lsArn certARN)
        (forEach (reconcileExtraCertificates.removeStep cloud lsArn) pre
          (forEach (reconcileExtraCertificates.addStep cloud lsArn)
            (oAdd.apply ((GoSet.New extraCertificateARNs).Difference
              (reconcileExtraCertificates.actualExtra certificates)).elems) s').state).state).1
        = some err →
      (reconcileExtraCertificates cloud oAdd oRemove lsArn extraCertificateARNs s).err
        = some err ∧
      (reconcileExtraCertificates cloud oAdd oRemove lsArn extraCertificateARNs s).calls
        = Call.DescribeListenerCertificates lsArn ::
          ((oAdd.apply ((GoSet.New extraCertificateARNs).Difference
              (reconcileExtraCertificates.actualExtra certificates)).elems).map
            (fun a => Call.AddListenerCertificates
              (reconcileExtraCertificates.input lsArn a)) ++
          (pre ++ [certARN]).map (fun a => Call.RemoveListenerCertificates
            (reconcileExtraCertificates.input lsArn a)))) := by
  refine ⟨?_, ?_, ?_⟩
  · intro err s' hdesc
    simp only [reconcileExtraCertificates, hdesc, and_self]
  · intro certificates s' pre certARN post err hdesc hsplit hpre hfail
    have hx : (reconcileExtraCertificates.addStep cloud lsArn certARN
        (forEach (reconcileExtraCertificates.addStep cloud lsArn) pre s').state).err
        = some err := by
      rw [addStep_err]; exact hfail
    obtain ⟨h1, h2, _⟩ := forEach_abort _ certARN post err pre s' hpre hx
    have hcalls : (reconcileExtraCertificates cloud oAdd oRemove lsArn
        extraCertificateARNs s).calls
        = Call.DescribeListenerCertificates lsArn ::
          (pre ++ [certARN]).map (fun a => Call.AddListenerCertificates
            (reconcileExtraCertificates.input lsArn a)) := by
      simp only [reconcileExtraCertificates, hdesc, hsplit]
      rw [Ran.andThen_calls_of_err _ _ (by rw [h1]; simp), h2,
        forEach_calls_of_ok _ _ (addStep_calls cloud lsArn) _ _ hpre, addStep_calls]
      simp only [List.map_append, List.map_cons, List.map_nil]
    refine ⟨?_, hcalls, ?_⟩
    · simp only [reconcileExtraCertificates, hdesc, hsplit]
      simp only [Ran.andThen, h1]
    · intro input hmem
      rw [hcalls] at hmem
      simp only [List.mem_cons, List.mem_map, List.mem_append, List.mem_singleton,
        reduceCtorEq, and_false, exists_false, or_self] at hmem
  · intro certificates s' pre certARN post err hdesc hadd hsplit hpre hfail
    have hx : (reconcileExtraCertificates.removeStep cloud lsArn certARN
        (forEach (reconcileExtraCertificates.removeStep cloud lsArn) pre
          (forEach (reconcileExtraCertificates.addStep cloud lsArn)
            (oAdd.apply ((GoSet.New extraCertificateARNs).Difference
              (reconcileExtraCertificates.actualExtra certificates)).elems) s').state).state).err
        = some err := by
      rw [removeStep_err]; exact hfail
    obtain ⟨h1, h2, _⟩ := forEach_abort _ certARN post err pre _ hpre hx
    refine ⟨?_, ?_⟩
    · simp only [reconcileExtraCertificates, hdesc, hsplit]
      simp only [Ran.andThen, hadd, h1]
    · simp only [reconcileExtraCertificates, hdesc, hsplit]
      rw [Ran.andThen_calls_of_ok _ _ hadd, h2,
        forEach_calls_of_ok _ _ (addStep_calls cloud lsArn) _ _ hadd,
        forEach_calls_of_ok _ _ (removeStep_calls cloud lsArn) _ _ hpre, removeStep_calls]
      simp only [List.map_append, List.map_cons, List.map_nil]

end ls

namespace ls

/-- Witness of C24: a failing describe call; attached certificates D (default), A
and B with desired extras B, C and E, where attaching E fails after C was
attached; and the same certificates with desired extras B and C, where detaching A
fails. -/
theorem reconcileExtraCertificates_first_failure_aborts_witness :
    ((reconcileExtraCertificates exCloudDescribeFailing RangeOrder.stored RangeOrder.stored
        "arn:ls/1" ["arn:cert/C"] ⟨[], []⟩).err = some "AccessDenied" ∧
      (reconcileExtraCertificates exCloudDescribeFailing RangeOrder.stored RangeOrder.stored
        "arn:ls/1" ["arn:cert/C"] ⟨[], []⟩).calls
        = [Call.DescribeListenerCertificates "arn:ls/1"]) ∧
    ((reconcileExtraCertificates (exCloud ["arn:cert/E"]) RangeOrder.stored RangeOrder.stored
        "arn:ls/1" ["arn:cert/B", "arn:cert/C", "arn:cert/E"]
        ⟨[], [exCert "arn:cert/D" true, exCert "arn:cert/A" false,
          exCert "arn:cert/B" false]⟩).err = some "Throttling" ∧
      (reconcileExtraCertificates (exCloud ["arn:cert/E"]) RangeOrder.stored RangeOrder.stored
        "arn:ls/1" ["arn:cert/B", "arn:cert/C", "arn:cert/E"]
        ⟨[], [exCert "arn:cert/D" true, exCert "arn:cert/A" false,
          exCert "arn:cert/B" false]⟩).calls
        = [Call.DescribeListenerCertificates "arn:ls/1",
          Call.AddListenerCertificates
            (reconcileExtraCertificates.input "arn:ls/1" "arn:cert/C"),
          Call.AddListenerCertificates
            (reconcileExtraCertificates.input "arn:ls/1" "arn:cert/E")]) ∧
    ((reconcileExtraCertificates (exCloud ["arn:cert/A"]) RangeOrder.stored RangeOrder.stored
        "arn:ls/1" ["arn:cert/B", "arn:cert/C"]
        ⟨[], [exCert "arn:cert/D" true, exCert "arn:cert/A" false,
          exCert "arn:cert/B" false]⟩).err = some "Throttling" ∧
      (reconcileExtraCertificates (exCloud ["arn:cert/A"]) RangeOrder.stored RangeOrder.stored
        "arn:ls/1" ["arn:cert/B", "arn:cert/C"]
        ⟨[], [exCert "arn:cert/D" true, exCert "arn:cert/A" false,
          exCert "arn:cert/B" false]⟩).calls
        = [Call.DescribeListenerCertificates "arn:ls/1",
          Call.AddListenerCertificates
            (reconcileExtraCertificates.input "arn:ls/1" "arn:cert/C"),
          Call.RemoveListenerCertificates
            (reconcileExtraCertificates.input "arn:ls/1" "arn:cert/A")]) :=
  ⟨(reconcileExtraCertificates_first_failure_aborts exCloudDescribeFailing RangeOrder.stored
      RangeOrder.stored "arn:ls/1" ["arn:cert/C"] ⟨[], []⟩).1 "AccessDenied" ⟨[], []⟩ rfl,
    ⟨((reconcileExtraCertificates_first_failure_aborts (exCloud ["arn:cert/E"])
        RangeOrder.stored RangeOrder.stored "arn:ls/1"
        ["arn:cert/B", "arn:cert/C", "arn:cert/E"]
        ⟨[], [exCert "arn:cert/D" true, exCert "arn:cert/A" false,
          exCert "arn:cert/B" false]⟩).2.1
        [exCert "arn:cert/D" true, exCert "arn:cert/A" false, exCert "arn:cert/B" false]
        ⟨[], [exCert "arn:cert/D" true, exCert "arn:cert/A" false, exCert "arn:cert/B" false]⟩
        ["arn:cert/C"] "arn:cert/E" [] "Throttling" rfl (by decide) (by decide)
        (by decide)).1,
      ((reconcileExtraCertificates_first_failure_aborts (exCloud ["arn:cert/E"])
        RangeOrder.stored RangeOrder.stored "arn:ls/1"
        ["arn:cert/B", "arn:cert/C", "arn:cert/E"]
        ⟨[], [exCert "arn:cert/D" true, exCert "arn:cert/A" false,
          exCert "arn:cert/B" false]⟩).2.1
        [exCert "arn:cert/D" true, exCert "arn:cert/A" false, exCert "arn:cert/B" false]
        ⟨[], [exCert "arn:cert/D" true, exCert "arn:cert/A" false, exCert "arn:cert/B" false]⟩
        ["arn:cert/C"] "arn:cert/E" [] "Throttling" rfl (by decide) (by decide)
        (by decide)).2.1⟩,
    (reconcileExtraCertificates_first_failure_aborts (exCloud ["arn:cert/A"])
      RangeOrder.stored RangeOrder.stored "arn:ls/1" ["arn:cert/B", "arn:cert/C"]
      ⟨[], [exCert "arn:cert/D" true, exCert "arn:cert/A" false,
        exCert "arn:cert/B" false]⟩).2.2
      [exCert "arn:cert/D" true, exCert "arn:cert/A" false, exCert "arn:cert/B" false]
      ⟨[], [exCert "arn:cert/D" true, exCert "arn:cert/A" false, exCert "arn:cert/B" false]⟩
      [] "arn:cert/A" [] "Throttling" rfl (by decide) (by decide) (by decide) (by decide)⟩

end ls

theorem Ran.mem_andThen_calls {C σ : Type} (r : Ran C σ) (k : σ → Ran C σ) (c : C)
    (h : c ∈ (r.andThen k).calls) : c ∈ r.calls ∨ c ∈ (k r.state).calls := by
  unfold Ran.andThen at h
  cases hr : r.err with
  | some e =>
    simp only [hr] at h
    exact Or.inl h
  | none =>
    simp only [hr, List.mem_append] at h
    exact h

/-- Every call of a loop is a call of its body on one of the items. -/
theorem forEach_exists_mem {α C σ : Type} (Q : α → C → Prop) (f : α → σ → Ran C σ)
    (hf : ∀ x s, ∀ c ∈ (f x s).calls, Q x c) :
    ∀ (xs : List α) (s : σ), ∀ c ∈ (forEach f xs s).calls, ∃ x ∈ xs, Q x c := by
  intro xs
  induction xs with
  | nil => intro s c hc; simp [forEach] at hc
  | cons x xs ih =>
    intro s c hc
    unfold forEach at hc
    rcases Ran.mem_andThen_calls _ _ c hc with h | h
    · exact ⟨x, List.mem_cons_self _ _, hf x s c h⟩
    · obtain ⟨y, hy, hq⟩ := ih _ c h
      exact ⟨y, List.mem_cons_of_mem _ hy, hq⟩

theorem Ran.andThen_assoc {C σ : Type} (r : Ran C σ) (k k' : σ → Ran C σ) :
    (r.andThen k).andThen k' = r.andThen (fun s => (k s).andThen k') := by
  unfold Ran.andThen
  cases hr : r.err with
  | some e => simp only [hr]
  | none =>
    simp only [hr]
    cases hk : (k r.state).err with
    | some e => simp only [hk]
    | none => simp only [hk, List.append_assoc]

/-- A loop over a concatenation is the loop over the first part followed by the
loop over the second. -/
theorem forEach_append {α C σ : Type} (f : α → σ → Ran C σ) (ys : List α) :
    ∀ (xs : List α) (s : σ),
      forEach f (xs ++ ys) s = (forEach f xs s).andThen (forEach f ys) := by
  intro xs
  induction xs with
  | nil =>
    intro s
    simp only [List.nil_append, forEach, Ran.andThen]
  | cons x xs ih =>
    intro s
    have hfun : forEach f (xs ++ ys) = fun s1 => (forEach f xs s1).andThen (forEach f ys) :=
      funext ih
    show (f x s).andThen (forEach f (xs ++ ys)) =
      ((f x s).andThen (forEach f xs)).andThen (forEach f ys)
    rw [hfun, Ran.andThen_assoc]

/-- In a loop that ends without error each item is visited at the state the items
before it left, its body ends without error, and its calls stand in the log
between those of the items before and after it. -/
theorem forEach_split_of_ok {α C σ : Type} (f : α → σ → Ran C σ) (pre : List α) (x : α)
    (post : List α) (s : σ) (h : (forEach f (pre ++ x :: post) s).err = none) :
    (forEach f pre s).err = none ∧ (f x (forEach f pre s).state).err = none ∧
    (forEach f (pre ++ x :: post) s).calls =
      (forEach f pre s).calls ++ ((f x (forEach f pre s).state).calls ++
        (forEach f post (f x (forEach f pre s).state).state).calls) := by
  rw [forEach_append] at h ⊢
  obtain ⟨h1, h2⟩ := (Ran.andThen_err_none _ _).mp h
  have h2' : ((f x (forEach f pre s).state).andThen (forEach f post)).err = none := h2
  obtain ⟨h3, _⟩ := (Ran.andThen_err_none _ _).mp h2'
  refine ⟨h1, h3, ?_⟩
  rw [Ran.andThen_calls_of_ok _ _ h1]
  show _ ++ ((f x (forEach f pre s).state).andThen (forEach f post)).calls = _
  rw [Ran.andThen_calls_of_ok _ _ h3]

namespace GoMap
variable {K α : Type} [DecidableEq K]

/-- In a map filled by `m[key(a)] = a` over a list, a key that occurs in the later
part of the list is bound as in the map filled over that part alone. -/
theorem get?_index_append_of_mem (fk : α → K) (pre post : List α) (k : K)
    (h : k ∈ post.map fk) :
    ((pre ++ post).foldl (fun m a => m.set (fk a) a) GoMap.empty).get? k =
      (post.foldl (fun m a => m.set (fk a) a) GoMap.empty).get? k := by
  unfold get?
  rw [foldl_set_bindings fk (fun a => a), foldl_set_bindings fk (fun a => a)]
  simp only [empty, List.append_nil, List.map_append, List.reverse_append]
  rw [lookup_append]
  have hne : lookup (List.map (fun a => (fk a, a)) post).reverse k ≠ none := by
    rw [lookup_ne_none_iff]
    simpa using h
  cases hl : lookup (List.map (fun a => (fk a, a)) post).reverse k with
  | none => exact absurd hl hne
  | some v => rfl

/-- In a map filled by `m[key(a)] = a` over a list, the last item of a key is the
one bound to it. -/
theorem get?_index_last (fk : α → K) (pre : List α) (x : α) (post : List α)
    (h : fk x ∉ post.map fk) :
    ((pre ++ x :: post).foldl (fun m a => m.set (fk a) a) GoMap.empty).get? (fk x) =
      some x := by
  unfold get?
  rw [foldl_set_bindings fk (fun a => a)]
  simp only [empty, List.append_nil, List.map_append, List.map_cons, List.reverse_append,
    List.reverse_cons, List.append_assoc, List.singleton_append]
  rw [lookup_append]
  have hnone : lookup (List.map (fun a => (fk a, a)) post).reverse (fk x) = none := by
    by_contra hne
    have hmem := (lookup_ne_none_iff _ _).mp hne
    apply h
    simpa using hmem
  rw [hnone]
  simp [lookup]

/-- An item that is followed by another item of the same key, and does not occur
again itself, is not bound in the map filled over the list. -/
theorem get?_index_ne_of_later (fk : α → K) (pre : List α) (x : α) (post : List α)
    (hx : x ∉ post) (h : fk x ∈ post.map fk) :
    ((pre ++ x :: post).foldl (fun m a => m.set (fk a) a) GoMap.empty).get? (fk x) ≠
      some x := by
  have happ : pre ++ x :: post = (pre ++ [x]) ++ post := by simp
  rw [happ, get?_index_append_of_mem fk _ post _ h]
  intro hget
  exact hx (get?_index_some fk post _ x hget).1

end GoMap

namespace deploy

theorem mem_matched_get? (resLSs : List Listener) (sdkLSs : List elbv2sdk.Listener)
    (pair : resAndSDKListenerPair) (h : pair ∈ (matchResAndSDKListeners resLSs sdkLSs).1) :
    (mapResListenerByPort resLSs).get? pair.resLS.Spec.Port = some pair.resLS ∧
    (mapSDKListenerByPort sdkLSs).get? (Int64Value pair.sdkLS.Port) = some pair.sdkLS := by
  unfold matchResAndSDKListeners at h
  simp only [List.mem_filterMap] at h
  obtain ⟨port, _, hp⟩ := h
  cases hr : (mapResListenerByPort resLSs).get? port with
  | none => simp [hr] at hp
  | some r =>
    cases hs : (mapSDKListenerByPort sdkLSs).get? port with
    | none => simp [hr, hs] at hp
    | some a =>
      simp [hr, hs] at hp
      subst hp
      have h1 := get?_mapResListenerByPort resLSs port r hr
      have h2 := get?_mapSDKListenerByPort sdkLSs port a hs
      have h1' : r.Spec.Port = port := h1.2
      have h2' : Int64Value a.Port = port := h2.2
      exact ⟨by rw [h1']; exact hr, by rw [h2']; exact hs⟩

theorem mem_unmatchedRes_get? (resLSs : List Listener) (sdkLSs : List elbv2sdk.Listener)
    (ls : Listener) (h : ls ∈ (matchResAndSDKListeners resLSs sdkLSs).2.1) :
    (mapResListenerByPort resLSs).get? ls.Spec.Port = some ls := by
  unfold matchResAndSDKListeners at h
  simp only [List.mem_filterMap] at h
  obtain ⟨port, _, hp⟩ := h
  have h1 : ls.Spec.Port = port := (get?_mapResListenerByPort resLSs port ls hp).2
  rw [h1]
  exact hp

theorem mem_unmatchedSDK_get? (resLSs : List Listener) (sdkLSs : List elbv2sdk.Listener)
    (ls : elbv2sdk.Listener) (h : ls ∈ (matchResAndSDKListeners resLSs sdkLSs).2.2) :
    (mapSDKListenerByPort sdkLSs).get? (Int64Value ls.Port) = some ls := by
  unfold matchResAndSDKListeners at h
  simp only [List.mem_filterMap] at h
  obtain ⟨port, _, hp⟩ := h
  have h1 : Int64Value ls.Port = port := (get?_mapSDKListenerByPort sdkLSs port ls hp).2
  rw [h1]
  exact hp

theorem mem_unmatchedRes_of_get? (resLSs : List Listener) (sdkLSs : List elbv2sdk.Listener)
    (ls : Listener) (h : (mapResListenerByPort resLSs).get? ls.Spec.Port = some ls)
    (hp : ls.Spec.Port ∉ sdkPorts sdkLSs) :
    ls ∈ (matchResAndSDKListeners resLSs sdkLSs).2.1 := by
  unfold matchResAndSDKListeners
  simp only [List.mem_filterMap]
  refine ⟨ls.Spec.Port, ?_, h⟩
  rw [GoSet.mem_SortedList, GoSet.mem_Difference, mem_keys_mapResListenerByPort,
    mem_keys_mapSDKListenerByPort]
  exact ⟨List.mem_map.mpr ⟨ls, (get?_mapResListenerByPort resLSs _ ls h).1, rfl⟩, hp⟩

theorem mem_unmatchedSDK_of_get? (resLSs : List Listener) (sdkLSs : List elbv2sdk.Listener)
    (ls : elbv2sdk.Listener)
    (h : (mapSDKListenerByPort sdkLSs).get? (Int64Value ls.Port) = some ls)
    (hp : Int64Value ls.Port ∉ resPorts resLSs) :
    ls ∈ (matchResAndSDKListeners resLSs sdkLSs).2.2 := by
  unfold matchResAndSDKListeners
  simp only [List.mem_filterMap]
  refine ⟨Int64Value ls.Port, ?_, h⟩
  rw [GoSet.mem_SortedList, GoSet.mem_Difference, mem_keys_mapResListenerByPort,
    mem_keys_mapSDKListenerByPort]
  exact ⟨List.mem_map.mpr ⟨ls, (get?_mapSDKListenerByPort sdkLSs _ ls h).1, rfl⟩, hp⟩

theorem mem_matched_of_get? (resLSs : List Listener) (sdkLSs : List elbv2sdk.Listener)
    (port : Int) (r : Listener) (a : elbv2sdk.Listener)
    (hr : (mapResListenerByPort resLSs).get? port = some r)
    (ha : (mapSDKListenerByPort sdkLSs).get? port = some a) :
    { resLS := r, sdkLS := a } ∈ (matchResAndSDKListeners resLSs sdkLSs).1 := by
  unfold matchResAndSDKListeners
  simp only [List.mem_filterMap]
  refine ⟨port, ?_, by rw [hr, ha]⟩
  rw [GoSet.mem_SortedList, GoSet.mem_Intersection]
  constructor
  · exact (GoMap.mem_keys_iff_get? _ port).mpr (by rw [hr]; simp)
  · exact (GoMap.mem_keys_iff_get? _ port).mpr (by rw [ha]; simp)

end deploy

namespace GoMap
variable {K α : Type} [DecidableEq K]

/-- A map filled by `m[key(a)] = a` over a list in which a key occurs twice has
fewer keys than the list has items. -/
theorem length_keys_index_lt (fk : α → K) (l : List α) (h : ¬ (l.map fk).Nodup) :
    (l.foldl (fun m a => m.set (fk a) a) GoMap.empty).keys.length < l.length := by
  unfold keys
  rw [foldl_set_bindings fk (fun a => a)]
  simp only [empty, List.append_nil, List.map_reverse, List.map_map]
  have hmap : List.map (Prod.fst ∘ fun a => (fk a, a)) l = l.map fk := rfl
  rw [hmap]
  have hsub : ((l.map fk).reverse.dedup).Sublist (l.map fk).reverse := List.dedup_sublist _
  have hle := hsub.length_le
  rw [List.length_reverse, List.length_map] at hle
  rcases Nat.lt_or_ge ((l.map fk).reverse.dedup.length) l.length with hlt | hge
  · exact hlt
  · exfalso
    apply h
    have heq : (l.map fk).reverse.dedup = (l.map fk).reverse :=
      hsub.eq_of_length (by rw [List.length_reverse, List.length_map]; omega)
    have hn : (l.map fk).reverse.Nodup := by
      rw [← heq]
      exact List.nodup_dedup _
    exact List.nodup_reverse.mp hn

end GoMap

namespace deploy

theorem length_matched_add_unmatchedRes_lt (resLSs : List Listener)
    (sdkLSs : List elbv2sdk.Listener) (h : ¬ (resPorts resLSs).Nodup) :
    (matchResAndSDKListeners resLSs sdkLSs).1.length +
      (matchResAndSDKListeners resLSs sdkLSs).2.1.length < resLSs.length := by
  rw [length_matched, length_unmatchedRes, GoSet.length_Intersection_add_Difference]
  exact GoMap.length_keys_index_lt (fun ls : Listener => ls.Spec.Port) resLSs h

theorem length_matched_add_unmatchedSDK_lt (resLSs : List Listener)
    (sdkLSs : List elbv2sdk.Listener) (h : ¬ (sdkPorts sdkLSs).Nodup) :
    (matchResAndSDKListeners resLSs sdkLSs).1.length +
      (matchResAndSDKListeners resLSs sdkLSs).2.2.length < sdkLSs.length := by
  rw [length_matched, length_unmatchedSDK,
    GoSet.length_Intersection_comm _ _ (nodup_KeySet _) (nodup_KeySet _),
    GoSet.length_Intersection_add_Difference]
  exact GoMap.length_keys_index_lt (fun ls : elbv2sdk.Listener => Int64Value ls.Port) sdkLSs h

theorem deleteStep_events {σ : Type} (lsManager : ListenerManager σ)
    (sdkLS : elbv2sdk.Listener) (s : σ) :
    ∀ ev ∈ (synthesizeListenersOnLB.deleteStep lsManager sdkLS s).calls,
      ev = Event.Delete sdkLS := by
  intro ev hev
  unfold synthesizeListenersOnLB.deleteStep at hev
  split at hev <;> simpa using hev

theorem createStep_events {σ : Type} (lsManager : ListenerManager σ)
    (resLS : Listener) (s : σ) :
    ∀ ev ∈ (synthesizeListenersOnLB.createStep lsManager resLS s).calls,
      ev = Event.Create resLS ∨ ∃ lsStatus, ev = Event.SetStatus resLS lsStatus := by
  intro ev hev
  unfold synthesizeListenersOnLB.createStep at hev
  split at hev
  · simp only [List.mem_singleton] at hev
    exact Or.inl hev
  · rename_i lsStatus _ _
    simp only [List.mem_cons, List.mem_singleton, List.not_mem_nil, or_false] at hev
    rcases hev with h | h
    · exact Or.inl h
    · exact Or.inr ⟨lsStatus, h⟩

theorem updateStep_events {σ : Type} (lsManager : ListenerManager σ)
    (pair : resAndSDKListenerPair) (s : σ) :
    ∀ ev ∈ (synthesizeListenersOnLB.updateStep lsManager pair s).calls,
      ev = Event.Update pair.resLS pair.sdkLS ∨
        ∃ lsStatus, ev = Event.SetStatus pair.resLS lsStatus := by
  intro ev hev
  unfold synthesizeListenersOnLB.updateStep at hev
  split at hev
  · simp only [List.mem_singleton] at hev
    exact Or.inl hev
  · rename_i lsStatus _ _
    simp only [List.mem_cons, List.mem_singleton, List.not_mem_nil, or_false] at hev
    rcases hev with h | h
    · exact Or.inl h
    · exact Or.inr ⟨lsStatus, h⟩

/-- Every event of a run of `synthesizeListenersOnLB` is the describe call, the
delete of an unmatched actual listener, the create or status of an unmatched
desired listener, or the update or status of a matched pair. -/
theorem synthesizeListenersOnLB_events {σ : Type} (elbv2Client : ELBV2 σ)
    (lsManager : ListenerManager σ) (lbARN : String) (resLSs : List Listener) (s s' : σ)
    (sdkLSs : List elbv2sdk.Listener)
    (hdesc : findSDKListenersOnLB elbv2Client lbARN s = (.ok sdkLSs, s')) :
    ∀ ev ∈ (synthesizeListenersOnLB elbv2Client lsManager lbARN resLSs s).calls,
      ev = Event.DescribeListenersAsList { LoadBalancerArn := some lbARN } ∨
      (∃ a ∈ (matchResAndSDKListeners resLSs sdkLSs).2.2, ev = Event.Delete a) ∨
      (∃ r ∈ (matchResAndSDKListeners resLSs sdkLSs).2.1,
        ev = Event.Create r ∨ ∃ lsStatus, ev = Event.SetStatus r lsStatus) ∨
      (∃ pair ∈ (matchResAndSDKListeners resLSs sdkLSs).1,
        ev = Event.Update pair.resLS pair.sdkLS ∨
          ∃ lsStatus, ev = Event.SetStatus pair.resLS lsStatus) := by
  intro ev hev
  simp only [synthesizeListenersOnLB, hdesc, List.mem_cons] at hev
  rcases hev with h | h
  · exact Or.inl h
  · right
    rcases Ran.mem_andThen_calls _ _ ev h with h1 | h23
    · exact Or.inl (forEach_exists_mem (fun a ev => ev = Event.Delete a) _
        (deleteStep_events lsManager) _ _ ev h1)
    · right
      rcases Ran.mem_andThen_calls _ _ ev h23 with h2 | h3
      · exact Or.inl (forEach_exists_mem
          (fun r ev => ev = Event.Create r ∨ ∃ lsStatus, ev = Event.SetStatus r lsStatus) _
          (createStep_events lsManager) _ _ ev h2)
      · exact Or.inr (forEach_exists_mem
          (fun (pair : resAndSDKListenerPair) ev => ev = Event.Update pair.resLS pair.sdkLS ∨
            ∃ lsStatus, ev = Event.SetStatus pair.resLS lsStatus) _
          (updateStep_events lsManager) _ _ ev h3)

/-- A run of `synthesizeListenersOnLB` whose describe call fails issues that call
alone. -/
theorem synthesizeListenersOnLB_calls_of_describe_error {σ : Type} (elbv2Client : ELBV2 σ)
    (lsManager : ListenerManager σ) (lbARN : String) (resLSs : List Listener) (s s' : σ)
    (err : String) (hdesc : findSDKListenersOnLB elbv2Client lbARN s = (.error err, s')) :
    (synthesizeListenersOnLB elbv2Client lsManager lbARN resLSs s).calls =
      [Event.DescribeListenersAsList { LoadBalancerArn := some lbARN }] := by
  simp only [synthesizeListenersOnLB, hdesc]

end deploy

namespace deploy

/-- A desired listener that is not the one bound to its port is in no output of
the matcher, and no run of `synthesizeListenersOnLB` creates it, updates it or
sets its status. -/
theorem synthesizeListenersOnLB_skips_res {σ : Type} (elbv2Client : ELBV2 σ)
    (lsManager : ListenerManager σ) (lbARN : String) (resLSs : List Listener) (s : σ)
    (r : Listener) (h : (mapResListenerByPort resLSs).get? r.Spec.Port ≠ some r) :
    Event.Create r ∉ (synthesizeListenersOnLB elbv2Client lsManager lbARN resLSs s).calls ∧
    (∀ a, Event.Update r a ∉
      (synthesizeListenersOnLB elbv2Client lsManager lbARN resLSs s).calls) ∧
    (∀ lsStatus, Event.SetStatus r lsStatus ∉
      (synthesizeListenersOnLB elbv2Client lsManager lbARN resLSs s).calls) := by
  cases hdesc : findSDKListenersOnLB elbv2Client lbARN s with
  | mk res s' =>
    cases res with
    | error err =>
      rw [synthesizeListenersOnLB_calls_of_describe_error _ _ _ _ _ _ _ hdesc]
      simp
    | ok sdkLSs =>
      have hev := synthesizeListenersOnLB_events elbv2Client lsManager lbARN resLSs s s'
        sdkLSs hdesc
      have hun : ∀ x ∈ (matchResAndSDKListeners resLSs sdkLSs).2.1, x ≠ r := by
        intro x hx hxr
        subst hxr
        exact h (mem_unmatchedRes_get? resLSs sdkLSs x hx)
      have hpair : ∀ pair ∈ (matchResAndSDKListeners resLSs sdkLSs).1, pair.resLS ≠ r := by
        intro pair hp hpr
        apply h
        rw [← hpr]
        exact (mem_matched_get? resLSs sdkLSs pair hp).1
      refine ⟨?_, ?_, ?_⟩
      · intro hmem
        rcases hev _ hmem with h0 | ⟨a, _, h1⟩ | ⟨x, hx, h2 | ⟨st, h2⟩⟩ |
          ⟨pair, hp, h3 | ⟨st, h3⟩⟩
        · cases h0
        · cases h1
        · injection h2 with h2
          exact hun x hx h2.symm
        · cases h2
        · cases h3
        · cases h3
      · intro a hmem
        rcases hev _ hmem with h0 | ⟨a, _, h1⟩ | ⟨x, hx, h2 | ⟨st, h2⟩⟩ |
          ⟨pair, hp, h3 | ⟨st, h3⟩⟩
        · cases h0
        · cases h1
        · cases h2
        · cases h2
        · injection h3 with h3 _
          exact hpair pair hp h3.symm
        · cases h3
      · intro lsStatus hmem
        rcases hev _ hmem with h0 | ⟨a, _, h1⟩ | ⟨x, hx, h2 | ⟨st, h2⟩⟩ |
          ⟨pair, hp, h3 | ⟨st, h3⟩⟩
        · cases h0
        · cases h1
        · cases h2
        · injection h2 with h2 _
          exact hun x hx h2.symm
        · cases h3
        · injection h3 with h3 _
          exact hpair pair hp h3.symm

/-- An actual listener that is not the one bound to its port is neither deleted
nor updated by a run of `synthesizeListenersOnLB`. -/
theorem synthesizeListenersOnLB_skips_sdk {σ : Type} (elbv2Client : ELBV2 σ)
    (lsManager : ListenerManager σ) (lbARN : String) (resLSs : List Listener) (s s' : σ)
    (sdkLSs : List elbv2sdk.Listener)
    (hdesc : findSDKListenersOnLB elbv2Client lbARN s = (.ok sdkLSs, s'))
    (a : elbv2sdk.Listener)
    (h : (mapSDKListenerByPort sdkLSs).get? (Int64Value a.Port) ≠ some a) :
    Event.Delete a ∉ (synthesizeListenersOnLB elbv2Client lsManager lbARN resLSs s).calls ∧
    (∀ r, Event.Update r a ∉
      (synthesizeListenersOnLB elbv2Client lsManager lbARN resLSs s).calls) := by
  have hev := synthesizeListenersOnLB_events elbv2Client lsManager lbARN resLSs s s'
    sdkLSs hdesc
  refine ⟨?_, ?_⟩
  · intro hmem
    rcases hev _ hmem with h0 | ⟨x, hx, h1⟩ | ⟨x, hx, h2 | ⟨st, h2⟩⟩ |
      ⟨pair, hp, h3 | ⟨st, h3⟩⟩
    · cases h0
    · injection h1 with h1
      subst h1
      exact h (mem_unmatchedSDK_get? resLSs sdkLSs _ hx)
    · cases h2
    · cases h2
    · cases h3
    · cases h3
  · intro r hmem
    rcases hev _ hmem with h0 | ⟨x, hx, h1⟩ | ⟨x, hx, h2 | ⟨st, h2⟩⟩ |
      ⟨pair, hp, h3 | ⟨st, h3⟩⟩
    · cases h0
    · cases h1
    · cases h2
    · cases h2
    · injection h3 with _ h3
      apply h
      rw [h3]
      exact (mem_matched_get? resLSs sdkLSs pair hp).2
    · cases h3

end deploy

namespace deploy

/-- Claim C25. When several desired listeners have the same port,
`matchResAndSDKListeners` keeps only the last of them: a desired listener that is
followed by another one of its port (and does not occur again itself) is the
desired member of no pair and is not in the unmatched desired listeners, and no
run of `synthesizeListenersOnLB` creates it, updates it or sets its status; the
last desired listener of a port is in the unmatched desired listeners when the
port is not actual and in a pair when it is; and with a duplicate port
`|pairs| + |desiredOnly| < |desired|`. The same holds for the actual listeners: an
actual listener followed by another one of its port is in no pair and not in the
unmatched actual listeners, and the synthesizer neither deletes nor updates it;
the last actual listener of a port is kept; and with a duplicate port
`|pairs| + |actualOnly| < |actual|`. -/
theorem matchResAndSDKListeners_keeps_last_of_duplicate_port (resLSs : List Listener)
    (sdkLSs : List elbv2sdk.Listener) :
    (∀ (pre : List Listener) (r : Listener) (post : List Listener),
      resLSs = pre ++ r :: post → r ∉ post → r.Spec.Port ∈ resPorts post →
      (∀ pair ∈ (matchResAndSDKListeners resLSs sdkLSs).1, pair.resLS ≠ r) ∧
      r ∉ (matchResAndSDKListeners resLSs sdkLSs).2.1 ∧
      (∀ (σ : Type) (elbv2Client : ELBV2 σ) (lsManager : ListenerManager σ) (lbARN : String)
        (s : σ),
        Event.Create r ∉ (synthesizeListenersOnLB elbv2Client lsManager lbARN resLSs s).calls ∧
        (∀ a, Event.Update r a ∉
          (synthesizeListenersOnLB elbv2Client lsManager lbARN resLSs s).calls) ∧
        (∀ lsStatus, Event.SetStatus r lsStatus ∉
          (synthesizeListenersOnLB elbv2Client lsManager lbARN resLSs s).calls))) ∧
    (∀ (pre : List Listener) (r : Listener) (post : List Listener),
      resLSs = pre ++ r :: post → r.Spec.Port ∉ resPorts post →
      (r.Spec.Port ∉ sdkPorts sdkLSs → r ∈ (matchResAndSDKListeners resLSs sdkLSs).2.1) ∧
      (r.Spec.Port ∈ sdkPorts sdkLSs →
        ∃ pair ∈ (matchResAndSDKListeners resLSs sdkLSs).1, pair.resLS = r)) ∧
    (¬ (resPorts resLSs).Nodup →
      (matchResAndSDKListeners resLSs sdkLSs).1.length +
        (matchResAndSDKListeners resLSs sdkLSs).2.1.length < resLSs.length) ∧
    (∀ (pre : List elbv2sdk.Listener) (a : elbv2sdk.Listener) (post : List elbv2sdk.Listener),
      sdkLSs = pre ++ a :: post → a ∉ post → Int64Value a.Port ∈ sdkPorts post →
      (∀ pair ∈ (matchResAndSDKListeners resLSs sdkLSs).1, pair.sdkLS ≠ a) ∧
      a ∉ (matchResAndSDKListeners resLSs sdkLSs).2.2 ∧
      (∀ (σ : Type) (elbv2Client : ELBV2 σ) (lsManager : ListenerManager σ) (lbARN : String)
        (s s' : σ), findSDKListenersOnLB elbv2Client lbARN s = (.ok sdkLSs, s') →
        Event.Delete a ∉ (synthesizeListenersOnLB elbv2Client lsManager lbARN resLSs s).calls ∧
        (∀ r, Event.Update r a ∉
          (synthesizeListenersOnLB elbv2Client lsManager lbARN resLSs s).calls))) ∧
    (∀ (pre : List elbv2sdk.Listener) (a : elbv2sdk.Listener) (post : List elbv2sdk.Listener),
      sdkLSs = pre ++ a :: post → Int64Value a.Port ∉ sdkPorts post →
      (Int64Value a.Port ∉ resPorts resLSs →
        a ∈ (matchResAndSDKListeners resLSs sdkLSs).2.2) ∧
      (Int64Value a.Port ∈ resPorts resLSs →
        ∃ pair ∈ (matchResAndSDKListeners resLSs sdkLSs).1, pair.sdkLS = a)) ∧
    (¬ (sdkPorts sdkLSs).Nodup →
      (matchResAndSDKListeners resLSs sdkLSs).1.length +
        (matchResAndSDKListeners resLSs sdkLSs).2.2.length < sdkLSs.length) := by
  refine ⟨?_, ?_, length_matched_add_unmatchedRes_lt resLSs sdkLSs, ?_, ?_,
    length_matched_add_unmatchedSDK_lt resLSs sdkLSs⟩
  · intro pre r post hsplit hr hport
    have hne : (mapResListenerByPort resLSs).get? r.Spec.Port ≠ some r := by
      rw [hsplit]
      exact GoMap.get?_index_ne_of_later (fun ls : Listener => ls.Spec.Port) pre r post hr
        hport
    refine ⟨?_, ?_, ?_⟩
    · intro pair hp hpr
      apply hne
      rw [← hpr]
      exact (mem_matched_get? resLSs sdkLSs pair hp).1
    · intro hmem
      exact hne (mem_unmatchedRes_get? resLSs sdkLSs r hmem)
    · intro σ elbv2Client lsManager lbARN s
      exact synthesizeListenersOnLB_skips_res elbv2Client lsManager lbARN resLSs s r hne
  · intro pre r post hsplit hport
    have hget : (mapResListenerByPort resLSs).get? r.Spec.Port = some r := by
      rw [hsplit]
      exact GoMap.get?_index_last (fun ls : Listener => ls.Spec.Port) pre r post hport
    refine ⟨fun hp => mem_unmatchedRes_of_get? resLSs sdkLSs r hget hp, ?_⟩
    intro hp
    obtain ⟨a, ha, _⟩ := exists_get?_mapSDKListenerByPort sdkLSs r.Spec.Port
      ((mem_keys_mapSDKListenerByPort sdkLSs _).mpr hp)
    exact ⟨{ resLS := r, sdkLS := a }, mem_matched_of_get? resLSs sdkLSs _ r a hget ha, rfl⟩
  · intro pre a post hsplit ha hport
    have hne : (mapSDKListenerByPort sdkLSs).get? (Int64Value a.Port) ≠ some a := by
      rw [hsplit]
      exact GoMap.get?_index_ne_of_later (fun ls : elbv2sdk.Listener => Int64Value ls.Port)
        pre a post ha hport
    refine ⟨?_, ?_, ?_⟩
    · intro pair hp hpa
      apply hne
      rw [← hpa]
      exact (mem_matched_get? resLSs sdkLSs pair hp).2
    · intro hmem
      exact hne (mem_unmatchedSDK_get? resLSs sdkLSs a hmem)
    · intro σ elbv2Client lsManager lbARN s s' hdesc
      exact synthesizeListenersOnLB_skips_sdk elbv2Client lsManager lbARN resLSs s s' sdkLSs
        hdesc a hne
  · intro pre a post hsplit hport
    have hget : (mapSDKListenerByPort sdkLSs).get? (Int64Value a.Port) = some a := by
      rw [hsplit]
      exact GoMap.get?_index_last (fun ls : elbv2sdk.Listener => Int64Value ls.Port) pre a
        post hport
    refine ⟨fun hp => mem_unmatchedSDK_of_get? resLSs sdkLSs a hget hp, ?_⟩
    intro hp
    obtain ⟨r, hr, _⟩ := exists_get?_mapResListenerByPort resLSs (Int64Value a.Port)
      ((mem_keys_mapResListenerByPort resLSs _).mpr hp)
    exact ⟨{ resLS := r, sdkLS := a }, mem_matched_of_get? resLSs sdkLSs _ r a hr hget, rfl⟩

end deploy

namespace deploy

/-- Witness of C25: desired listeners a and b at port 80 and c at port 443, actual
listeners x and y at port 443 and z at port 8080: a is in no output and never
created, b is created, x is never deleted, and both counts fall short. -/
theorem matchResAndSDKListeners_keeps_last_of_duplicate_port_witness :
    exResNamed "a" 80 ∉ (matchResAndSDKListeners
      [exResNamed "a" 80, exResNamed "b" 80, exResNamed "c" 443]
      [exSDKNamed "arn:ls/x" 443, exSDKNamed "arn:ls/y" 443, exSDKNamed "arn:ls/z" 8080]).2.1 ∧
    Event.Create (exResNamed "a" 80) ∉ (synthesizeListenersOnLB exELBV2 exManager "arn:lb/1"
      [exResNamed "a" 80, exResNamed "b" 80, exResNamed "c" 443]
      [exSDKNamed "arn:ls/x" 443, exSDKNamed "arn:ls/y" 443, exSDKNamed "arn:ls/z" 8080]).calls ∧
    exResNamed "b" 80 ∈ (matchResAndSDKListeners
      [exResNamed "a" 80, exResNamed "b" 80, exResNamed "c" 443]
      [exSDKNamed "arn:ls/x" 443, exSDKNamed "arn:ls/y" 443, exSDKNamed "arn:ls/z" 8080]).2.1 ∧
    (matchResAndSDKListeners
      [exResNamed "a" 80, exResNamed "b" 80, exResNamed "c" 443]
      [exSDKNamed "arn:ls/x" 443, exSDKNamed "arn:ls/y" 443, exSDKNamed "arn:ls/z" 8080]).1.length +
      (matchResAndSDKListeners
        [exResNamed "a" 80, exResNamed "b" 80, exResNamed "c" 443]
        [exSDKNamed "arn:ls/x" 443, exSDKNamed "arn:ls/y" 443,
          exSDKNamed "arn:ls/z" 8080]).2.1.length
      < [exResNamed "a" 80, exResNamed "b" 80, exResNamed "c" 443].length ∧
    Event.Delete (exSDKNamed "arn:ls/x" 443) ∉ (synthesizeListenersOnLB exELBV2 exManager
      "arn:lb/1" [exResNamed "a" 80, exResNamed "b" 80, exResNamed "c" 443]
      [exSDKNamed "arn:ls/x" 443, exSDKNamed "arn:ls/y" 443, exSDKNamed "arn:ls/z" 8080]).calls ∧
    (matchResAndSDKListeners
      [exResNamed "a" 80, exResNamed "b" 80, exResNamed "c" 443]
      [exSDKNamed "arn:ls/x" 443, exSDKNamed "arn:ls/y" 443, exSDKNamed "arn:ls/z" 8080]).1.length +
      (matchResAndSDKListeners
        [exResNamed "a" 80, exResNamed "b" 80, exResNamed "c" 443]
        [exSDKNamed "arn:ls/x" 443, exSDKNamed "arn:ls/y" 443,
          exSDKNamed "arn:ls/z" 8080]).2.2.length
      < [exSDKNamed "arn:ls/x" 443, exSDKNamed "arn:ls/y" 443,
          exSDKNamed "arn:ls/z" 8080].length :=
  ⟨((matchResAndSDKListeners_keeps_last_of_duplicate_port
      [exResNamed "a" 80, exResNamed "b" 80, exResNamed "c" 443]
      [exSDKNamed "arn:ls/x" 443, exSDKNamed "arn:ls/y" 443, exSDKNamed "arn:ls/z" 8080]).1
      [] (exResNamed "a" 80) [exResNamed "b" 80, exResNamed "c" 443] rfl (by decide)
      (by decide)).2.1,
    (((matchResAndSDKListeners_keeps_last_of_duplicate_port
      [exResNamed "a" 80, exResNamed "b" 80, exResNamed "c" 443]
      [exSDKNamed "arn:ls/x" 443, exSDKNamed "arn:ls/y" 443, exSDKNamed "arn:ls/z" 8080]).1
      [] (exResNamed "a" 80) [exResNamed "b" 80, exResNamed "c" 443] rfl (by decide)
      (by decide)).2.2 (List elbv2sdk.Listener) exELBV2 exManager "arn:lb/1"
      [exSDKNamed "arn:ls/x" 443, exSDKNamed "arn:ls/y" 443, exSDKNamed "arn:ls/z" 8080]).1,
    ((matchResAndSDKListeners_keeps_last_of_duplicate_port
      [exResNamed "a" 80, exResNamed "b" 80, exResNamed "c" 443]
      [exSDKNamed "arn:ls/x" 443, exSDKNamed "arn:ls/y" 443, exSDKNamed "arn:ls/z" 8080]).2.1
      [exResNamed "a" 80] (exResNamed "b" 80) [exResNamed "c" 443] rfl (by decide)).1
      (by decide),
    (matchResAndSDKListeners_keeps_last_of_duplicate_port
      [exResNamed "a" 80, exResNamed "b" 80, exResNamed "c" 443]
      [exSDKNamed "arn:ls/x" 443, exSDKNamed "arn:ls/y" 443, exSDKNamed "arn:ls/z" 8080]).2.2.1
      (by decide),
    (((matchResAndSDKListeners_keeps_last_of_duplicate_port
      [exResNamed "a" 80, exResNamed "b" 80, exResNamed "c" 443]
      [exSDKNamed "arn:ls/x" 443, exSDKNamed "arn:ls/y" 443, exSDKNamed "arn:ls/z" 8080]).2.2.2.1
      [] (exSDKNamed "arn:ls/x" 443) [exSDKNamed "arn:ls/y" 443, exSDKNamed "arn:ls/z" 8080]
      rfl (by decide) (by decide)).2.2 (List elbv2sdk.Listener) exELBV2 exManager "arn:lb/1"
      [exSDKNamed "arn:ls/x" 443, exSDKNamed "arn:ls/y" 443, exSDKNamed "arn:ls/z" 8080]
      [exSDKNamed "arn:ls/x" 443, exSDKNamed "arn:ls/y" 443, exSDKNamed "arn:ls/z" 8080]
      rfl).1,
    (matchResAndSDKListeners_keeps_last_of_duplicate_port
      [exResNamed "a" 80, exResNamed "b" 80, exResNamed "c" 443]
      [exSDKNamed "arn:ls/x" 443, exSDKNamed "arn:ls/y" 443,
        exSDKNamed "arn:ls/z" 8080]).2.2.2.2.2 (by decide)⟩

end deploy

/-- A loop whose body leaves, when it succeeds, exactly the item `c x` under the
selection `g` has left, when it ends without error, the items of the whole list
in order. -/
theorem forEach_filterMap_calls_of_ok {α β C σ : Type} (f : α → σ → Ran C σ)
    (g : C → Option β) (c : α → β)
    (hf : ∀ x s, (f x s).err = none → (f x s).calls.filterMap g = [c x]) :
    ∀ (xs : List α) (s : σ), (forEach f xs s).err = none →
      (forEach f xs s).calls.filterMap g = xs.map c := by
  intro xs
  induction xs with
  | nil => intro s _; rfl
  | cons x xs ih =>
    intro s h
    unfold forEach at h ⊢
    obtain ⟨h1, h2⟩ := (Ran.andThen_err_none _ _).mp h
    rw [Ran.andThen_calls_of_ok _ _ h1, List.filterMap_append, hf x s h1, ih _ h2]
    rfl

namespace deploy

theorem createStep_of_ok {σ : Type} (lsManager : ListenerManager σ) (resLS : Listener) (s : σ)
    (h : (synthesizeListenersOnLB.createStep lsManager resLS s).err = none) :
    ∃ lsStatus s1, lsManager.Create resLS s = (.ok lsStatus, s1) ∧
      (synthesizeListenersOnLB.createStep lsManager resLS s).calls =
        [Event.Create resLS, Event.SetStatus resLS lsStatus] := by
  unfold synthesizeListenersOnLB.createStep at h ⊢
  cases hc : lsManager.Create resLS s with
  | mk res s1 =>
    cases res with
    | error err => simp [hc] at h
    | ok lsStatus => exact ⟨lsStatus, s1, rfl, rfl⟩

theorem updateStep_of_ok {σ : Type} (lsManager : ListenerManager σ)
    (pair : resAndSDKListenerPair) (s : σ)
    (h : (synthesizeListenersOnLB.updateStep lsManager pair s).err = none) :
    ∃ lsStatus s1, lsManager.Update pair.resLS pair.sdkLS s = (.ok lsStatus, s1) ∧
      (synthesizeListenersOnLB.updateStep lsManager pair s).calls =
        [Event.Update pair.resLS pair.sdkLS, Event.SetStatus pair.resLS lsStatus] := by
  unfold synthesizeListenersOnLB.updateStep at h ⊢
  cases hc : lsManager.Update pair.resLS pair.sdkLS s with
  | mk res s1 =>
    cases res with
    | error err => simp [hc] at h
    | ok lsStatus => exact ⟨lsStatus, s1, rfl, rfl⟩

/-- A run of `synthesizeListenersOnLB` that ends without error: its three loops
end without error and the log is the describe call and their calls. -/
theorem synthesizeListenersOnLB_of_ok {σ : Type} (elbv2Client : ELBV2 σ)
    (lsManager : ListenerManager σ) (lbARN : String) (resLSs : List Listener) (s s' : σ)
    (sdkLSs : List elbv2sdk.Listener)
    (hdesc : findSDKListenersOnLB elbv2Client lbARN s = (.ok sdkLSs, s'))
    (hok : (synthesizeListenersOnLB elbv2Client lsManager lbARN resLSs s).err = none) :
    (forEach (synthesizeListenersOnLB.deleteStep lsManager)
      (matchResAndSDKListeners resLSs sdkLSs).2.2 s').err = none ∧
    (forEach (synthesizeListenersOnLB.createStep lsManager)
      (matchResAndSDKListeners resLSs sdkLSs).2.1
      (forEach (synthesizeListenersOnLB.deleteStep lsManager)
        (matchResAndSDKListeners resLSs sdkLSs).2.2 s').state).err = none ∧
    (forEach (synthesizeListenersOnLB.updateStep lsManager)
      (matchResAndSDKListeners resLSs sdkLSs).1
      (forEach (synthesizeListenersOnLB.createStep lsManager)
        (matchResAndSDKListeners resLSs sdkLSs).2.1
        (forEach (synthesizeListenersOnLB.deleteStep lsManager)
          (matchResAndSDKListeners resLSs sdkLSs).2.2 s').state).state).err = none ∧
    (synthesizeListenersOnLB elbv2Client lsManager lbARN resLSs s).calls =
      Event.DescribeListenersAsList { LoadBalancerArn := some lbARN } ::
        ((forEach (synthesizeListenersOnLB.deleteStep lsManager)
          (matchResAndSDKListeners resLSs sdkLSs).2.2 s').calls ++
        ((forEach (synthesizeListenersOnLB.createStep lsManager)
          (matchResAndSDKListeners resLSs sdkLSs).2.1
          (forEach (synthesizeListenersOnLB.deleteStep lsManager)
            (matchResAndSDKListeners resLSs sdkLSs).2.2 s').state).calls ++
        (forEach (synthesizeListenersOnLB.updateStep lsManager)
          (matchResAndSDKListeners resLSs sdkLSs).1
          (forEach (synthesizeListenersOnLB.createStep lsManager)
            (matchResAndSDKListeners resLSs sdkLSs).2.1
            (forEach (synthesizeListenersOnLB.deleteStep lsManager)
              (matchResAndSDKListeners resLSs sdkLSs).2.2 s').state).state).calls)) := by
  simp only [synthesizeListenersOnLB, hdesc] at hok ⊢
  rw [Ran.andThen_err_none] at hok
  obtain ⟨h1, h23⟩ := hok
  rw [Ran.andThen_err_none] at h23
  obtain ⟨h2, h3⟩ := h23
  refine ⟨h1, h2, h3, ?_⟩
  rw [Ran.andThen_calls_of_ok _ _ h1, Ran.andThen_calls_of_ok _ _ h2]

end deploy

namespace deploy

theorem statusNodes_deleteLoop {σ : Type} (lsManager : ListenerManager σ)
    (xs : List elbv2sdk.Listener) (s : σ) :
    statusNodes (forEach (synthesizeListenersOnLB.deleteStep lsManager) xs s).calls = [] := by
  unfold statusNodes
  rw [List.filterMap_eq_nil_iff]
  apply forEach_forall (fun ev => Event.statusNode ev = none)
  intro x s0 ev hev
  rw [deleteStep_events lsManager x s0 ev hev]
  rfl

theorem statusNodes_createLoop {σ : Type} (lsManager : ListenerManager σ)
    (xs : List Listener) (s : σ)
    (h : (forEach (synthesizeListenersOnLB.createStep lsManager) xs s).err = none) :
    statusNodes (forEach (synthesizeListenersOnLB.createStep lsManager) xs s).calls = xs := by
  unfold statusNodes
  rw [forEach_filterMap_calls_of_ok _ Event.statusNode (fun r => r) _ xs s h, List.map_id']
  intro x s0 hx
  obtain ⟨lsStatus, s1, _, hcalls⟩ := createStep_of_ok lsManager x s0 hx
  rw [hcalls]
  rfl

theorem statusNodes_updateLoop {σ : Type} (lsManager : ListenerManager σ)
    (xs : List resAndSDKListenerPair) (s : σ)
    (h : (forEach (synthesizeListenersOnLB.updateStep lsManager) xs s).err = none) :
    statusNodes (forEach (synthesizeListenersOnLB.updateStep lsManager) xs s).calls =
      xs.map (fun pair => pair.resLS) := by
  unfold statusNodes
  rw [forEach_filterMap_calls_of_ok _ Event.statusNode (fun pair => pair.resLS) _ xs s h]
  intro x s0 hx
  obtain ⟨lsStatus, s1, _, hcalls⟩ := updateStep_of_ok lsManager x s0 hx
  rw [hcalls]
  rfl

/-- The nodes whose status a run of `synthesizeListenersOnLB` that ends without
error sets: the unmatched desired listeners, then the desired listeners of the
matched pairs. -/
theorem statusNodes_synthesizeListenersOnLB {σ : Type} (elbv2Client : ELBV2 σ)
    (lsManager : ListenerManager σ) (lbARN : String) (resLSs : List Listener) (s s' : σ)
    (sdkLSs : List elbv2sdk.Listener)
    (hdesc : findSDKListenersOnLB elbv2Client lbARN s = (.ok sdkLSs, s'))
    (hok : (synthesizeListenersOnLB elbv2Client lsManager lbARN resLSs s).err = none) :
    statusNodes (synthesizeListenersOnLB elbv2Client lsManager lbARN resLSs s).calls =
      (matchResAndSDKListeners resLSs sdkLSs).2.1 ++
        (matchResAndSDKListeners resLSs sdkLSs).1.map (fun pair => pair.resLS) := by
  obtain ⟨_, h2, h3, hcalls⟩ := synthesizeListenersOnLB_of_ok elbv2Client lsManager lbARN
    resLSs s s' sdkLSs hdesc hok
  have hD := statusNodes_deleteLoop lsManager (matchResAndSDKListeners resLSs sdkLSs).2.2 s'
  have hC := statusNodes_createLoop lsManager _ _ h2
  have hU := statusNodes_updateLoop lsManager _ _ h3
  rw [hcalls]
  unfold statusNodes at hD hC hU ⊢
  rw [List.filterMap_cons_none (by rfl), List.filterMap_append, List.filterMap_append,
    hD, hC, hU, List.nil_append]

/-- With pairwise distinct desired ports, the unmatched desired listeners and the
desired listeners of the pairs are the desired listeners, each once. -/
theorem matchResAndSDKListeners_res_perm (resLSs : List Listener)
    (sdkLSs : List elbv2sdk.Listener) (hres : (resPorts resLSs).Nodup) :
    ((matchResAndSDKListeners resLSs sdkLSs).2.1 ++
      (matchResAndSDKListeners resLSs sdkLSs).1.map (fun pair => pair.resLS)).Perm resLSs := by
  have hn1 : (matchResAndSDKListeners resLSs sdkLSs).2.1.Nodup := by
    apply List.Nodup.of_map (fun ls : Listener => ls.Spec.Port)
    have h := resPorts_unmatched resLSs sdkLSs
    unfold resPorts at h
    rw [h]
    exact GoSet.nodup_SortedList _ (GoSet.nodup_Difference _ _ (nodup_KeySet _))
  have hn2 : ((matchResAndSDKListeners resLSs sdkLSs).1.map (fun pair => pair.resLS)).Nodup := by
    apply List.Nodup.of_map (fun ls : Listener => ls.Spec.Port)
    have h := pairPorts_matched resLSs sdkLSs
    unfold pairPorts at h
    rw [List.map_map]
    have hfun : ((fun ls : Listener => ls.Spec.Port) ∘ fun pair : resAndSDKListenerPair =>
        pair.resLS) = fun pair => pair.resLS.Spec.Port := rfl
    rw [hfun, h]
    exact GoSet.nodup_SortedList _ (GoSet.nodup_Intersection _ _ (nodup_KeySet _))
  have hdisj : List.Disjoint (matchResAndSDKListeners resLSs sdkLSs).2.1
      ((matchResAndSDKListeners resLSs sdkLSs).1.map (fun pair => pair.resLS)) := by
    intro r h1 h2
    obtain ⟨pair, hp, hpr⟩ := List.mem_map.mp h2
    have hm := mem_matched resLSs sdkLSs pair hp
    have hu := mem_unmatchedRes resLSs sdkLSs r h1
    apply hu.2
    have hpr' : pair.resLS = r := hpr
    rw [← hpr', hm.2.2]
    exact List.mem_map.mpr ⟨pair.sdkLS, hm.2.1, rfl⟩
  rw [List.perm_ext_iff_of_nodup (hn1.append hn2 hdisj)
    (List.Nodup.of_map (fun ls : Listener => ls.Spec.Port) hres)]
  intro r
  rw [List.mem_append]
  constructor
  · rintro (h | h)
    · exact (mem_unmatchedRes resLSs sdkLSs r h).1
    · obtain ⟨pair, hp, hpr⟩ := List.mem_map.mp h
      have hpr' : pair.resLS = r := hpr
      rw [← hpr']
      exact (mem_matched resLSs sdkLSs pair hp).1
  · intro hr
    by_cases hp : r.Spec.Port ∈ sdkPorts sdkLSs
    · right
      obtain ⟨a, ha, _⟩ := exists_get?_mapSDKListenerByPort sdkLSs r.Spec.Port
        ((mem_keys_mapSDKListenerByPort sdkLSs _).mpr hp)
      have hget : (mapResListenerByPort resLSs).get? r.Spec.Port = some r :=
        GoMap.get?_index_of_nodup (fun ls : Listener => ls.Spec.Port) resLSs hres r hr
      exact List.mem_map.mpr ⟨{ resLS := r, sdkLS := a },
        mem_matched_of_get? resLSs sdkLSs _ r a hget ha, rfl⟩
    · left
      exact mem_unmatchedRes_of_nodup resLSs sdkLSs hres r hr hp

end deploy

namespace deploy

/-- Claim C22. For a load balancer whose desired listeners have pairwise distinct
ports, a run of `synthesizeListenersOnLB` that ends without error has set the
status of every desired listener exactly once: the nodes of the `SetStatus`
events are a rearrangement of the desired listeners. A desired listener whose
port has no actual listener is an unmatched desired listener, `Create` on it (at
the state the run had reached) returned a status, and the log holds the create
call directly followed by setting that status. A desired listener whose port has
an actual listener is paired with an actual listener of its port, `Update` on the
pair returned a status, and the log holds the update call directly followed by
setting that status. -/
theorem synthesizeListenersOnLB_sets_status_of_every_desired_listener {σ : Type}
    (elbv2Client : ELBV2 σ) (lsManager : ListenerManager σ) (lbARN : String)
    (resLSs : List Listener) (s s' : σ) (sdkLSs : List elbv2sdk.Listener)
    (hdesc : findSDKListenersOnLB elbv2Client lbARN s = (.ok sdkLSs, s'))
    (hres : (resPorts resLSs).Nodup)
    (hok : (synthesizeListenersOnLB elbv2Client lsManager lbARN resLSs s).err = none) :
    (statusNodes (synthesizeListenersOnLB elbv2Client lsManager lbARN resLSs s).calls).Perm
      resLSs ∧
    (∀ r ∈ resLSs, r.Spec.Port ∉ sdkPorts sdkLSs →
      ∃ (pre post : List Listener) (lsStatus : ListenerStatus) (s1 : σ),
        (matchResAndSDKListeners resLSs sdkLSs).2.1 = pre ++ r :: post ∧
        lsManager.Create r
          (forEach (synthesizeListenersOnLB.createStep lsManager) pre
            (forEach (synthesizeListenersOnLB.deleteStep lsManager)
              (matchResAndSDKListeners resLSs sdkLSs).2.2 s').state).state
          = (.ok lsStatus, s1) ∧
        List.IsInfix [Event.Create r, Event.SetStatus r lsStatus]
          (synthesizeListenersOnLB elbv2Client lsManager lbARN resLSs s).calls) ∧
    (∀ r ∈ resLSs, r.Spec.Port ∈ sdkPorts sdkLSs →
      ∃ a ∈ sdkLSs, Int64Value a.Port = r.Spec.Port ∧
        ∃ (pre post : List resAndSDKListenerPair) (lsStatus : ListenerStatus) (s1 : σ),
          (matchResAndSDKListeners resLSs sdkLSs).1 =
            pre ++ { resLS := r, sdkLS := a } :: post ∧
          lsManager.Update r a
            (forEach (synthesizeListenersOnLB.updateStep lsManager) pre
              (forEach (synthesizeListenersOnLB.createStep lsManager)
                (matchResAndSDKListeners resLSs sdkLSs).2.1
                (forEach (synthesizeListenersOnLB.deleteStep lsManager)
                  (matchResAndSDKListeners resLSs sdkLSs).2.2 s').state).state).state
            = (.ok lsStatus, s1) ∧
          List.IsInfix [Event.Update r a, Event.SetStatus r lsStatus]
            (synthesizeListenersOnLB elbv2Client lsManager lbARN resLSs s).calls) := by
  obtain ⟨_, h2, h3, hcalls⟩ := synthesizeListenersOnLB_of_ok elbv2Client lsManager lbARN
    resLSs s s' sdkLSs hdesc hok
  refine ⟨?_, ?_, ?_⟩
  · rw [statusNodes_synthesizeListenersOnLB elbv2Client lsManager lbARN resLSs s s' sdkLSs
      hdesc hok]
    exact matchResAndSDKListeners_res_perm resLSs sdkLSs hres
  · intro r hr hp
    have hmem := mem_unmatchedRes_of_nodup resLSs sdkLSs hres r hr hp
    obtain ⟨pre, post, hsplit⟩ := List.append_of_mem hmem
    rw [hsplit] at h2
    obtain ⟨_, hx, hc⟩ := forEach_split_of_ok _ pre r post _ h2
    obtain ⟨lsStatus, s1, hcreate, hstep⟩ := createStep_of_ok lsManager r _ hx
    refine ⟨pre, post, lsStatus, s1, hsplit, hcreate, ?_⟩
    rw [hcalls]
    rw [hsplit, hc, hstep]
    exact ⟨Event.DescribeListenersAsList { LoadBalancerArn := some lbARN } ::
      ((forEach (synthesizeListenersOnLB.deleteStep lsManager)
        (matchResAndSDKListeners resLSs sdkLSs).2.2 s').calls ++
        (forEach (synthesizeListenersOnLB.createStep lsManager) pre _).calls), _,
      by simp only [List.cons_append, List.append_assoc, List.nil_append]; rfl⟩
  · intro r hr hp
    obtain ⟨a, ha, hap⟩ := exists_get?_mapSDKListenerByPort sdkLSs r.Spec.Port
      ((mem_keys_mapSDKListenerByPort sdkLSs _).mpr hp)
    have hget : (mapResListenerByPort resLSs).get? r.Spec.Port = some r :=
      GoMap.get?_index_of_nodup (fun ls : Listener => ls.Spec.Port) resLSs hres r hr
    have hmem := mem_matched_of_get? resLSs sdkLSs _ r a hget ha
    refine ⟨a, (get?_mapSDKListenerByPort sdkLSs _ a ha).1, hap, ?_⟩
    obtain ⟨pre, post, hsplit⟩ := List.append_of_mem hmem
    rw [hsplit] at h3
    obtain ⟨_, hx, hc⟩ := forEach_split_of_ok _ pre _ post _ h3
    obtain ⟨lsStatus, s1, hupdate, hstep⟩ := updateStep_of_ok lsManager _ _ hx
    refine ⟨pre, post, lsStatus, s1, hsplit, hupdate, ?_⟩
    rw [hcalls]
    rw [hsplit, hc, hstep]
    exact ⟨Event.DescribeListenersAsList { LoadBalancerArn := some lbARN } ::
      ((forEach (synthesizeListenersOnLB.deleteStep lsManager)
        (matchResAndSDKListeners resLSs sdkLSs).2.2 s').calls ++
        ((forEach (synthesizeListenersOnLB.createStep lsManager)
          (matchResAndSDKListeners resLSs sdkLSs).2.1 _).calls ++
        (forEach (synthesizeListenersOnLB.updateStep lsManager) pre _).calls)), _,
      by simp only [List.cons_append, List.append_assoc, List.nil_append]; rfl⟩

end deploy

namespace deploy

/-- Witness of C22: desired ports 443 and 8443 against actual ports 80 and 443:
the status of both desired listeners is set, that of port 8443 from `Create`. -/
theorem synthesizeListenersOnLB_sets_status_of_every_desired_listener_witness :
    (statusNodes (synthesizeListenersOnLB exELBV2 exManager "arn:lb/1"
      [exRes 443, exRes 8443] [exSDK 80, exSDK 443]).calls).Perm [exRes 443, exRes 8443] ∧
    (∃ (pre post : List Listener) (lsStatus : ListenerStatus) (s1 : List elbv2sdk.Listener),
      (matchResAndSDKListeners [exRes 443, exRes 8443] [exSDK 80, exSDK 443]).2.1 =
        pre ++ exRes 8443 :: post ∧
      exManager.Create (exRes 8443)
        (forEach (synthesizeListenersOnLB.createStep exManager) pre
          (forEach (synthesizeListenersOnLB.deleteStep exManager)
            (matchResAndSDKListeners [exRes 443, exRes 8443] [exSDK 80, exSDK 443]).2.2
            [exSDK 80, exSDK 443]).state).state
        = (.ok lsStatus, s1) ∧
      List.IsInfix [Event.Create (exRes 8443), Event.SetStatus (exRes 8443) lsStatus]
        (synthesizeListenersOnLB exELBV2 exManager "arn:lb/1"
          [exRes 443, exRes 8443] [exSDK 80, exSDK 443]).calls) :=
  ⟨(synthesizeListenersOnLB_sets_status_of_every_desired_listener exELBV2 exManager "arn:lb/1"
      [exRes 443, exRes 8443] [exSDK 80, exSDK 443] [exSDK 80, exSDK 443]
      [exSDK 80, exSDK 443] rfl (by decide) (by decide)).1,
    (synthesizeListenersOnLB_sets_status_of_every_desired_listener exELBV2 exManager "arn:lb/1"
      [exRes 443, exRes 8443] [exSDK 80, exSDK 443] [exSDK 80, exSDK 443]
      [exSDK 80, exSDK 443] rfl (by decide) (by decide)).2.1 (exRes 8443) (by decide)
      (by decide)⟩

end deploy

namespace deploy

theorem Resolve_of_toBool (t : StringToken) (h : t.Resolve.toBool = true) :
    ∃ lbARN, t = .resolved lbARN := by
  cases t with
  | resolved value => exact ⟨value, rfl⟩
  | unresolved err => simp [StringToken.Resolve, Except.toBool] at h

/-- The loop of `mapResListenerByLoadBalancerARN` returns the error of the first
listener whose reference does not resolve. -/
theorem mapResListenerByLoadBalancerARN.loop_of_unresolved (r : Listener) (post : List Listener)
    (err : String) (hr : r.Spec.LoadBalancerARN.Resolve = .error err) :
    ∀ (pre : List Listener) (m0 : GoMap String (List Listener)),
      (∀ x ∈ pre, x.Spec.LoadBalancerARN.Resolve.toBool = true) →
      mapResListenerByLoadBalancerARN.loop (pre ++ r :: post) m0 = .error err := by
  intro pre
  induction pre with
  | nil =>
    intro m0 _
    simp only [List.nil_append, mapResListenerByLoadBalancerARN.loop, hr]
  | cons x pre ih =>
    intro m0 hpre
    obtain ⟨lbARN, hx⟩ := Resolve_of_toBool _ (hpre x (List.mem_cons_self _ _))
    simp only [List.cons_append, mapResListenerByLoadBalancerARN.loop, hx,
      StringToken.Resolve]
    exact ih _ (fun y hy => hpre y (List.mem_cons_of_mem _ hy))

/-- When every reference resolves, the loop of `mapResListenerByLoadBalancerARN`
returns a map in which each ARN is bound to its earlier group followed by the
listeners of that ARN in input order, and is left as it was when no listener has
that ARN. -/
theorem mapResListenerByLoadBalancerARN.loop_of_resolved :
    ∀ (resLSs : List Listener) (m0 : GoMap String (List Listener)),
      (∀ x ∈ resLSs, x.Spec.LoadBalancerARN.Resolve.toBool = true) →
      ∃ m, mapResListenerByLoadBalancerARN.loop resLSs m0 = .ok m ∧
        ∀ lbARN, m.get? lbARN =
          if resLSs.filter (fun ls => decide (ls.Spec.LoadBalancerARN = .resolved lbARN)) = []
          then m0.get? lbARN
          else some ((m0.get? lbARN).getD [] ++
            resLSs.filter (fun ls => decide (ls.Spec.LoadBalancerARN = .resolved lbARN))) := by
  intro resLSs
  induction resLSs with
  | nil =>
    intro m0 _
    exact ⟨m0, rfl, fun lbARN => by simp⟩
  | cons x rest ih =>
    intro m0 hall
    obtain ⟨arn, hx⟩ := Resolve_of_toBool _ (hall x (List.mem_cons_self _ _))
    obtain ⟨m, hm, hget⟩ := ih (m0.set arn ((m0.get? arn).getD [] ++ [x]))
      (fun y hy => hall y (List.mem_cons_of_mem _ hy))
    refine ⟨m, ?_, ?_⟩
    · simp only [mapResListenerByLoadBalancerARN.loop, hx, StringToken.Resolve]
      exact hm
    · intro lbARN
      rw [hget lbARN, GoMap.get?_set]
      by_cases harn : arn = lbARN
      · subst harn
        have hfilt : (x :: rest).filter
            (fun ls => decide (ls.Spec.LoadBalancerARN = StringToken.resolved arn)) =
            x :: rest.filter
              (fun ls => decide (ls.Spec.LoadBalancerARN = StringToken.resolved arn)) := by
          simp [List.filter_cons, hx]
        rw [hfilt]
        by_cases hf : rest.filter
            (fun ls => decide (ls.Spec.LoadBalancerARN = StringToken.resolved arn)) = []
        · simp [hf]
        · simp [hf]
      · have hfilt : (x :: rest).filter
            (fun ls => decide (ls.Spec.LoadBalancerARN = StringToken.resolved lbARN)) =
            rest.filter
              (fun ls => decide (ls.Spec.LoadBalancerARN = StringToken.resolved lbARN)) := by
          simp [List.filter_cons, hx, harn]
        rw [hfilt]
        simp only [harn, if_false]

end deploy

namespace deploy

/-- A list with a reference that does not resolve has a first such listener. -/
theorem exists_first_unresolved :
    ∀ (resLSs : List Listener),
      (∃ r ∈ resLSs, r.Spec.LoadBalancerARN.Resolve.toBool = false) →
      ∃ (pre : List Listener) (r : Listener) (post : List Listener) (err : String),
        resLSs = pre ++ r :: post ∧
        (∀ x ∈ pre, x.Spec.LoadBalancerARN.Resolve.toBool = true) ∧
        r.Spec.LoadBalancerARN.Resolve = .error err := by
  intro resLSs
  induction resLSs with
  | nil => rintro ⟨r, hr, _⟩; simp at hr
  | cons x rest ih =>
    rintro ⟨r, hr, hfail⟩
    cases hx : x.Spec.LoadBalancerARN with
    | unresolved err =>
      exact ⟨[], x, rest, err, rfl, fun y hy => by simp at hy, by rw [hx]; rfl⟩
    | resolved value =>
      have hrest : ∃ r ∈ rest, r.Spec.LoadBalancerARN.Resolve.toBool = false := by
        rcases List.mem_cons.mp hr with heq | hmem
        · subst heq
          rw [hx] at hfail
          simp [StringToken.Resolve, Except.toBool] at hfail
        · exact ⟨r, hmem, hfail⟩
      obtain ⟨pre, r', post, err, hsplit, hpre, herr⟩ := ih hrest
      refine ⟨x :: pre, r', post, err, by rw [hsplit]; rfl, ?_, herr⟩
      intro y hy
      rcases List.mem_cons.mp hy with heq | hmem
      · subst heq
        rw [hx]
        rfl
      · exact hpre y hmem

/-- The groups of `mapResListenerByLoadBalancerARN` when every reference resolves:
an ARN is bound to the listeners of that ARN in input order, and is absent when
no listener has it. -/
theorem mapResListenerByLoadBalancerARN_ok (resLSs : List Listener)
    (hall : ∀ x ∈ resLSs, x.Spec.LoadBalancerARN.Resolve.toBool = true) :
    ∃ m, mapResListenerByLoadBalancerARN resLSs = .ok m ∧
      ∀ lbARN, m.get? lbARN =
        if resLSs.filter (fun ls => decide (ls.Spec.LoadBalancerARN = .resolved lbARN)) = []
        then none
        else some
          (resLSs.filter (fun ls => decide (ls.Spec.LoadBalancerARN = .resolved lbARN))) := by
  obtain ⟨m, hm, hget⟩ := mapResListenerByLoadBalancerARN.loop_of_resolved resLSs GoMap.empty hall
  refine ⟨m, hm, ?_⟩
  intro lbARN
  rw [hget lbARN]
  have hempty : (GoMap.empty : GoMap String (List Listener)).get? lbARN = none := rfl
  rw [hempty]
  simp only [Option.getD_none, List.nil_append]

/-- Claim C23. If the load balancer reference of a desired listener does not
resolve while those of the listeners before it do, `Synthesize` returns that
resolution error and issues no call at all, leaving the state as it was; so when
any reference does not resolve, `Synthesize` returns the resolution error of one
of the listeners and issues no describe, delete, create or update call. When
every reference resolves, `mapResListenerByLoadBalancerARN` returns a map in which
each ARN is bound to the listeners of that ARN in input order (and to nothing
when there is none), every desired listener is in the group of its resolved ARN
and in no other group, and `Synthesize` runs `synthesizeListenersOnLB` on the
groups of that map. -/
theorem Synthesize_resolves_every_reference_first {σ : Type} (elbv2Client : ELBV2 σ)
    (lsManager : ListenerManager σ) (o : RangeOrder) (resLSs : List Listener) (s : σ) :
    (∀ (pre : List Listener) (r : Listener) (post : List Listener) (err : String),
      resLSs = pre ++ r :: post →
      (∀ x ∈ pre, x.Spec.LoadBalancerARN.Resolve.toBool = true) →
      r.Spec.LoadBalancerARN.Resolve = .error err →
      (Synthesize elbv2Client lsManager o resLSs s).err = some err ∧
      (Synthesize elbv2Client lsManager o resLSs s).calls = [] ∧
      (Synthesize elbv2Client lsManager o resLSs s).state = s) ∧
    ((∃ r ∈ resLSs, r.Spec.LoadBalancerARN.Resolve.toBool = false) →
      (∃ r ∈ resLSs, ∃ err, r.Spec.LoadBalancerARN.Resolve = .error err ∧
        (Synthesize elbv2Client lsManager o resLSs s).err = some err) ∧
      (Synthesize elbv2Client lsManager o resLSs s).calls = []) ∧
    ((∀ x ∈ resLSs, x.Spec.LoadBalancerARN.Resolve.toBool = true) →
      ∃ m, mapResListenerByLoadBalancerARN resLSs = .ok m ∧
        (∀ lbARN, m.get? lbARN =
          if resLSs.filter (fun ls => decide (ls.Spec.LoadBalancerARN = .resolved lbARN)) = []
          then none
          else some
            (resLSs.filter (fun ls => decide (ls.Spec.LoadBalancerARN = .resolved lbARN)))) ∧
        (∀ r ∈ resLSs, ∃ lbARN group,
          r.Spec.LoadBalancerARN.Resolve = .ok lbARN ∧ m.get? lbARN = some group ∧
          r ∈ group ∧
          ∀ lbARN' group', m.get? lbARN' = some group' → r ∈ group' → lbARN' = lbARN) ∧
        Synthesize elbv2Client lsManager o resLSs s =
          forEach
            (fun (entry : String × List Listener) s1 =>
              synthesizeListenersOnLB elbv2Client lsManager entry.1 entry.2 s1)
            (o.apply m.entries) s) := by
  have hfirst : ∀ (pre : List Listener) (r : Listener) (post : List Listener) (err : String),
      resLSs = pre ++ r :: post →
      (∀ x ∈ pre, x.Spec.LoadBalancerARN.Resolve.toBool = true) →
      r.Spec.LoadBalancerARN.Resolve = .error err →
      (Synthesize elbv2Client lsManager o resLSs s).err = some err ∧
      (Synthesize elbv2Client lsManager o resLSs s).calls = [] ∧
      (Synthesize elbv2Client lsManager o resLSs s).state = s := by
    intro pre r post err hsplit hpre hr
    have hmap : mapResListenerByLoadBalancerARN resLSs = .error err := by
      rw [hsplit]
      exact mapResListenerByLoadBalancerARN.loop_of_unresolved r post err hr pre GoMap.empty hpre
    simp only [Synthesize, hmap, and_self]
  refine ⟨hfirst, ?_, ?_⟩
  · intro hex
    obtain ⟨pre, r, post, err, hsplit, hpre, hr⟩ := exists_first_unresolved resLSs hex
    obtain ⟨h1, h2, _⟩ := hfirst pre r post err hsplit hpre hr
    refine ⟨⟨r, ?_, err, hr, h1⟩, h2⟩
    rw [hsplit]
    simp
  · intro hall
    obtain ⟨m, hm, hget⟩ := mapResListenerByLoadBalancerARN_ok resLSs hall
    refine ⟨m, hm, hget, ?_, ?_⟩
    · intro r hr
      obtain ⟨lbARN, harn⟩ := Resolve_of_toBool _ (hall r hr)
      have hmem : r ∈ resLSs.filter
          (fun ls => decide (ls.Spec.LoadBalancerARN = .resolved lbARN)) := by
        rw [List.mem_filter]
        exact ⟨hr, by simp [harn]⟩
      have hne : resLSs.filter
          (fun ls => decide (ls.Spec.LoadBalancerARN = .resolved lbARN)) ≠ [] :=
        List.ne_nil_of_mem hmem
      refine ⟨lbARN, _, by rw [harn]; rfl, by rw [hget lbARN, if_neg hne], hmem, ?_⟩
      intro lbARN' group' hg hrg
      rw [hget lbARN'] at hg
      by_cases hf : resLSs.filter
          (fun ls => decide (ls.Spec.LoadBalancerARN = .resolved lbARN')) = []
      · rw [if_pos hf] at hg
        cases hg
      · rw [if_neg hf] at hg
        injection hg with hg
        rw [← hg, List.mem_filter] at hrg
        have h2 : r.Spec.LoadBalancerARN = .resolved lbARN' := by simpa using hrg.2
        rw [harn] at h2
        injection h2 with h2
        exact h2.symm
    · simp only [Synthesize, hm]

end deploy

namespace deploy

/-- Witness of C23: listeners a (load balancer 1), b (reference not resolved) and
c (load balancer 2): the error of b is returned and nothing is called; and
listeners a and c of load balancer 1 around b of load balancer 2: two groups, in
input order. -/
theorem Synthesize_resolves_every_reference_first_witness :
    ((Synthesize exELBV2 exManager RangeOrder.stored
        [exResOn "arn:lb/1" "a" 80, exResUnresolved "b" 443 "load balancer not created",
          exResOn "arn:lb/2" "c" 80] [exSDK 80]).err = some "load balancer not created" ∧
      (Synthesize exELBV2 exManager RangeOrder.stored
        [exResOn "arn:lb/1" "a" 80, exResUnresolved "b" 443 "load balancer not created",
          exResOn "arn:lb/2" "c" 80] [exSDK 80]).calls = []) ∧
    (∃ m, mapResListenerByLoadBalancerARN
        [exResOn "arn:lb/1" "a" 80, exResOn "arn:lb/2" "b" 80, exResOn "arn:lb/1" "c" 443]
        = .ok m ∧
      m.get? "arn:lb/1" = some [exResOn "arn:lb/1" "a" 80, exResOn "arn:lb/1" "c" 443] ∧
      m.get? "arn:lb/2" = some [exResOn "arn:lb/2" "b" 80] ∧
      m.get? "arn:lb/3" = none) :=
  ⟨⟨((Synthesize_resolves_every_reference_first exELBV2 exManager RangeOrder.stored
        [exResOn "arn:lb/1" "a" 80, exResUnresolved "b" 443 "load balancer not created",
          exResOn "arn:lb/2" "c" 80] [exSDK 80]).1
        [exResOn "arn:lb/1" "a" 80] (exResUnresolved "b" 443 "load balancer not created")
        [exResOn "arn:lb/2" "c" 80] "load balancer not created" rfl (by decide) rfl).1,
      ((Synthesize_resolves_every_reference_first exELBV2 exManager RangeOrder.stored
        [exResOn "arn:lb/1" "a" 80, exResUnresolved "b" 443 "load balancer not created",
          exResOn "arn:lb/2" "c" 80] [exSDK 80]).1
        [exResOn "arn:lb/1" "a" 80] (exResUnresolved "b" 443 "load balancer not created")
        [exResOn "arn:lb/2" "c" 80] "load balancer not created" rfl (by decide) rfl).2.1⟩,
    Exists.elim
      ((Synthesize_resolves_every_reference_first exELBV2 exManager RangeOrder.stored
        [exResOn "arn:lb/1" "a" 80, exResOn "arn:lb/2" "b" 80, exResOn "arn:lb/1" "c" 443]
        [exSDK 80]).2.2 (by decide))
      (fun m h => ⟨m, h.1, (h.2.1 "arn:lb/1").trans (by decide),
        (h.2.1 "arn:lb/2").trans (by decide), (h.2.1 "arn:lb/3").trans (by decide)⟩)⟩

end deploy

/-- A loop that ends without error leaves the state its items' steps lead to one
after the other. -/
theorem forEach_state_of_ok {α C σ : Type} (f : α → σ → Ran C σ) (step : α → σ → σ)
    (hs : ∀ x s, (f x s).state = step x s) :
    ∀ (xs : List α) (s : σ), (forEach f xs s).err = none →
      (forEach f xs s).state = xs.foldl (fun st x => step x st) s := by
  intro xs
  induction xs with
  | nil => intro s _; rfl
  | cons x xs ih =>
    intro s h
    unfold forEach at h ⊢
    obtain ⟨h1, h2⟩ := (Ran.andThen_err_none _ _).mp h
    rw [Ran.andThen_state_of_ok _ _ h1, ih _ h2, hs, List.foldl_cons]

/-- A loop ends without error exactly when the body succeeds on each item, at the
state the steps of the items before it lead to. -/
theorem forEach_err_none_iff {α C σ : Type} (f : α → σ → Ran C σ) (step : α → σ → σ)
    (hs : ∀ x s, (f x s).state = step x s) :
    ∀ (xs : List α) (s : σ), (forEach f xs s).err = none ↔
      ∀ pre x post, xs = pre ++ x :: post →
        (f x (pre.foldl (fun st x => step x st) s)).err = none := by
  intro xs
  induction xs with
  | nil =>
    intro s
    constructor
    · intro _ pre x post h
      simp at h
    · intro _
      rfl
  | cons y ys ih =>
    intro s
    unfold forEach
    rw [Ran.andThen_err_none, ih, hs]
    constructor
    · rintro ⟨h1, h2⟩ pre x post hsplit
      cases pre with
      | nil =>
        simp only [List.nil_append, List.cons.injEq] at hsplit
        rw [← hsplit.1]
        exact h1
      | cons p pre =>
        simp only [List.cons_append, List.cons.injEq] at hsplit
        rw [← hsplit.1, List.foldl_cons]
        exact h2 pre x post hsplit.2
    · intro h
      refine ⟨h [] y ys rfl, ?_⟩
      intro pre x post hsplit
      have := h (y :: pre) x post (by rw [hsplit]; rfl)
      rw [List.foldl_cons] at this
      exact this

/-- A loop whose body issues exactly the call `c x` on item `x`: whatever way it
ends, it has visited an initial part `done` of the items; its calls are those of
`done`, its state is the one the steps of `done` lead to, the body succeeded on
every item of `done` but possibly the last; when the loop ends without error
`done` is the whole list and the body succeeded on its last item too; when it
ends with an error, that is the error of the body on the last item of `done`. -/
theorem forEach_trace {α C σ : Type} (f : α → σ → Ran C σ) (c : α → C) (step : α → σ → σ)
    (hc : ∀ x s, (f x s).calls = [c x]) (hs : ∀ x s, (f x s).state = step x s) :
    ∀ (xs : List α) (s : σ), ∃ done rest : List α, xs = done ++ rest ∧
      (forEach f xs s).calls = done.map c ∧
      (forEach f xs s).state = done.foldl (fun st x => step x st) s ∧
      (∀ pre x post, done = pre ++ x :: post → post ≠ [] →
        (f x (pre.foldl (fun st x => step x st) s)).err = none) ∧
      ((forEach f xs s).err = none → rest = [] ∧
        ∀ pre x, done = pre ++ [x] →
          (f x (pre.foldl (fun st x => step x st) s)).err = none) ∧
      (∀ e, (forEach f xs s).err = some e →
        ∃ pre x, done = pre ++ [x] ∧
          (f x (pre.foldl (fun st x => step x st) s)).err = some e) := by
  intro xs
  induction xs with
  | nil =>
    intro s
    refine ⟨[], [], rfl, rfl, rfl, ?_, ?_, ?_⟩
    · intro pre x post h
      simp at h
    · intro _
      exact ⟨rfl, fun pre x h => by simp at h⟩
    · intro e h
      simp [forEach] at h
  | cons y ys ih =>
    intro s
    cases hy : (f y s).err with
    | some e0 =>
      refine ⟨[y], ys, rfl, ?_, ?_, ?_, ?_, ?_⟩
      · show ((f y s).andThen (forEach f ys)).calls = _
        rw [Ran.andThen_calls_of_err _ _ (by rw [hy]; simp), hc]
        rfl
      · show ((f y s).andThen (forEach f ys)).state = _
        unfold Ran.andThen
        simp only [hy, hs, List.foldl_cons, List.foldl_nil]
      · intro pre x post h hpost
        cases pre with
        | nil =>
          simp only [List.nil_append, List.cons.injEq] at h
          exact absurd h.2.symm hpost
        | cons p pre =>
          simp only [List.cons_append, List.cons.injEq] at h
          have := h.2
          simp at this
      · intro h
        have h' : ((f y s).andThen (forEach f ys)).err = none := h
        unfold Ran.andThen at h'
        simp [hy] at h'
      · intro e h
        have h' : ((f y s).andThen (forEach f ys)).err = some e := h
        unfold Ran.andThen at h'
        simp only [hy, Option.some.injEq] at h'
        have h := h'
        refine ⟨[], y, rfl, ?_⟩
        rw [← h]
        exact hy
    | none =>
      obtain ⟨done, rest, hsplit, hcalls, hstate, hmid, hok, herr⟩ := ih (f y s).state
      rw [hs] at hcalls hstate hmid hok herr
      have hE : (forEach f (y :: ys) s).err = (forEach f ys (step y s)).err := by
        show ((f y s).andThen (forEach f ys)).err = _
        unfold Ran.andThen
        simp only [hy, hs]
      refine ⟨y :: done, rest, by rw [hsplit]; rfl, ?_, ?_, ?_, ?_, ?_⟩
      · show ((f y s).andThen (forEach f ys)).calls = _
        rw [Ran.andThen_calls_of_ok _ _ hy, hc, hs, hcalls]
        rfl
      · show ((f y s).andThen (forEach f ys)).state = _
        rw [Ran.andThen_state_of_ok _ _ hy, hs, hstate]
        rfl
      · intro pre x post h hpost
        cases pre with
        | nil =>
          simp only [List.nil_append, List.cons.injEq] at h
          rw [← h.1]
          exact hy
        | cons p pre =>
          simp only [List.cons_append, List.cons.injEq] at h
          rw [← h.1, List.foldl_cons]
          exact hmid pre x post h.2 hpost
      · intro h
        rw [hE] at h
        obtain ⟨hrest, hlast⟩ := hok h
        refine ⟨hrest, ?_⟩
        intro pre x hx
        cases pre with
        | nil =>
          simp only [List.nil_append, List.cons.injEq] at hx
          rw [← hx.1]
          exact hy
        | cons p pre =>
          simp only [List.cons_append, List.cons.injEq] at hx
          rw [← hx.1, List.foldl_cons]
          exact hlast pre x hx.2
      · intro e h
        rw [hE] at h
        obtain ⟨pre, x, hd, hx⟩ := herr e h
        exact ⟨y :: pre, x, by rw [hd]; rfl, by rw [List.foldl_cons]; exact hx⟩

namespace tg

theorem GC.deleteOne_state {σ : Type} (cloud : CloudAPI σ) (arn : String) (s : σ) :
    (GC.deleteOne cloud arn s).state = (cloud.DeleteTargetGroupByArn arn s).2 := by
  unfold GC.deleteOne
  split <;> rename_i h <;> rw [h]

theorem GC.deleteOne_err {σ : Type} (cloud : CloudAPI σ) (arn : String) (s : σ) :
    (GC.deleteOne cloud arn s).err =
      (cloud.DeleteTargetGroupByArn arn s).1.map
        (fun err => "failed to delete targetGroup due to " ++ err) := by
  unfold GC.deleteOne
  split <;> rename_i h <;> rw [h] <;> rfl

/-- Claim C1. For every target group group and every list of ARNs the tag-filter
search returns: every ARN `GC` passes to `DeleteTargetGroupByArn` is in the search
result and is not the ARN of a target group of `TGByBackend` (also when the run
is aborted by a failing delete); when the run ends without error, that is when
every delete call succeeded, the deleted ARNs are exactly the search result minus
the referenced ARNs, each deleted once. The delete calls of the log are calls on
the cloud: the state `GC` leaves is the one the cloud is in after it answered
`DeleteTargetGroupByArn` for the logged ARNs in order; the cloud answered success
to every logged delete but possibly the last; when the run ends without error it
answered success to the last one too; and when the run ends with an error the
cloud failed the last logged delete, with the error `GC` wraps. -/
theorem GC_deletes_exactly_unreferenced_search_results {σ : Type} (cloud : CloudAPI σ)
    (oSel oTG oDel : RangeOrder) (tgGroup : TargetGroupGroup) (s s' : σ) (arns : List String)
    (hsearch : cloud.GetResourcesByFilters (GC.tagFilters oSel tgGroup)
      ResourceTypeEnumELBTargetGroup s = (.ok arns, s')) :
    (∀ arn ∈ deletedArns (GC cloud oSel oTG oDel tgGroup s).calls,
        arn ∈ arns ∧ arn ∉ referencedArns tgGroup) ∧
    ((GC cloud oSel oTG oDel tgGroup s).err = none →
      (deletedArns (GC cloud oSel oTG oDel tgGroup s).calls).Nodup ∧
      ∀ arn, arn ∈ deletedArns (GC cloud oSel oTG oDel tgGroup s).calls ↔
        (arn ∈ arns ∧ arn ∉ referencedArns tgGroup)) ∧
    (GC cloud oSel oTG oDel tgGroup s).state =
      cloud.afterDeletes (deletedArns (GC cloud oSel oTG oDel tgGroup s).calls) s' ∧
    (∀ pre arn post,
      deletedArns (GC cloud oSel oTG oDel tgGroup s).calls = pre ++ arn :: post → post ≠ [] →
      (cloud.DeleteTargetGroupByArn arn (cloud.afterDeletes pre s')).1 = none) ∧
    ((GC cloud oSel oTG oDel tgGroup s).err = none →
      ∀ pre arn, deletedArns (GC cloud oSel oTG oDel tgGroup s).calls = pre ++ [arn] →
        (cloud.DeleteTargetGroupByArn arn (cloud.afterDeletes pre s')).1 = none) ∧
    (∀ e, (GC cloud oSel oTG oDel tgGroup s).err = some e →
      ∃ pre arn cloudErr,
        deletedArns (GC cloud oSel oTG oDel tgGroup s).calls = pre ++ [arn] ∧
        (cloud.DeleteTargetGroupByArn arn (cloud.afterDeletes pre s')).1 = some cloudErr ∧
        e = "failed to delete targetGroup due to " ++ cloudErr) := by
  have hold1 := GC.deleted_mem cloud oSel oTG oDel tgGroup s s' arns hsearch
  have hold2 : (GC cloud oSel oTG oDel tgGroup s).err = none →
      (deletedArns (GC cloud oSel oTG oDel tgGroup s).calls).Nodup ∧
      ∀ arn, arn ∈ deletedArns (GC cloud oSel oTG oDel tgGroup s).calls ↔
        (arn ∈ arns ∧ arn ∉ referencedArns tgGroup) := by
    intro herr
    simp only [GC, hsearch, deletedArns] at herr ⊢
    have hc := forEach_calls_of_ok (GC.deleteOne cloud) CloudCall.DeleteTargetGroupByArn
      (GC.deleteOne_calls cloud) _ _ herr
    rw [hc, deletedArns_map_delete]
    refine ⟨?_, GC.mem_unused oTG oDel tgGroup arns⟩
    exact (oDel.perm _).nodup_iff.mpr (GoSet.nodup_Difference _ _ (GoSet.nodup_New arns))
  obtain ⟨done, rest, _, hcalls, hstate, hmid, hok, herr⟩ :=
    forEach_trace (GC.deleteOne cloud) CloudCall.DeleteTargetGroupByArn
      (fun arn st => (cloud.DeleteTargetGroupByArn arn st).2) (GC.deleteOne_calls cloud)
      (GC.deleteOne_state cloud)
      (oDel.apply ((GoSet.New arns).Difference (GC.usedTgArns oTG tgGroup)).elems) s'
  have hdel : deletedArns (GC cloud oSel oTG oDel tgGroup s).calls = done := by
    simp only [GC, hsearch, deletedArns]
    rw [hcalls, deletedArns_map_delete]
  have hE : (GC cloud oSel oTG oDel tgGroup s).err =
      (forEach (GC.deleteOne cloud)
        (oDel.apply ((GoSet.New arns).Difference (GC.usedTgArns oTG tgGroup)).elems) s').err := by
    simp only [GC, hsearch]
  have hS : (GC cloud oSel oTG oDel tgGroup s).state =
      (forEach (GC.deleteOne cloud)
        (oDel.apply ((GoSet.New arns).Difference (GC.usedTgArns oTG tgGroup)).elems) s').state := by
    simp only [GC, hsearch]
  refine ⟨hold1, hold2, ?_, ?_, ?_, ?_⟩
  · rw [hdel, hS, hstate]
    rfl
  · intro pre arn post hsplit hpost
    rw [hdel] at hsplit
    have h := hmid pre arn post hsplit hpost
    rw [GC.deleteOne_err] at h
    cases hc : (cloud.DeleteTargetGroupByArn arn
        (List.foldl (fun st arn => (cloud.DeleteTargetGroupByArn arn st).2) s' pre)).1 with
    | none => exact hc
    | some e => rw [hc] at h; simp at h
  · intro hnone pre arn hsplit
    rw [hdel] at hsplit
    rw [hE] at hnone
    have h := (hok hnone).2 pre arn hsplit
    rw [GC.deleteOne_err] at h
    cases hc : (cloud.DeleteTargetGroupByArn arn
        (List.foldl (fun st arn => (cloud.DeleteTargetGroupByArn arn st).2) s' pre)).1 with
    | none => exact hc
    | some e => rw [hc] at h; simp at h
  · intro e he
    rw [hE] at he
    obtain ⟨pre, arn, hd, hx⟩ := herr e he
    rw [GC.deleteOne_err] at hx
    cases hc : (cloud.DeleteTargetGroupByArn arn
        (List.foldl (fun st arn => (cloud.DeleteTargetGroupByArn arn st).2) s' pre)).1 with
    | none => rw [hc] at hx; simp at hx
    | some cloudErr =>
      rw [hc] at hx
      simp only [Option.map_some', Option.some.injEq] at hx
      exact ⟨pre, arn, cloudErr, by rw [hdel, hd], hc, hx.symm⟩

end tg

namespace tg

/-- Witness of C1: the `web` group on the example cloud. The search returns the
two `web` target groups, every delete succeeds, exactly the unreferenced one is
deleted, and the store `GC` leaves is the one the cloud's delete of that ARN
leaves. On the cloud that fails the delete of `arn:tg/web-2` the run ends with
the wrapped error of that delete. -/
theorem GC_deletes_exactly_unreferenced_search_results_witness :
    ((deletedArns (GC (storeCloud []) RangeOrder.stored RangeOrder.stored
        RangeOrder.reversed exGroupWeb exStore).calls).Nodup ∧
      ∀ arn, arn ∈ deletedArns (GC (storeCloud []) RangeOrder.stored RangeOrder.stored
          RangeOrder.reversed exGroupWeb exStore).calls ↔
        (arn ∈ ["arn:tg/web-1", "arn:tg/web-2"] ∧ arn ∉ referencedArns exGroupWeb)) ∧
    (GC (storeCloud []) RangeOrder.stored RangeOrder.stored RangeOrder.reversed exGroupWeb
        exStore).state =
      (storeCloud []).afterDeletes
        (deletedArns (GC (storeCloud []) RangeOrder.stored RangeOrder.stored
          RangeOrder.reversed exGroupWeb exStore).calls) exStore ∧
    (∃ pre arn cloudErr,
      deletedArns (GC (storeCloud ["arn:tg/web-2"]) RangeOrder.stored RangeOrder.stored
        RangeOrder.reversed exGroupWeb exStore).calls = pre ++ [arn] ∧
      ((storeCloud ["arn:tg/web-2"]).DeleteTargetGroupByArn arn
        ((storeCloud ["arn:tg/web-2"]).afterDeletes pre exStore)).1 = some cloudErr ∧
      "failed to delete targetGroup due to AccessDenied" =
        "failed to delete targetGroup due to " ++ cloudErr) :=
  ⟨(GC_deletes_exactly_unreferenced_search_results (storeCloud []) RangeOrder.stored
      RangeOrder.stored RangeOrder.reversed exGroupWeb exStore exStore
      ["arn:tg/web-1", "arn:tg/web-2"] rfl).2.1 (by decide),
    (GC_deletes_exactly_unreferenced_search_results (storeCloud []) RangeOrder.stored
      RangeOrder.stored RangeOrder.reversed exGroupWeb exStore exStore
      ["arn:tg/web-1", "arn:tg/web-2"] rfl).2.2.1,
    (GC_deletes_exactly_unreferenced_search_results (storeCloud ["arn:tg/web-2"])
      RangeOrder.stored RangeOrder.stored RangeOrder.reversed exGroupWeb exStore exStore
      ["arn:tg/web-1", "arn:tg/web-2"] rfl).2.2.2.2.2
      "failed to delete targetGroup due to AccessDenied" (by decide)⟩

end tg

namespace deploy

theorem deleteStep_state {σ : Type} (lsManager : ListenerManager σ)
    (sdkLS : elbv2sdk.Listener) (s : σ) :
    (synthesizeListenersOnLB.deleteStep lsManager sdkLS s).state =
      (lsManager.Delete sdkLS s).2 := by
  unfold synthesizeListenersOnLB.deleteStep
  split <;> rename_i h <;> rw [h]

theorem createStep_state {σ : Type} (lsManager : ListenerManager σ) (resLS : Listener)
    (s : σ) :
    (synthesizeListenersOnLB.createStep lsManager resLS s).state =
      (lsManager.Create resLS s).2 := by
  unfold synthesizeListenersOnLB.createStep
  split <;> rename_i h <;> rw [h]

theorem updateStep_state {σ : Type} (lsManager : ListenerManager σ)
    (pair : resAndSDKListenerPair) (s : σ) :
    (synthesizeListenersOnLB.updateStep lsManager pair s).state =
      (lsManager.Update pair.resLS pair.sdkLS s).2 := by
  unfold synthesizeListenersOnLB.updateStep
  split <;> rename_i h <;> rw [h]

theorem deleteStep_err_none_iff {σ : Type} (lsManager : ListenerManager σ)
    (sdkLS : elbv2sdk.Listener) (s : σ) :
    (synthesizeListenersOnLB.deleteStep lsManager sdkLS s).err = none ↔
      (lsManager.Delete sdkLS s).1 = none := by
  unfold synthesizeListenersOnLB.deleteStep
  split <;> rename_i h <;> rw [h]

theorem createStep_err_none_iff {σ : Type} (lsManager : ListenerManager σ) (resLS : Listener)
    (s : σ) :
    (synthesizeListenersOnLB.createStep lsManager resLS s).err = none ↔
      ∃ lsStatus, (lsManager.Create resLS s).1 = .ok lsStatus := by
  unfold synthesizeListenersOnLB.createStep
  split <;> rename_i h <;> rw [h] <;> simp

theorem updateStep_err_none_iff {σ : Type} (lsManager : ListenerManager σ)
    (pair : resAndSDKListenerPair) (s : σ) :
    (synthesizeListenersOnLB.updateStep lsManager pair s).err = none ↔
      ∃ lsStatus, (lsManager.Update pair.resLS pair.sdkLS s).1 = .ok lsStatus := by
  unfold synthesizeListenersOnLB.updateStep
  split <;> rename_i h <;> rw [h] <;> simp

/-- A run of `synthesizeListenersOnLB` after a successful describe call ends
without error exactly when the manager answers success to the delete of every
unmatched actual listener, the create of every unmatched desired listener and the
update of every matched pair, each asked at the state the manager is in after
the calls before it; and then it leaves the manager in the state after all of
them. -/
theorem synthesizeListenersOnLB_ok_iff {σ : Type} (elbv2Client : ELBV2 σ)
    (lsManager : ListenerManager σ) (lbARN : String) (resLSs : List Listener) (s s' : σ)
    (sdkLSs : List elbv2sdk.Listener)
    (hdesc : findSDKListenersOnLB elbv2Client lbARN s = (.ok sdkLSs, s')) :
    ((synthesizeListenersOnLB elbv2Client lsManager lbARN resLSs s).err = none ↔
      ((∀ pre a post, (matchResAndSDKListeners resLSs sdkLSs).2.2 = pre ++ a :: post →
          (lsManager.Delete a (lsManager.afterDeletes pre s')).1 = none) ∧
        (∀ pre r post, (matchResAndSDKListeners resLSs sdkLSs).2.1 = pre ++ r :: post →
          ∃ lsStatus, (lsManager.Create r (lsManager.afterCreates pre
            (lsManager.afterDeletes (matchResAndSDKListeners resLSs sdkLSs).2.2 s'))).1
            = .ok lsStatus) ∧
        (∀ pre pair post, (matchResAndSDKListeners resLSs sdkLSs).1 = pre ++ pair :: post →
          ∃ lsStatus, (lsManager.Update pair.resLS pair.sdkLS (lsManager.afterUpdates pre
            (lsManager.afterCreates (matchResAndSDKListeners resLSs sdkLSs).2.1
              (lsManager.afterDeletes (matchResAndSDKListeners resLSs sdkLSs).2.2 s')))).1
            = .ok lsStatus))) ∧
    ((synthesizeListenersOnLB elbv2Client lsManager lbARN resLSs s).err = none →
      (synthesizeListenersOnLB elbv2Client lsManager lbARN resLSs s).state =
        lsManager.afterUpdates (matchResAndSDKListeners resLSs sdkLSs).1
          (lsManager.afterCreates (matchResAndSDKListeners resLSs sdkLSs).2.1
            (lsManager.afterDeletes (matchResAndSDKListeners resLSs sdkLSs).2.2 s'))) := by
  have hD := forEach_err_none_iff (synthesizeListenersOnLB.deleteStep lsManager)
    (fun a st => (lsManager.Delete a st).2) (deleteStep_state lsManager)
  have hC := forEach_err_none_iff (synthesizeListenersOnLB.createStep lsManager)
    (fun r st => (lsManager.Create r st).2) (createStep_state lsManager)
  have hU := forEach_err_none_iff (synthesizeListenersOnLB.updateStep lsManager)
    (fun (p : resAndSDKListenerPair) st => (lsManager.Update p.resLS p.sdkLS st).2)
    (updateStep_state lsManager)
  have hDs := forEach_state_of_ok (synthesizeListenersOnLB.deleteStep lsManager)
    (fun a st => (lsManager.Delete a st).2) (deleteStep_state lsManager)
  have hCs := forEach_state_of_ok (synthesizeListenersOnLB.createStep lsManager)
    (fun r st => (lsManager.Create r st).2) (createStep_state lsManager)
  have hUs := forEach_state_of_ok (synthesizeListenersOnLB.updateStep lsManager)
    (fun (p : resAndSDKListenerPair) st => (lsManager.Update p.resLS p.sdkLS st).2)
    (updateStep_state lsManager)
  have hE : (synthesizeListenersOnLB elbv2Client lsManager lbARN resLSs s).err = none ↔
      ((forEach (synthesizeListenersOnLB.deleteStep lsManager)
          (matchResAndSDKListeners resLSs sdkLSs).2.2 s').err = none ∧
        (forEach (synthesizeListenersOnLB.createStep lsManager)
          (matchResAndSDKListeners resLSs sdkLSs).2.1
          (forEach (synthesizeListenersOnLB.deleteStep lsManager)
            (matchResAndSDKListeners resLSs sdkLSs).2.2 s').state).err = none ∧
        (forEach (synthesizeListenersOnLB.updateStep lsManager)
          (matchResAndSDKListeners resLSs sdkLSs).1
          (forEach (synthesizeListenersOnLB.createStep lsManager)
            (matchResAndSDKListeners resLSs sdkLSs).2.1
            (forEach (synthesizeListenersOnLB.deleteStep lsManager)
              (matchResAndSDKListeners resLSs sdkLSs).2.2 s').state).state).err = none) := by
    simp only [synthesizeListenersOnLB, hdesc]
    rw [Ran.andThen_err_none, Ran.andThen_err_none]
  constructor
  · rw [hE]
    constructor
    · rintro ⟨h1, h2, h3⟩
      have s1 := hDs _ _ h1
      have s2 := hCs _ _ h2
      rw [s1] at h2 s2 h3
      rw [s2] at h3
      refine ⟨?_, ?_, ?_⟩
      · intro pre a post hsplit
        exact (deleteStep_err_none_iff lsManager a _).mp ((hD _ _).mp h1 pre a post hsplit)
      · intro pre r post hsplit
        exact (createStep_err_none_iff lsManager r _).mp ((hC _ _).mp h2 pre r post hsplit)
      · intro pre pair post hsplit
        exact (updateStep_err_none_iff lsManager pair _).mp
          ((hU _ _).mp h3 pre pair post hsplit)
    · rintro ⟨g1, g2, g3⟩
      have h1 : (forEach (synthesizeListenersOnLB.deleteStep lsManager)
          (matchResAndSDKListeners resLSs sdkLSs).2.2 s').err = none :=
        (hD _ _).mpr (fun pre a post hsplit =>
          (deleteStep_err_none_iff lsManager a _).mpr (g1 pre a post hsplit))
      have s1 := hDs _ _ h1
      have h2 : (forEach (synthesizeListenersOnLB.createStep lsManager)
          (matchResAndSDKListeners resLSs sdkLSs).2.1
          (forEach (synthesizeListenersOnLB.deleteStep lsManager)
            (matchResAndSDKListeners resLSs sdkLSs).2.2 s').state).err = none := by
        rw [s1]
        exact (hC _ _).mpr (fun pre r post hsplit =>
          (createStep_err_none_iff lsManager r _).mpr (g2 pre r post hsplit))
      have s2 := hCs _ _ h2
      refine ⟨h1, h2, ?_⟩
      rw [s2, s1]
      exact (hU _ _).mpr (fun pre pair post hsplit =>
        (updateStep_err_none_iff lsManager pair _).mpr (g3 pre pair post hsplit))
  · intro hok
    obtain ⟨h1, h2, h3⟩ := hE.mp hok
    have s1 := hDs _ _ h1
    have s2 := hCs _ _ h2
    have s3 := hUs _ _ h3
    have hS : (synthesizeListenersOnLB elbv2Client lsManager lbARN resLSs s).state =
        (forEach (synthesizeListenersOnLB.updateStep lsManager)
          (matchResAndSDKListeners resLSs sdkLSs).1
          (forEach (synthesizeListenersOnLB.createStep lsManager)
            (matchResAndSDKListeners resLSs sdkLSs).2.1
            (forEach (synthesizeListenersOnLB.deleteStep lsManager)
              (matchResAndSDKListeners resLSs sdkLSs).2.2 s').state).state).state := by
      simp only [synthesizeListenersOnLB, hdesc]
      rw [Ran.andThen_state_of_ok _ _ h1, Ran.andThen_state_of_ok _ _ h2]
    rw [hS, s3, s2, s1]
    rfl

end deploy

namespace deploy

/-- Claim C5. For every load balancer whose desired listeners and whose actual
listeners (as the describe call returns them) each have pairwise distinct ports:
with `D` the actual listeners whose port is not desired, `C` the desired listeners
whose port is not actual and `U` the pairs of a desired and an actual listener of
the same port, `synthesizeListenersOnLB` ends without error exactly when the
manager answers success to `Delete` on every listener of `D`, to `Create` on every
listener of `C` and to `Update` on every pair of `U`, each asked at the state the
manager is in after the calls before it; and then the calls it issued on the
manager are exactly one `Delete` per listener of `D`, then one `Create` per
listener of `C`, then one `Update` per pair of `U`, every `Delete` before every
`Create` and every `Create` before every `Update`, and the manager is left in the
state after these calls. For actual ports 80 and 443 and desired ports 443 and
8443 these are one delete (80), one create (8443) and one update (443). -/
theorem synthesizeListenersOnLB_deletes_creates_updates {σ : Type} (elbv2Client : ELBV2 σ)
    (lsManager : ListenerManager σ) (lbARN : String) (resLSs : List Listener) (s s' : σ)
    (sdkLSs : List elbv2sdk.Listener)
    (hdesc : findSDKListenersOnLB elbv2Client lbARN s = (.ok sdkLSs, s'))
    (hres : (resPorts resLSs).Nodup) (hsdk : (sdkPorts sdkLSs).Nodup) :
    (∃ (D : List elbv2sdk.Listener) (C : List Listener) (U : List resAndSDKListenerPair),
      D.Nodup ∧ (∀ ls, ls ∈ D ↔ (ls ∈ sdkLSs ∧ Int64Value ls.Port ∉ resPorts resLSs)) ∧
      C.Nodup ∧ (∀ ls, ls ∈ C ↔ (ls ∈ resLSs ∧ ls.Spec.Port ∉ sdkPorts sdkLSs)) ∧
      U.Nodup ∧ (∀ pair, pair ∈ U ↔ (pair.resLS ∈ resLSs ∧ pair.sdkLS ∈ sdkLSs ∧
        pair.resLS.Spec.Port = Int64Value pair.sdkLS.Port)) ∧
      ((synthesizeListenersOnLB elbv2Client lsManager lbARN resLSs s).err = none ↔
        ((∀ pre a post, D = pre ++ a :: post →
            (lsManager.Delete a (lsManager.afterDeletes pre s')).1 = none) ∧
          (∀ pre r post, C = pre ++ r :: post →
            ∃ lsStatus, (lsManager.Create r
              (lsManager.afterCreates pre (lsManager.afterDeletes D s'))).1 = .ok lsStatus) ∧
          (∀ pre pair post, U = pre ++ pair :: post →
            ∃ lsStatus, (lsManager.Update pair.resLS pair.sdkLS
              (lsManager.afterUpdates pre (lsManager.afterCreates C
                (lsManager.afterDeletes D s')))).1 = .ok lsStatus))) ∧
      ((synthesizeListenersOnLB elbv2Client lsManager lbARN resLSs s).err = none →
        managerCalls (synthesizeListenersOnLB elbv2Client lsManager lbARN resLSs s).calls =
          D.map Event.Delete ++ C.map Event.Create ++
            U.map (fun pair => Event.Update pair.resLS pair.sdkLS) ∧
        (synthesizeListenersOnLB elbv2Client lsManager lbARN resLSs s).state =
          lsManager.afterUpdates U (lsManager.afterCreates C
            (lsManager.afterDeletes D s')))) ∧
    (∀ (τ : Type) (client : ELBV2 τ) (manager : ListenerManager τ) (t t' : τ),
      findSDKListenersOnLB client "arn:lb/1" t = (.ok [exSDK 80, exSDK 443], t') →
      (synthesizeListenersOnLB client manager "arn:lb/1" [exRes 443, exRes 8443] t).err = none →
      managerCalls (synthesizeListenersOnLB client manager "arn:lb/1"
          [exRes 443, exRes 8443] t).calls =
        [Event.Delete (exSDK 80), Event.Create (exRes 8443),
          Event.Update (exRes 443) (exSDK 443)] ∧
      (synthesizeListenersOnLB client manager "arn:lb/1" [exRes 443, exRes 8443] t).state =
        (manager.Update (exRes 443) (exSDK 443)
          (manager.Create (exRes 8443) (manager.Delete (exSDK 80) t').2).2).2) ∧
    ((synthesizeListenersOnLB exELBV2 exManager "arn:lb/1" [exRes 443, exRes 8443]
        [exSDK 80, exSDK 443]).err = none ∧
      (synthesizeListenersOnLB exELBV2 exManager "arn:lb/1" [exRes 443, exRes 8443]
        [exSDK 80, exSDK 443]).state = [exSDK 443, exSDK 8443]) := by
  refine ⟨?_, ?_, by decide, by decide⟩
  · obtain ⟨hiff, hstate⟩ := synthesizeListenersOnLB_ok_iff elbv2Client lsManager lbARN
      resLSs s s' sdkLSs hdesc
    refine ⟨(matchResAndSDKListeners resLSs sdkLSs).2.2,
      (matchResAndSDKListeners resLSs sdkLSs).2.1,
      (matchResAndSDKListeners resLSs sdkLSs).1, ?_, ?_, ?_, ?_, ?_, ?_, hiff, ?_⟩
    · apply List.Nodup.of_map (fun ls : elbv2sdk.Listener => Int64Value ls.Port)
      have h := sdkPorts_unmatched resLSs sdkLSs
      unfold sdkPorts at h
      rw [h]
      exact GoSet.nodup_SortedList _ (GoSet.nodup_Difference _ _ (nodup_KeySet _))
    · intro ls
      exact ⟨mem_unmatchedSDK resLSs sdkLSs ls,
        fun h => mem_unmatchedSDK_of_nodup resLSs sdkLSs hsdk ls h.1 h.2⟩
    · apply List.Nodup.of_map (fun ls : Listener => ls.Spec.Port)
      have h := resPorts_unmatched resLSs sdkLSs
      unfold resPorts at h
      rw [h]
      exact GoSet.nodup_SortedList _ (GoSet.nodup_Difference _ _ (nodup_KeySet _))
    · intro ls
      exact ⟨mem_unmatchedRes resLSs sdkLSs ls,
        fun h => mem_unmatchedRes_of_nodup resLSs sdkLSs hres ls h.1 h.2⟩
    · apply List.Nodup.of_map (fun pair : resAndSDKListenerPair => pair.resLS.Spec.Port)
      have h := pairPorts_matched resLSs sdkLSs
      unfold pairPorts at h
      rw [h]
      exact GoSet.nodup_SortedList _ (GoSet.nodup_Intersection _ _ (nodup_KeySet _))
    · intro pair
      exact ⟨mem_matched resLSs sdkLSs pair,
        fun h => mem_matched_of_nodup resLSs sdkLSs hres hsdk pair h.1 h.2.1 h.2.2⟩
    · intro hok
      exact ⟨synthesizeListenersOnLB_managerCalls elbv2Client lsManager lbARN resLSs s s'
        sdkLSs hdesc hok, hstate hok⟩
  · intro τ client manager t t' hd ho
    constructor
    · rw [synthesizeListenersOnLB_managerCalls client manager "arn:lb/1" _ t t' _ hd ho]
      decide
    · rw [(synthesizeListenersOnLB_ok_iff client manager "arn:lb/1" _ t t' _ hd).2 ho]
      have hm : matchResAndSDKListeners [exRes 443, exRes 8443] [exSDK 80, exSDK 443] =
          ([{ resLS := exRes 443, sdkLS := exSDK 443 }], [exRes 8443], [exSDK 80]) := by
        decide
      rw [hm]
      rfl

/-- Witness of C5: the example load balancer with actual ports 80 and 443,
desired ports 443 and 8443 and a manager whose calls succeed. -/
theorem synthesizeListenersOnLB_deletes_creates_updates_witness :
    (managerCalls (synthesizeListenersOnLB exELBV2 exManager "arn:lb/1"
        [exRes 443, exRes 8443] [exSDK 80, exSDK 443]).calls =
      [Event.Delete (exSDK 80), Event.Create (exRes 8443),
        Event.Update (exRes 443) (exSDK 443)] ∧
      (synthesizeListenersOnLB exELBV2 exManager "arn:lb/1" [exRes 443, exRes 8443]
        [exSDK 80, exSDK 443]).state =
        (exManager.Update (exRes 443) (exSDK 443)
          (exManager.Create (exRes 8443)
            (exManager.Delete (exSDK 80) [exSDK 80, exSDK 443]).2).2).2) ∧
    (exManager.Update (exRes 443) (exSDK 443)
      (exManager.Create (exRes 8443)
        (exManager.Delete (exSDK 80) [exSDK 80, exSDK 443]).2).2).2 =
      [exSDK 443, exSDK 8443] :=
  ⟨(synthesizeListenersOnLB_deletes_creates_updates exELBV2 exManager "arn:lb/1"
    [exRes 443, exRes 8443] [exSDK 80, exSDK 443] [exSDK 80, exSDK 443]
    [exSDK 80, exSDK 443] rfl (by decide) (by decide)).2.1
    (List elbv2sdk.Listener) exELBV2 exManager [exSDK 80, exSDK 443] [exSDK 80, exSDK 443]
    rfl (by decide), by decide⟩

end deploy

namespace tg

open k8s

/-- The log of the loop of `Reconcile` is faithful to the reconciler: the loop
leaves the state the reconciler is in after the logged calls, and what each
logged call records as returned is what the reconciler answers for that backend
at the state after the calls before it. -/
theorem Reconcile.loop_faithful {σ : Type} (tgController : Controller σ) (ingress : Ingress)
    (bs : List IngressBackend) :
    ∀ (m : GoMap IngressBackend TargetGroup) (s : σ),
      (Reconcile.loop tgController ingress bs m s).state =
        tgController.afterReconciles ingress
          ((Reconcile.loop tgController ingress bs m s).calls.map (fun c => c.backend)) s ∧
      ∀ pre c post, (Reconcile.loop tgController ingress bs m s).calls = pre ++ c :: post →
        c.returned = (tgController.Reconcile ingress c.backend
          (tgController.afterReconciles ingress (pre.map (fun c => c.backend)) s)).1 := by
  induction bs with
  | nil =>
    intro m s
    refine ⟨rfl, ?_⟩
    intro pre c post h
    simp [Reconcile.loop] at h
  | cons b rest ih =>
    intro m s
    unfold Reconcile.loop
    cases hb : m.get? b with
    | some tg0 =>
      simp only [hb]
      exact ih m s
    | none =>
      simp only [hb]
      cases hr : tgController.Reconcile ingress b s with
      | mk res s1 =>
        cases res with
        | error err =>
          simp only
          refine ⟨?_, ?_⟩
          · simp only [List.map_cons, List.map_nil, Controller.afterReconciles,
              List.foldl_cons, List.foldl_nil, hr]
          · intro pre c post h
            cases pre with
            | nil =>
              simp only [List.nil_append, List.cons.injEq] at h
              rw [← h.1]
              simp only [List.map_nil, Controller.afterReconciles, List.foldl_nil, hr]
            | cons p pre =>
              simp only [List.cons_append, List.cons.injEq] at h
              have := h.2
              simp at this
        | ok tg =>
          simp only
          obtain ⟨ih1, ih2⟩ := ih (m.set b tg) s1
          refine ⟨?_, ?_⟩
          · rw [ih1]
            simp only [List.map_cons, Controller.afterReconciles, List.foldl_cons, hr]
          · intro pre c post h
            cases pre with
            | nil =>
              simp only [List.nil_append, List.cons.injEq] at h
              rw [← h.1]
              simp only [List.map_nil, Controller.afterReconciles, List.foldl_nil, hr]
            | cons p pre =>
              simp only [List.cons_append, List.cons.injEq] at h
              rw [ih2 pre c post h.2, ← h.1]
              simp only [List.map_cons, Controller.afterReconciles, List.foldl_cons, hr]

end tg

namespace tg

open k8s

/-- In a run of the loop of `Reconcile` that ends without error every logged call
records a target group. -/
theorem Reconcile.loop_returned_ok {σ : Type} (tgController : Controller σ) (ingress : Ingress)
    (bs : List IngressBackend) (m : GoMap IngressBackend TargetGroup) (s : σ)
    (hok : (Reconcile.loop tgController ingress bs m s).err = none)
    (c : ReconcilerCall) (hc : c ∈ (Reconcile.loop tgController ingress bs m s).calls) :
    ∃ tg, c.returned = .ok tg := by
  cases hr : c.returned with
  | ok tg => exact ⟨tg, rfl⟩
  | error e =>
    have := Reconcile.loop_error tgController ingress bs m s c hc e hr
    rw [hok] at this
    cases this

/-- Claim C12. For every ingress whose extracted backend list is `bs`, a run of
`Reconcile` that ends without error (every per-backend reconcile succeeded) calls
the target group reconciler exactly once per distinct backend of `bs`, in the
order of first occurrence in `bs`, each time for this ingress; the key set of
`TGByBackend` is the set of the backends of `bs`, each key is mapped to the
target group the reconciler returned for it, and the selector is the one derived
from the namespace and name of the ingress. The target group of a backend is the
one `tgController.Reconcile` answers for this ingress and that backend at the
state the reconciler is in after the calls for the distinct backends before it,
and `Reconcile` leaves the reconciler in the state after the calls for all
distinct backends. Two distinct backends (svc-a:80, svc-b:8080) yield two
reconciler calls and two entries, holding the target groups the reconciler
answered. -/
theorem Reconcile_once_per_distinct_backend {σ : Type} (store : Storer)
    (use : String → Bool) (tgController : Controller σ) (nameTagGen : NameTagGenerator)
    (ingress : Ingress) (s : σ) (bs : List IngressBackend)
    (hext : extractTargetGroupBackends store use ingress = .ok bs)
    (hok : (Reconcile store use tgController nameTagGen ingress s).err = none) :
    (Reconcile store use tgController nameTagGen ingress s).calls.map (fun c => c.backend) =
      firstOccurrences bs ∧
    (∀ c ∈ (Reconcile store use tgController nameTagGen ingress s).calls,
      c.ingress = ingress) ∧
    (∀ b, b ∈ (Reconcile store use tgController nameTagGen ingress s).group.TGByBackend.keys ↔
      b ∈ bs) ∧
    (∀ b tg,
      (Reconcile store use tgController nameTagGen ingress s).group.TGByBackend.get? b = some tg ↔
        ∃ c ∈ (Reconcile store use tgController nameTagGen ingress s).calls,
          c.backend = b ∧ c.returned = .ok tg) ∧
    (Reconcile store use tgController nameTagGen ingress s).group.selector =
      nameTagGen.TagTGGroup ingress.Namespace ingress.Name ∧
    (∀ pre b post, firstOccurrences bs = pre ++ b :: post →
      ∃ tg, (tgController.Reconcile ingress b
          (tgController.afterReconciles ingress pre s)).1 = .ok tg ∧
        (Reconcile store use tgController nameTagGen ingress s).group.TGByBackend.get? b
          = some tg) ∧
    (Reconcile store use tgController nameTagGen ingress s).state =
      tgController.afterReconciles ingress (firstOccurrences bs) s ∧
    (∀ (τ : Type) (store' : Storer) (use' : String → Bool) (tgController' : Controller τ)
      (nameTagGen' : NameTagGenerator) (ingress' : Ingress) (t : τ),
      extractTargetGroupBackends store' use' ingress' =
        .ok [⟨"svc-a", .int 80⟩, ⟨"svc-b", .int 8080⟩] →
      (Reconcile store' use' tgController' nameTagGen' ingress' t).err = none →
      (Reconcile store' use' tgController' nameTagGen' ingress' t).calls.map
          (fun c => c.backend) = [⟨"svc-a", .int 80⟩, ⟨"svc-b", .int 8080⟩] ∧
      (Reconcile store' use' tgController' nameTagGen'
        ingress' t).group.TGByBackend.entries.length = 2 ∧
      (∃ tgA tgB,
        (tgController'.Reconcile ingress' ⟨"svc-a", .int 80⟩ t).1 = .ok tgA ∧
        (tgController'.Reconcile ingress' ⟨"svc-b", .int 8080⟩
          (tgController'.Reconcile ingress' ⟨"svc-a", .int 80⟩ t).2).1 = .ok tgB ∧
        (Reconcile store' use' tgController' nameTagGen'
          ingress' t).group.TGByBackend.get? ⟨"svc-a", .int 80⟩ = some tgA ∧
        (Reconcile store' use' tgController' nameTagGen'
          ingress' t).group.TGByBackend.get? ⟨"svc-b", .int 8080⟩ = some tgB)) := by
  have key : ∀ (τ : Type) (store' : Storer) (use' : String → Bool)
      (tgController' : Controller τ) (nameTagGen' : NameTagGenerator) (ingress' : Ingress)
      (t : τ) (bs' : List IngressBackend),
      extractTargetGroupBackends store' use' ingress' = .ok bs' →
      (Reconcile store' use' tgController' nameTagGen' ingress' t).err = none →
      (Reconcile store' use' tgController' nameTagGen' ingress' t).calls.map
          (fun c => c.backend) = firstOccurrences bs' ∧
      (∀ b, b ∈ (Reconcile store' use' tgController' nameTagGen'
        ingress' t).group.TGByBackend.keys ↔ b ∈ bs') ∧
      (∀ pre b post, firstOccurrences bs' = pre ++ b :: post →
        ∃ tg, (tgController'.Reconcile ingress' b
            (tgController'.afterReconciles ingress' pre t)).1 = .ok tg ∧
          (Reconcile store' use' tgController' nameTagGen' ingress' t).group.TGByBackend.get? b
            = some tg) ∧
      (Reconcile store' use' tgController' nameTagGen' ingress' t).state =
        tgController'.afterReconciles ingress' (firstOccurrences bs') t := by
    intro τ store' use' tgController' nameTagGen' ingress' t bs' hext' hok'
    obtain ⟨hl, hc, hg⟩ := Reconcile.of_ok store' use' tgController' nameTagGen' ingress' t
      bs' hext' hok'
    have hcalls : (Reconcile.loop tgController' ingress' bs' GoMap.empty t).calls.map
        (fun c => c.backend) = firstOccurrences bs' := by
      rw [Reconcile.loop_calls tgController' ingress' bs' GoMap.empty t hl, filter_isNone_empty]
    obtain ⟨hf1, hf2⟩ := Reconcile.loop_faithful tgController' ingress' bs' GoMap.empty t
    refine ⟨by rw [hc]; exact hcalls, ?_, ?_, ?_⟩
    · intro b
      rw [hg, GoMap.mem_keys_iff_get?]
      constructor
      · intro h
        rcases Reconcile.loop_keys tgController' ingress' bs' GoMap.empty t b h with h1 | h1
        · exact absurd rfl h1
        · exact h1
      · intro h
        exact Reconcile.loop_keys_of_ok tgController' ingress' bs' GoMap.empty t hl b
          (Or.inr h)
    · intro pre b post hsplit
      rw [← hcalls] at hsplit
      obtain ⟨cpre, crest, hcs, hpre, hrest⟩ := List.map_eq_append_iff.mp hsplit
      obtain ⟨c, cpost, hcr, hcb, _⟩ := List.map_eq_cons_iff.mp hrest
      rw [hcr] at hcs
      have hret := hf2 cpre c cpost hcs
      rw [hpre, hcb] at hret
      obtain ⟨tg, htg⟩ := Reconcile.loop_returned_ok tgController' ingress' bs' GoMap.empty t
        hl c (by rw [hcs]; simp)
      refine ⟨tg, by rw [← hret, htg], ?_⟩
      rw [hg]
      exact (Reconcile.loop_get? tgController' ingress' bs' GoMap.empty t hl b tg).mpr
        (Or.inr ⟨c, by rw [hcs]; simp, hcb, htg⟩)
    · have hS : (Reconcile store' use' tgController' nameTagGen' ingress' t).state =
          (Reconcile.loop tgController' ingress' bs' GoMap.empty t).state := by
        simp only [Reconcile, hext']
        cases hr : (Reconcile.loop tgController' ingress' bs' GoMap.empty t).err with
        | some e => rfl
        | none => rfl
      rw [hS, hf1, hcalls]
  obtain ⟨hl, hc, hg⟩ := Reconcile.of_ok store use tgController nameTagGen ingress s bs
    hext hok
  obtain ⟨k1, k2, k3, k4⟩ := key σ store use tgController nameTagGen ingress s bs hext hok
  refine ⟨k1, ?_, k2, ?_, ?_, k3, k4, ?_⟩
  · rw [hc]
    exact Reconcile.loop_ingress tgController ingress bs GoMap.empty s
  · intro b tg
    rw [hg, hc, Reconcile.loop_get? tgController ingress bs GoMap.empty s hl b tg]
    constructor
    · rintro (h | h)
      · cases h
      · exact h
    · intro h
      exact Or.inr h
  · rw [hg]
  · intro τ store' use' tgController' nameTagGen' ingress' t hext' hok'
    obtain ⟨h1, h2, h3, _⟩ := key τ store' use' tgController' nameTagGen' ingress' t _
      hext' hok'
    have hfo : firstOccurrences [(⟨"svc-a", .int 80⟩ : IngressBackend), ⟨"svc-b", .int 8080⟩]
        = [⟨"svc-a", .int 80⟩, ⟨"svc-b", .int 8080⟩] := by decide
    refine ⟨by rw [h1]; exact hfo, ?_, ?_⟩
    · rw [GoMap.length_entries]
      have hperm : (Reconcile store' use' tgController' nameTagGen'
          ingress' t).group.TGByBackend.keys.Perm
          [(⟨"svc-a", .int 80⟩ : IngressBackend), ⟨"svc-b", .int 8080⟩] :=
        (List.perm_ext_iff_of_nodup (GoMap.nodup_keys _) (by decide)).mpr h2
      rw [hperm.length_eq]
      rfl
    · obtain ⟨tgA, hA1, hA2⟩ := h3 [] ⟨"svc-a", .int 80⟩ [⟨"svc-b", .int 8080⟩]
        (by rw [hfo]; rfl)
      obtain ⟨tgB, hB1, hB2⟩ := h3 [⟨"svc-a", .int 80⟩] ⟨"svc-b", .int 8080⟩ []
        (by rw [hfo]; rfl)
      exact ⟨tgA, tgB, hA1, hB1, hA2, hB2⟩

end tg

namespace tg

open k8s

/-- Witness of C12: the example ingress, whose extracted backends are svc-a:80,
svc-b:8080 and svc-a:80 again, with a reconciler that succeeds: two calls, and
svc-a:80 is mapped to the target group the reconciler answers for it. -/
theorem Reconcile_once_per_distinct_backend_witness :
    ((Reconcile (exIngressStore []) exUse (exTGController []) exNameTagGen exIngress
        []).calls.map (fun c => c.backend) =
      firstOccurrences [⟨"svc-a", .int 80⟩, ⟨"svc-b", .int 8080⟩, ⟨"svc-a", .int 80⟩] ∧
    firstOccurrences [(⟨"svc-a", .int 80⟩ : IngressBackend), ⟨"svc-b", .int 8080⟩,
        ⟨"svc-a", .int 80⟩] = [⟨"svc-a", .int 80⟩, ⟨"svc-b", .int 8080⟩]) ∧
    (∃ tg, ((exTGController []).Reconcile exIngress ⟨"svc-b", .int 8080⟩
        ((exTGController []).afterReconciles exIngress [⟨"svc-a", .int 80⟩] [])).1 = .ok tg ∧
      (Reconcile (exIngressStore []) exUse (exTGController []) exNameTagGen exIngress
        []).group.TGByBackend.get? ⟨"svc-b", .int 8080⟩ = some tg) ∧
    (Reconcile (exIngressStore []) exUse (exTGController []) exNameTagGen exIngress
        []).group.TGByBackend.get? ⟨"svc-b", .int 8080⟩ = some { Arn := "arn:tg/svc-b-8080" } :=
  ⟨⟨(Reconcile_once_per_distinct_backend (exIngressStore []) exUse (exTGController [])
      exNameTagGen exIngress []
      [⟨"svc-a", .int 80⟩, ⟨"svc-b", .int 8080⟩, ⟨"svc-a", .int 80⟩] rfl (by decide)).1,
      by decide⟩,
    (Reconcile_once_per_distinct_backend (exIngressStore []) exUse (exTGController [])
      exNameTagGen exIngress []
      [⟨"svc-a", .int 80⟩, ⟨"svc-b", .int 8080⟩, ⟨"svc-a", .int 80⟩] rfl
      (by decide)).2.2.2.2.2.1 [⟨"svc-a", .int 80⟩] ⟨"svc-b", .int 8080⟩ [] (by decide),
    by decide⟩

end tg

namespace ls

theorem groupDeleteStep_state {σ : Type} (cloud : CloudAPI σ) (inst : elbv2sdk.Listener)
    (s : σ) :
    (defaultGroupController.deleteStep cloud inst s).state =
      (cloud.DeleteListenersByArn (StringValue inst.ListenerArn) s).2 := by
  unfold defaultGroupController.deleteStep
  split <;> rename_i h <;> rw [h]

theorem groupDeleteStep_err {σ : Type} (cloud : CloudAPI σ) (inst : elbv2sdk.Listener)
    (s : σ) :
    (defaultGroupController.deleteStep cloud inst s).err =
      (cloud.DeleteListenersByArn (StringValue inst.ListenerArn) s).1 := by
  unfold defaultGroupController.deleteStep
  split <;> rename_i h <;> rw [h]

theorem groupReconcileStep_state {σ : Type} (lsController : Controller σ) (lbArn : String)
    (service : k8s.Service) (serviceAnnos : ServiceAnnos) (tgGroup : TargetGroupGroup)
    (instancesByPort : GoMap Int elbv2sdk.Listener) (port : PortData) (s : σ) :
    (defaultGroupController.reconcileStep lsController lbArn service serviceAnnos tgGroup
      instancesByPort port s).state =
      (lsController.Reconcile (defaultGroupController.optionsFor lbArn service serviceAnnos
        tgGroup instancesByPort port) s).2 := by
  unfold defaultGroupController.reconcileStep
  split <;> rename_i h <;> rw [h]

theorem groupReconcileStep_err {σ : Type} (lsController : Controller σ) (lbArn : String)
    (service : k8s.Service) (serviceAnnos : ServiceAnnos) (tgGroup : TargetGroupGroup)
    (instancesByPort : GoMap Int elbv2sdk.Listener) (port : PortData) (s : σ) :
    (defaultGroupController.reconcileStep lsController lbArn service serviceAnnos tgGroup
      instancesByPort port s).err =
      (lsController.Reconcile (defaultGroupController.optionsFor lbArn service serviceAnnos
        tgGroup instancesByPort port) s).1 := by
  unfold defaultGroupController.reconcileStep
  split <;> rename_i h <;> rw [h]

/-- A listener the group `Reconcile` is to delete is a listed listener whose port
is not desired. -/
theorem unusedInstances_mem (oDel : RangeOrder) (instances : List elbv2sdk.Listener)
    (ports : List PortData) (inst : elbv2sdk.Listener)
    (h : inst ∈ (oDel.apply ((GoSet.KeySet (instances.foldl
        (fun m inst => m.set (Int64Value inst.Port) inst) GoMap.empty)).Difference
        (ports.foldl (fun set port => set.Insert port.Port) GoSet.empty)).elems).filterMap
        (fun port => (instances.foldl (fun m inst => m.set (Int64Value inst.Port) inst)
          GoMap.empty).get? port)) :
    inst ∈ instances ∧ Int64Value inst.Port ∉ desiredPorts ports := by
  rw [List.mem_filterMap] at h
  obtain ⟨port, hport, hget⟩ := h
  rw [(oDel.perm _).mem_iff, GoSet.mem_Difference, mem_portsInUse] at hport
  have h1 := GoMap.get?_index_some (fun inst : elbv2sdk.Listener => Int64Value inst.Port)
    instances port inst hget
  have h2 : Int64Value inst.Port = port := h1.2
  exact ⟨h1.1, by rw [h2]; exact hport.2⟩

theorem afterPortReconciles_map {σ : Type} (lsController : Controller σ)
    (options : PortData → ReconcileOptions) (ports : List PortData) (s : σ) :
    ports.foldl (fun st port => (lsController.Reconcile (options port) st).2) s =
      lsController.afterPortReconciles (ports.map options) s := by
  unfold Controller.afterPortReconciles
  rw [List.foldl_map]

theorem afterListenerDeletes_map {σ : Type} (cloud : CloudAPI σ)
    (insts : List elbv2sdk.Listener) (s : σ) :
    insts.foldl (fun st inst =>
        (cloud.DeleteListenersByArn (StringValue inst.ListenerArn) st).2) s =
      cloud.afterListenerDeletes (insts.map (fun inst => StringValue inst.ListenerArn)) s := by
  unfold CloudAPI.afterListenerDeletes
  rw [List.foldl_map]

end ls

namespace ls

/-- The two loops of the group `Reconcile`, run one after the other on any map of
instances and any list of listeners to delete: what they call, the state they
leave, and when they end without error, all in terms of the answers of the
listener reconciler and of the cloud. -/
theorem groupReconcile_loops {σ : Type} (cloud : CloudAPI σ) (lsController : Controller σ)
    (lbArn : String) (service : k8s.Service) (serviceAnnos : ServiceAnnos)
    (tgGroup : TargetGroupGroup) (m : GoMap Int elbv2sdk.Listener) (ports : List PortData)
    (U : List elbv2sdk.Listener) (s' : σ) :
    (∃ R restR D restD, ports = R ++ restR ∧ U = D ++ restD ∧ (D ≠ [] → restR = []) ∧
      ((forEach (defaultGroupController.reconcileStep lsController lbArn service serviceAnnos
          tgGroup m) ports s').andThen
        (fun s1 => forEach (defaultGroupController.deleteStep cloud) U s1)).calls =
        R.map (fun port => Call.ControllerReconcile
          (defaultGroupController.optionsFor lbArn service serviceAnnos tgGroup m port)) ++
        D.map (fun inst => Call.DeleteListenersByArn (StringValue inst.ListenerArn)) ∧
      ((forEach (defaultGroupController.reconcileStep lsController lbArn service serviceAnnos
          tgGroup m) ports s').andThen
        (fun s1 => forEach (defaultGroupController.deleteStep cloud) U s1)).state =
        cloud.afterListenerDeletes (D.map (fun inst => StringValue inst.ListenerArn))
          (lsController.afterPortReconciles
            (R.map (defaultGroupController.optionsFor lbArn service serviceAnnos tgGroup m))
            s')) ∧
    (((forEach (defaultGroupController.reconcileStep lsController lbArn service serviceAnnos
          tgGroup m) ports s').andThen
        (fun s1 => forEach (defaultGroupController.deleteStep cloud) U s1)).err = none ↔
      ((∀ pre port post, ports = pre ++ port :: post →
          (lsController.Reconcile
            (defaultGroupController.optionsFor lbArn service serviceAnnos tgGroup m port)
            (lsController.afterPortReconciles
              (pre.map (defaultGroupController.optionsFor lbArn service serviceAnnos tgGroup m))
              s')).1 = none) ∧
        (∀ pre inst post, U = pre ++ inst :: post →
          (cloud.DeleteListenersByArn (StringValue inst.ListenerArn)
            (cloud.afterListenerDeletes (pre.map (fun inst => StringValue inst.ListenerArn))
              (lsController.afterPortReconciles
                (ports.map
                  (defaultGroupController.optionsFor lbArn service serviceAnnos tgGroup m))
                s'))).1 = none))) ∧
    ((∀ pre port post, ports = pre ++ port :: post →
        (lsController.Reconcile
          (defaultGroupController.optionsFor lbArn service serviceAnnos tgGroup m port)
          (lsController.afterPortReconciles
            (pre.map (defaultGroupController.optionsFor lbArn service serviceAnnos tgGroup m))
            s')).1 = none) →
      ∃ D restD, U = D ++ restD ∧
        ((forEach (defaultGroupController.reconcileStep lsController lbArn service
            serviceAnnos tgGroup m) ports s').andThen
          (fun s1 => forEach (defaultGroupController.deleteStep cloud) U s1)).calls =
          ports.map (fun port => Call.ControllerReconcile
            (defaultGroupController.optionsFor lbArn service serviceAnnos tgGroup m port)) ++
          D.map (fun inst => Call.DeleteListenersByArn (StringValue inst.ListenerArn))) ∧
    (((forEach (defaultGroupController.reconcileStep lsController lbArn service serviceAnnos
          tgGroup m) ports s').andThen
        (fun s1 => forEach (defaultGroupController.deleteStep cloud) U s1)).err = none →
      ((forEach (defaultGroupController.reconcileStep lsController lbArn service serviceAnnos
          tgGroup m) ports s').andThen
        (fun s1 => forEach (defaultGroupController.deleteStep cloud) U s1)).calls =
        ports.map (fun port => Call.ControllerReconcile
          (defaultGroupController.optionsFor lbArn service serviceAnnos tgGroup m port)) ++
        U.map (fun inst => Call.DeleteListenersByArn (StringValue inst.ListenerArn))) := by
  have hRiff := forEach_err_none_iff
    (defaultGroupController.reconcileStep lsController lbArn service serviceAnnos tgGroup m)
    (fun port st => (lsController.Reconcile
      (defaultGroupController.optionsFor lbArn service serviceAnnos tgGroup m port) st).2)
    (groupReconcileStep_state lsController lbArn service serviceAnnos tgGroup m) ports s'
  have hRstate := forEach_state_of_ok
    (defaultGroupController.reconcileStep lsController lbArn service serviceAnnos tgGroup m)
    (fun port st => (lsController.Reconcile
      (defaultGroupController.optionsFor lbArn service serviceAnnos tgGroup m port) st).2)
    (groupReconcileStep_state lsController lbArn service serviceAnnos tgGroup m) ports s'
  have hDiff := forEach_err_none_iff (defaultGroupController.deleteStep cloud)
    (fun inst st => (cloud.DeleteListenersByArn (StringValue inst.ListenerArn) st).2)
    (groupDeleteStep_state cloud) U
  obtain ⟨doneR, restR, hsplitR, hcallsR, hstateR, _, hokR, _⟩ := forEach_trace
    (defaultGroupController.reconcileStep lsController lbArn service serviceAnnos tgGroup m)
    (fun port => Call.ControllerReconcile
      (defaultGroupController.optionsFor lbArn service serviceAnnos tgGroup m port))
    (fun port st => (lsController.Reconcile
      (defaultGroupController.optionsFor lbArn service serviceAnnos tgGroup m port) st).2)
    (reconcileStep_calls lsController lbArn service serviceAnnos tgGroup m)
    (groupReconcileStep_state lsController lbArn service serviceAnnos tgGroup m) ports s'
  obtain ⟨doneD, restD, hsplitD, hcallsD, hstateD, _, _, _⟩ := forEach_trace
    (defaultGroupController.deleteStep cloud)
    (fun inst => Call.DeleteListenersByArn (StringValue inst.ListenerArn))
    (fun inst st => (cloud.DeleteListenersByArn (StringValue inst.ListenerArn) st).2)
    (deleteStep_calls cloud) (groupDeleteStep_state cloud) U
    (forEach (defaultGroupController.reconcileStep lsController lbArn service serviceAnnos
      tgGroup m) ports s').state
  rw [afterPortReconciles_map lsController
    (defaultGroupController.optionsFor lbArn service serviceAnnos tgGroup m)] at hstateR
  rw [afterListenerDeletes_map cloud] at hstateD
  have hrecAll : (forEach (defaultGroupController.reconcileStep lsController lbArn service
      serviceAnnos tgGroup m) ports s').err = none ↔
      ∀ pre port post, ports = pre ++ port :: post →
        (lsController.Reconcile
          (defaultGroupController.optionsFor lbArn service serviceAnnos tgGroup m port)
          (lsController.afterPortReconciles
            (pre.map (defaultGroupController.optionsFor lbArn service serviceAnnos tgGroup m))
            s')).1 = none := by
    rw [hRiff]
    constructor
    · intro h pre port post hsplit
      have := h pre port post hsplit
      rw [groupReconcileStep_err, afterPortReconciles_map lsController
        (defaultGroupController.optionsFor lbArn service serviceAnnos tgGroup m)] at this
      exact this
    · intro h pre port post hsplit
      rw [groupReconcileStep_err, afterPortReconciles_map lsController
        (defaultGroupController.optionsFor lbArn service serviceAnnos tgGroup m)]
      exact h pre port post hsplit
  have hdelAll : ∀ s1, (forEach (defaultGroupController.deleteStep cloud) U s1).err = none ↔
      ∀ pre inst post, U = pre ++ inst :: post →
        (cloud.DeleteListenersByArn (StringValue inst.ListenerArn)
          (cloud.afterListenerDeletes (pre.map (fun inst => StringValue inst.ListenerArn))
            s1)).1 = none := by
    intro s1
    rw [hDiff]
    constructor
    · intro h pre inst post hsplit
      have := h pre inst post hsplit
      rw [groupDeleteStep_err, afterListenerDeletes_map cloud] at this
      exact this
    · intro h pre inst post hsplit
      rw [groupDeleteStep_err, afterListenerDeletes_map cloud]
      exact h pre inst post hsplit
  have hstateOk : (forEach (defaultGroupController.reconcileStep lsController lbArn service
      serviceAnnos tgGroup m) ports s').err = none →
      (forEach (defaultGroupController.reconcileStep lsController lbArn service
        serviceAnnos tgGroup m) ports s').state =
        lsController.afterPortReconciles
          (ports.map (defaultGroupController.optionsFor lbArn service serviceAnnos tgGroup m))
          s' := by
    intro h
    rw [hRstate h, afterPortReconciles_map lsController
      (defaultGroupController.optionsFor lbArn service serviceAnnos tgGroup m)]
  refine ⟨?_, ?_, ?_, ?_⟩
  · cases hr : (forEach (defaultGroupController.reconcileStep lsController lbArn service
        serviceAnnos tgGroup m) ports s').err with
    | some e =>
      refine ⟨doneR, restR, [], U, hsplitR, rfl, fun h => absurd rfl h, ?_, ?_⟩
      · rw [Ran.andThen_calls_of_err _ _ (by rw [hr]; simp), hcallsR]
        simp
      · unfold Ran.andThen
        simp only [hr]
        rw [hstateR]
        rfl
    | none =>
      have hrest := (hokR hr).1
      refine ⟨doneR, restR, doneD, restD, hsplitR, hsplitD, fun _ => hrest, ?_, ?_⟩
      · rw [Ran.andThen_calls_of_ok _ _ hr, hcallsR, hcallsD]
      · rw [Ran.andThen_state_of_ok _ _ hr, hstateD, hstateR]
  · rw [Ran.andThen_err_none]
    constructor
    · rintro ⟨h1, h2⟩
      refine ⟨hrecAll.mp h1, ?_⟩
      rw [← hstateOk h1]
      exact (hdelAll _).mp h2
    · rintro ⟨g1, g2⟩
      have h1 := hrecAll.mpr g1
      refine ⟨h1, ?_⟩
      rw [hdelAll, hstateOk h1]
      exact g2
  · intro g1
    have h1 := hrecAll.mpr g1
    refine ⟨doneD, restD, hsplitD, ?_⟩
    rw [Ran.andThen_calls_of_ok _ _ h1, hcallsD,
      forEach_calls_of_ok _ _ (reconcileStep_calls lsController lbArn service serviceAnnos
        tgGroup m) _ _ h1]
  · intro hok
    obtain ⟨h1, h2⟩ := (Ran.andThen_err_none _ _).mp hok
    rw [Ran.andThen_calls_of_ok _ _ h1,
      forEach_calls_of_ok _ _ (reconcileStep_calls lsController lbArn service serviceAnnos
        tgGroup m) _ _ h1,
      forEach_calls_of_ok _ _ (deleteStep_calls cloud) _ _ h2]

end ls

namespace ls

/-- Claim C6, amended. For every list of existing listeners on the load balancer
and every list of desired ports, after the listing succeeded: the group
`Reconcile` calls the listener reconciler for the desired ports in turn, each
with the existing listener at that port (nil exactly when there is none), and,
only once all of them are through, issues delete calls, and only for existing
listeners whose port is not a desired port: no listener at a desired port is
deleted, in any run. When every per-port reconcile succeeds, every desired port
is delegated. The run ends without error exactly when the listener reconciler
answers success for every desired port and the cloud answers success to the
delete of every listener that is to be deleted, each asked at the state the calls
before it left; then the delete calls are all of these listeners, which are,
when the existing listeners have pairwise distinct ports, exactly the existing
listeners whose port is not a desired port. -/
theorem groupReconcile_delegates_ports_then_deletes_unused {σ : Type} (store : Storer)
    (cloud : CloudAPI σ) (lsController : Controller σ) (oDel : RangeOrder) (lbArn : String)
    (service : k8s.Service) (tgGroup : TargetGroupGroup) (s s' : σ)
    (serviceAnnos : ServiceAnnos) (instances : List elbv2sdk.Listener)
    (hannos : store.GetServiceAnnotations (k8s.MetaNamespaceKey service) = .ok serviceAnnos)
    (hlist : cloud.ListListenersByLoadBalancer lbArn s = (.ok instances, s')) :
    ∃ (existing : PortData → Option elbv2sdk.Listener) (options : PortData → ReconcileOptions)
      (U : List elbv2sdk.Listener),
      (∀ port, options port =
        { LBArn := lbArn, Service := service, ServiceAnnos := serviceAnnos, Port := port,
          TGGroup := tgGroup, Instance := existing port }) ∧
      (∀ port inst, existing port = some inst →
        (inst ∈ instances ∧ Int64Value inst.Port = port.Port)) ∧
      (∀ port, existing port = none ↔ port.Port ∉ instancePorts instances) ∧
      ((instancePorts instances).Nodup → ∀ port inst, existing port = some inst ↔
        (inst ∈ instances ∧ Int64Value inst.Port = port.Port)) ∧
      U.Nodup ∧
      (∀ inst ∈ U, inst ∈ instances ∧
        Int64Value inst.Port ∉ desiredPorts serviceAnnos.LoadBalancer.Ports) ∧
      ((instancePorts instances).Nodup → ∀ inst, inst ∈ U ↔
        (inst ∈ instances ∧
          Int64Value inst.Port ∉ desiredPorts serviceAnnos.LoadBalancer.Ports)) ∧
      (∃ R restR D restD, serviceAnnos.LoadBalancer.Ports = R ++ restR ∧ U = D ++ restD ∧
        (D ≠ [] → restR = []) ∧
        (defaultGroupController.Reconcile store cloud lsController oDel lbArn service
          tgGroup s).calls =
          Call.ListListenersByLoadBalancer lbArn ::
            (R.map (fun port => Call.ControllerReconcile (options port)) ++
              D.map (fun inst => Call.DeleteListenersByArn (StringValue inst.ListenerArn))) ∧
        (defaultGroupController.Reconcile store cloud lsController oDel lbArn service
          tgGroup s).state =
          cloud.afterListenerDeletes (D.map (fun inst => StringValue inst.ListenerArn))
            (lsController.afterPortReconciles (R.map options) s')) ∧
      ((defaultGroupController.Reconcile store cloud lsController oDel lbArn service
          tgGroup s).err = none ↔
        ((∀ pre port post, serviceAnnos.LoadBalancer.Ports = pre ++ port :: post →
            (lsController.Reconcile (options port)
              (lsController.afterPortReconciles (pre.map options) s')).1 = none) ∧
          (∀ pre inst post, U = pre ++ inst :: post →
            (cloud.DeleteListenersByArn (StringValue inst.ListenerArn)
              (cloud.afterListenerDeletes
                (pre.map (fun inst => StringValue inst.ListenerArn))
                (lsController.afterPortReconciles
                  (serviceAnnos.LoadBalancer.Ports.map options) s'))).1 = none))) ∧
      ((∀ pre port post, serviceAnnos.LoadBalancer.Ports = pre ++ port :: post →
          (lsController.Reconcile (options port)
            (lsController.afterPortReconciles (pre.map options) s')).1 = none) →
        ∃ D restD, U = D ++ restD ∧
          (defaultGroupController.Reconcile store cloud lsController oDel lbArn service
            tgGroup s).calls =
            Call.ListListenersByLoadBalancer lbArn ::
              (serviceAnnos.LoadBalancer.Ports.map
                  (fun port => Call.ControllerReconcile (options port)) ++
                D.map (fun inst =>
                  Call.DeleteListenersByArn (StringValue inst.ListenerArn)))) ∧
      ((defaultGroupController.Reconcile store cloud lsController oDel lbArn service
          tgGroup s).err = none →
        (defaultGroupController.Reconcile store cloud lsController oDel lbArn service
          tgGroup s).calls =
          Call.ListListenersByLoadBalancer lbArn ::
            (serviceAnnos.LoadBalancer.Ports.map
                (fun port => Call.ControllerReconcile (options port)) ++
              U.map (fun inst =>
                Call.DeleteListenersByArn (StringValue inst.ListenerArn)))) := by
  obtain ⟨hA, hB, hC, hD⟩ := groupReconcile_loops cloud lsController lbArn service
    serviceAnnos tgGroup
    (instances.foldl (fun m inst => m.set (Int64Value inst.Port) inst) GoMap.empty)
    serviceAnnos.LoadBalancer.Ports
    ((oDel.apply ((GoSet.KeySet (instances.foldl
        (fun m inst => m.set (Int64Value inst.Port) inst) GoMap.empty)).Difference
        (serviceAnnos.LoadBalancer.Ports.foldl (fun set port => set.Insert port.Port)
          GoSet.empty)).elems).filterMap
      (fun port => (instances.foldl (fun m inst => m.set (Int64Value inst.Port) inst)
        GoMap.empty).get? port)) s'
  refine ⟨fun port => (instances.foldl (fun m inst => m.set (Int64Value inst.Port) inst)
      GoMap.empty).get? port.Port,
    defaultGroupController.optionsFor lbArn service serviceAnnos tgGroup
      (instances.foldl (fun m inst => m.set (Int64Value inst.Port) inst) GoMap.empty),
    _, ?_, ?_, ?_, ?_,
    nodup_unusedInstances oDel instances serviceAnnos.LoadBalancer.Ports,
    unusedInstances_mem oDel instances serviceAnnos.LoadBalancer.Ports,
    mem_unusedInstances oDel instances serviceAnnos.LoadBalancer.Ports, ?_, ?_, ?_, ?_⟩
  · intro port
    rfl
  · intro port inst h
    exact GoMap.get?_index_some (fun inst : elbv2sdk.Listener => Int64Value inst.Port)
      instances port.Port inst h
  · intro port
    have hk := GoMap.mem_keys_iff_get?
      (instances.foldl (fun m inst => m.set (Int64Value inst.Port) inst) GoMap.empty)
      port.Port
    have hi := GoMap.mem_keys_index (fun inst : elbv2sdk.Listener => Int64Value inst.Port)
      instances port.Port
    unfold instancePorts
    constructor
    · intro hnone hmem
      exact (hk.mp (hi.mpr hmem)) hnone
    · intro hnot
      by_contra hne
      exact hnot (hi.mp (hk.mpr hne))
  · intro hnodup port inst
    exact GoMap.get?_index_iff_of_nodup (fun inst : elbv2sdk.Listener => Int64Value inst.Port)
      instances hnodup port.Port inst
  · obtain ⟨R, restR, D, restD, h1, h2, h3, h4, h5⟩ := hA
    refine ⟨R, restR, D, restD, h1, h2, h3, ?_, ?_⟩
    · simp only [defaultGroupController.Reconcile, hannos, loadListenerInstances, hlist]
      rw [h4]
    · simp only [defaultGroupController.Reconcile, hannos, loadListenerInstances, hlist]
      rw [h5]
  · simp only [defaultGroupController.Reconcile, hannos, loadListenerInstances, hlist]
    exact hB
  · intro hrec
    obtain ⟨D, restD, h1, h2⟩ := hC hrec
    refine ⟨D, restD, h1, ?_⟩
    simp only [defaultGroupController.Reconcile, hannos, loadListenerInstances, hlist]
    rw [h2]
  · intro hok
    simp only [defaultGroupController.Reconcile, hannos, loadListenerInstances, hlist] at hok ⊢
    rw [hD hok]

end ls

namespace ls

/-- Witness of C6: existing listeners at 80 and 443, desired port 443: the port is
delegated with the listener at 443 and the listener at 80 is deleted. -/
theorem groupReconcile_delegates_ports_then_deletes_unused_witness :
    (∃ (options : PortData → ReconcileOptions) (U : List elbv2sdk.Listener),
      (∀ inst, inst ∈ U ↔
        (inst ∈ [exListener "arn:ls/80" 80, exListener "arn:ls/443" 443] ∧
          Int64Value inst.Port ∉ desiredPorts [⟨443, "TCP"⟩])) ∧
      (defaultGroupController.Reconcile (exStore [⟨443, "TCP"⟩]) (exCloud []) exController
        RangeOrder.stored "arn:lb/1" exService exTGGroup
        ⟨[exListener "arn:ls/80" 80, exListener "arn:ls/443" 443], []⟩).calls =
        Call.ListListenersByLoadBalancer "arn:lb/1" ::
          (([⟨443, "TCP"⟩] : List PortData).map
              (fun port => Call.ControllerReconcile (options port)) ++
            U.map (fun inst => Call.DeleteListenersByArn (StringValue inst.ListenerArn)))) ∧
    (defaultGroupController.Reconcile (exStore [⟨443, "TCP"⟩]) (exCloud []) exController
        RangeOrder.stored "arn:lb/1" exService exTGGroup
        ⟨[exListener "arn:ls/80" 80, exListener "arn:ls/443" 443], []⟩).calls =
      [Call.ListListenersByLoadBalancer "arn:lb/1",
        Call.ControllerReconcile
          { LBArn := "arn:lb/1", Service := exService,
            ServiceAnnos := { LoadBalancer := { Ports := [⟨443, "TCP"⟩] } },
            Port := ⟨443, "TCP"⟩, TGGroup := exTGGroup,
            Instance := some (exListener "arn:ls/443" 443) },
        Call.DeleteListenersByArn "arn:ls/80"] ∧
    (defaultGroupController.Reconcile (exStore [⟨443, "TCP"⟩]) (exCloud []) exController
        RangeOrder.stored "arn:lb/1" exService exTGGroup
        ⟨[exListener "arn:ls/80" 80, exListener "arn:ls/443" 443], []⟩).state =
      ⟨[exListener "arn:ls/443" 443], []⟩ :=
  ⟨Exists.elim
    (groupReconcile_delegates_ports_then_deletes_unused (exStore [⟨443, "TCP"⟩]) (exCloud [])
      exController RangeOrder.stored "arn:lb/1" exService exTGGroup
      ⟨[exListener "arn:ls/80" 80, exListener "arn:ls/443" 443], []⟩
      ⟨[exListener "arn:ls/80" 80, exListener "arn:ls/443" 443], []⟩
      { LoadBalancer := { Ports := [⟨443, "TCP"⟩] } }
      [exListener "arn:ls/80" 80, exListener "arn:ls/443" 443] rfl rfl)
    (fun _ h => Exists.elim h (fun options h => Exists.elim h (fun U h =>
      ⟨options, U, h.2.2.2.2.2.2.1 (by decide),
        h.2.2.2.2.2.2.2.2.2.2 (by decide)⟩))),
    by decide, by decide⟩

end ls
